import Mathlib

/-!
# Kernel execution core of `oneflow/core/kernel/kernel.cpp`

A shallow embedding of the generic forward/backward orchestration of a kernel:
buffers live in a heap addressed by pointers, a binding resolver maps binding
names to pointers (or to the null pointer), and every operation is a state
transformer that either completes or stops at a fatal error, keeping the state
reached at that point.  A ghost trace records which operations were invoked.
-/

namespace oneflow

/-! ## Data model -/

/-- Address of a buffer; the null pointer is `none : Option Ptr`. -/
abbrev Ptr := Nat

/-- Binding resolver `std::function<Blob*(const std::string&)>`. -/
abbrev Resolver := String → Option Ptr

/-- Activation enumeration of the operator configuration. -/
inductive ActivationType where
  | kNone
  | kTanH
  | kSigmoid
  | kRelu
deriving DecidableEq, Repr

/-- Modelled from the spec: the Buffer type (class `Blob`, declared outside the
sources of `kernel.cpp`).  A buffer has a static and a runtime shape, a data region and
optional metadata fields; an absent field is `none` (its pointer is null and
its byte size is zero).  Metadata entries are 64-bit integers, data elements
are kept as uninterpreted scalar codes. -/
structure Blob where
  static_shape : List Int
  shape : List Int
  dim0_inner_shape : Option (List Int)
  dim0_valid_num_ptr : Option (List Int)
  dim1_valid_num_ptr : Option (List Int)
  dim2_valid_num_ptr : Option (List Int)
  record_id_in_device_piece_ptr : Option (List Int)
  data_id_ptr : Option (List Int)
  col_num_ptr : Option (List Int)
  header_ptr : Option (List Int)
  dptr : List Int
deriving DecidableEq, Repr

/-- The member-function pointers `&Blob::Copy...From` handed to `CopyField`. -/
inductive CopyKind where
  | CopyDataIdFrom
  | CopyColNumFrom
  | CopyDim0ValidNumFrom
  | CopyRecordIdInDevicePieceFrom
  | CopyHeaderFrom
deriving DecidableEq, Repr

namespace Blob

/-- Modelled from the spec: `Shape::elem_cnt`, the product of the extents. -/
def elem_cnt (b : Blob) : Int := b.shape.prod

/-- Modelled from the spec: `Blob::IsShapeEmpty`, the runtime shape holds no
element. -/
def IsShapeEmpty (b : Blob) : Bool := b.elem_cnt == 0

/-- Modelled from the spec: `Blob::has_dim0_valid_num_field`. -/
def has_dim0_valid_num_field (b : Blob) : Bool := b.dim0_valid_num_ptr.isSome

/-- Modelled from the spec: `Blob::has_dim0_inner_shape`. -/
def has_dim0_inner_shape (b : Blob) : Bool := b.dim0_inner_shape.isSome

/-- Modelled from the spec: `Blob::ByteSizeOfDim0ValidNumField`, eight bytes
per partition entry, zero without the field. -/
def ByteSizeOfDim0ValidNumField (b : Blob) : Nat :=
  match b.dim0_valid_num_ptr with
  | some d => 8 * d.length
  | none => 0

/-- The metadata field a copy kind transfers. -/
def field (k : CopyKind) (b : Blob) : Option (List Int) :=
  match k with
  | .CopyDataIdFrom => b.data_id_ptr
  | .CopyColNumFrom => b.col_num_ptr
  | .CopyDim0ValidNumFrom => b.dim0_valid_num_ptr
  | .CopyRecordIdInDevicePieceFrom => b.record_id_in_device_piece_ptr
  | .CopyHeaderFrom => b.header_ptr

/-- Modelled from the spec: the field-copy operations `Blob::Copy...From`
(class `Blob` is declared outside `kernel.cpp`): the destination receives the
source's field of that kind, nothing else changes. -/
def CopyFrom (k : CopyKind) (dst src : Blob) : Blob :=
  match k with
  | .CopyDataIdFrom => { dst with data_id_ptr := src.data_id_ptr }
  | .CopyColNumFrom => { dst with col_num_ptr := src.col_num_ptr }
  | .CopyDim0ValidNumFrom => { dst with dim0_valid_num_ptr := src.dim0_valid_num_ptr }
  | .CopyRecordIdInDevicePieceFrom =>
      { dst with record_id_in_device_piece_ptr := src.record_id_in_device_piece_ptr }
  | .CopyHeaderFrom => { dst with header_ptr := src.header_ptr }

/-- The `std::memset(blob->mut_dim0_valid_num_ptr(), 0, ByteSize...)` of
`ClearBlobDim0ValidNumIfNeed`: every entry of the field becomes zero. -/
def memset_dim0_valid_num (b : Blob) : Blob :=
  { b with dim0_valid_num_ptr := b.dim0_valid_num_ptr.map fun d => List.replicate d.length 0 }

end Blob

/-- Heap of buffers. -/
abbrev Heap := Ptr → Blob

/-- Store a buffer at an address. -/
def Heap.set (h : Heap) (p : Ptr) (b : Blob) : Heap :=
  fun q => if q = p then b else h q

/-- Ways an invocation stops: a failed `CHECK`, a null-pointer dereference, an
index outside a repeated field or shape, `UNIMPLEMENTED()`, or a failure
inside an operator-specific override. -/
inductive KErr where
  | check
  | null
  | range
  | unimplemented
  | hook
deriving DecidableEq, Repr

/-- Ghost trace entries: one per invoked operation. -/
inductive Event where
  | InitConstBufBlobs
  | InitModelBlobsWithRandomSeed
  | InitModelBlobsWithDir (part_id part_num : Int) (model_load_dir : String)
  | ForwardDim0ValidNum
  | ForwardDim1ValidNum
  | ForwardDim2ValidNum
  | ForwardRecordIdInDevicePiece
  | ForwardDataContent (r : Resolver)
  | ForwardActivation (out_blob : Option Ptr)
  | ForwardPackedHeader
  | ForwardDataId
  | ForwardColNum
  | BackwardModelDiffDim0ValidNum
  | BackwardInDiffDim0ValidNum
  | BackwardActivation (out_blob out_diff_blob bw_activation_blob : Option Ptr)
  | BackwardDataContent (r : Resolver)
  | BackwardDataId
  | BackwardColNum
  | SetTotalInstanceNumDiffBlob
  | Copy (k : CopyKind) (to_blob from_blob : Ptr)
  | Set (to_blob : Ptr) (value : Int)

/-- Program state: the buffers and the ghost trace. -/
structure KState where
  heap : Heap
  trace : List Event

/-- Outcome of an invocation, with the state reached. -/
inductive Result (α : Type) where
  | ok (a : α) (s : KState)
  | fatal (e : KErr) (s : KState)

/-- State transformers that may stop at a fatal error. -/
def KM (α : Type) : Type := KState → Result α

namespace KM

/-- Completes with a value. -/
def ret {α : Type} (a : α) : KM α := fun s => .ok a s

/-- Sequencing: a fatal error stops the rest. -/
def seq {α β : Type} (m : KM α) (f : α → KM β) : KM β := fun s =>
  match m s with
  | .ok a s1 => f a s1
  | .fatal e s1 => .fatal e s1

instance : Monad KM where
  pure := ret
  bind := seq

/-- Stop with a fatal error. -/
def fail {α : Type} (e : KErr) : KM α := fun s => .fatal e s

/-- Append an entry to the ghost trace. -/
def log (ev : Event) : KM Unit := fun s => .ok () { s with trace := s.trace ++ [ev] }

/-- Dereference a possibly null pointer. -/
def deref (p : Option Ptr) : KM Blob := fun s =>
  match p with
  | some q => .ok (s.heap q) s
  | none => .fatal .null s

/-- Address behind a possibly null pointer that is about to be written. -/
def nonnull (p : Option Ptr) : KM Ptr := fun s =>
  match p with
  | some q => .ok q s
  | none => .fatal .null s

/-- Write a buffer back. -/
def store (p : Ptr) (b : Blob) : KM Unit := fun s =>
  .ok () { s with heap := s.heap.set p b }

/-- Run an operator-specific override on the heap. -/
def runHook (f : Heap → Except KErr Heap) : KM Unit := fun s =>
  match f s.heap with
  | .ok h => .ok () { s with heap := h }
  | .error e => .fatal e s

end KM

/-- The `CHECK` family of glog macros. -/
def CHECK (c : Bool) : KM Unit := if c then pure () else KM.fail .check

/-- The statement `if (c) { body }` without an else branch. -/
def IF (c : Bool) (body : KM Unit) : KM Unit := if c then body else pure ()

/-- Access `bns.Get(i)` / `bns[i]` of a repeated string field. -/
def PbRpf_Get (bns : List String) (i : Nat) : KM String :=
  match bns.get? i with
  | some bn => pure bn
  | none => KM.fail .range

/-- Access `Shape::At(i)`. -/
def Shape_At (shape : List Int) (i : Nat) : KM Int :=
  match shape.get? i with
  | some d => pure d
  | none => KM.fail .range

/-- The loop `FOR_RANGE(type, i, lo, hi)`. -/
def FOR_RANGE (lo hi : Nat) (body : Nat → KM Unit) : KM Unit :=
  (List.range' lo (hi - lo)).forM body

/-- Value of a signed 64-bit quantity after conversion to `int32_t`. -/
def to_int32 (x : Int) : Int := (x + 2 ^ 31) % 2 ^ 32 - 2 ^ 31

/-- The `std::memcmp(p, mem_ptr, len) == 0` of the consistency checks, on
fields of 64-bit entries: the first `len` bytes of both fields agree.  With
`len = 0` nothing is read; otherwise reading a null field or past the end of a
field stops the invocation. -/
def memcmp_eq_zero (p mem_ptr : Option (List Int)) (len : Nat) : KM Bool :=
  if len = 0 then pure true
  else
    match p, mem_ptr with
    | some d, some d0 =>
        if len / 8 ≤ d.length ∧ len / 8 ≤ d0.length then
          pure (decide (d.take (len / 8) = d0.take (len / 8)))
        else KM.fail .range
    | _, _ => KM.fail .null

/-! ## Configuration -/

/-- Operator configuration fields read by the kernel. -/
structure OperatorConf where
  name : String
  model_load_dir : String

/-- Operator attributes: the ordered binding groups. -/
structure OpAttribute where
  op_conf : OperatorConf
  input_bns : List String
  output_bns : List String
  model_bns : List String
  model_diff_bns : List String
  input_diff_bns : List String
  output_diff_bns : List String

/-- Kernel configuration: operator attributes and propagation flags. -/
structure KernelConf where
  op_attribute : OpAttribute
  is_forward : Bool
  need_do_dim0_valid_num : Bool
  need_do_dim1_valid_num : Bool
  need_do_dim2_valid_num : Bool
  need_do_record_id_in_device_piece : Bool
  need_do_opaque_header : Bool
  need_do_data_id : Bool
  need_do_col_num : Bool
  can_naive_do_dim0_valid_num : Bool
  can_naive_do_record_id_in_device_piece : Bool

/-- Snapshot handle: maps an operator name to its directory. -/
structure Snapshot where
  GetDirFromOpName : String → String

/-- Parallel context, opaque to the kernel core. -/
structure ParallelContext where
  parallel_id : Int
  parallel_num : Int

/-- A kernel: its configuration together with the operator-specific overrides
and external collaborators the core calls (all declared outside `kernel.cpp`,
hence parameters here). -/
structure Kernel where
  kernel_conf : KernelConf
  NeedForwardIfBlobEmpty : Bool
  NeedBackwardIfBlobEmpty : Bool
  GetActivationType : ActivationType
  SnapshotFS_IsDirectory : String → Bool
  GetPartIdAndPartNumFromParallelCtx : ParallelContext → Int × Int
  init_const_buf_blobs : Resolver → Heap → Except KErr Heap
  init_model_blobs_with_random_seed : Resolver → Heap → Except KErr Heap
  init_model_blobs_with_dir : Int → Int → String → Resolver → Heap → Except KErr Heap
  forward_data_content : Resolver → Heap → Except KErr Heap
  backward_data_content : Resolver → Heap → Except KErr Heap
  forward_dim1_valid_num : Resolver → Heap → Except KErr Heap
  forward_dim2_valid_num : Resolver → Heap → Except KErr Heap
  kernel_util_activation : ActivationType → Int → Int
  kernel_util_activation_backward : ActivationType → Int → Int → Int → Int
  static_cast_T : Int → Int

namespace Kernel

/-- Accessor `op_attribute()`. -/
def op_attribute (k : Kernel) : OpAttribute := k.kernel_conf.op_attribute

/-- Accessor `op_conf()`. -/
def op_conf (k : Kernel) : OperatorConf := k.kernel_conf.op_attribute.op_conf

end Kernel

/-! ## Anonymous-namespace helpers -/

/-- Source `CheckSameDim0ValidNum`. -/
def CheckSameDim0ValidNum (bns : List String) (BnInOp2Blob : Resolver) : KM Unit := do
  let blob0 ← KM.deref (BnInOp2Blob (← PbRpf_Get bns 0))
  let mem_ptr := blob0.dim0_valid_num_ptr
  let len := blob0.ByteSizeOfDim0ValidNumField
  FOR_RANGE 1 bns.length fun i => do
    let blob ← KM.deref (BnInOp2Blob (← PbRpf_Get bns i))
    CHECK (← memcmp_eq_zero blob.dim0_valid_num_ptr mem_ptr len)

/-- Modelled from the spec: `CheckSameRecordIdInDevicePiece` (called by the
source, defined outside it), the record-id analogue of
`CheckSameDim0ValidNum`. -/
def CheckSameRecordIdInDevicePiece (bns : List String) (BnInOp2Blob : Resolver) : KM Unit := do
  let blob0 ← KM.deref (BnInOp2Blob (← PbRpf_Get bns 0))
  let mem_ptr := blob0.record_id_in_device_piece_ptr
  let len := match mem_ptr with
    | some d => 8 * d.length
    | none => 0
  FOR_RANGE 1 bns.length fun i => do
    let blob ← KM.deref (BnInOp2Blob (← PbRpf_Get bns i))
    CHECK (← memcmp_eq_zero blob.record_id_in_device_piece_ptr mem_ptr len)

/-- Source `ClearBlobDim0ValidNumIfNeed`. -/
def ClearBlobDim0ValidNumIfNeed (bns : List String) (BnInOp2Blob : Resolver) : KM Unit :=
  bns.forM fun bn => do
    match BnInOp2Blob bn with
    | none => pure ()
    | some p =>
        let blob ← KM.deref (some p)
        if blob.has_dim0_valid_num_field then KM.store p blob.memset_dim0_valid_num
        else pure ()

/-- Invocation `(to_blob->*Copy)(ctx, from_blob)` of a field copy. -/
def Blob_Copy (Copy : CopyKind) (to_blob from_blob : Option Ptr) : KM Unit := do
  let t ← KM.nonnull to_blob
  let f ← KM.nonnull from_blob
  KM.log (.Copy Copy t f)
  let dst ← KM.deref (some t)
  let src ← KM.deref (some f)
  KM.store t (dst.CopyFrom Copy src)

namespace Blob

/-- Modelled from the spec: the accessor `Blob::dim0_valid_num(no)`. -/
def dim0_valid_num (b : Blob) (no : Nat) : KM Int :=
  match b.dim0_valid_num_ptr with
  | none => KM.fail .null
  | some d =>
      match d.get? no with
      | some v => pure v
      | none => KM.fail .range

/-- Modelled from the spec: the mutator `Blob::set_dim0_valid_num(no, val)`,
in-place mutation of one entry of the field. -/
def set_dim0_valid_num (b : Blob) (no : Nat) (val : Int) : KM Blob :=
  match b.dim0_valid_num_ptr with
  | none => KM.fail .null
  | some d =>
      if no < d.length then pure { b with dim0_valid_num_ptr := some (d.set no val) }
      else KM.fail .range

/-- Modelled from the spec: the accessor `Blob::dim0_inner_shape()`. -/
def get_dim0_inner_shape (b : Blob) : KM (List Int) :=
  match b.dim0_inner_shape with
  | some sh => pure sh
  | none => KM.fail .null

end Blob

/-- Modelled from the spec: `KernelUtil<device_type, T>::Set(ctx, value, ptr)`
(declared outside `kernel.cpp`) stores one scalar at the start of a data region. -/
def KernelUtil_Set (value : Int) (to_blob : Ptr) : KM Unit := do
  KM.log (.Set to_blob value)
  let blob ← KM.deref (some to_blob)
  match blob.dptr with
  | [] => KM.fail .range
  | _ :: rest => KM.store to_blob { blob with dptr := value :: rest }

namespace Kernel

/-! ## `Kernel` -/

/-- Invocation of the `InitConstBufBlobs` override. -/
def InitConstBufBlobs (k : Kernel) (BnInOp2Blob : Resolver) : KM Unit := do
  KM.log .InitConstBufBlobs
  KM.runHook (k.init_const_buf_blobs BnInOp2Blob)

/-- Invocation of the `InitModelBlobsWithRandomSeed` override. -/
def InitModelBlobsWithRandomSeed (k : Kernel) (BnInOp2Blob : Resolver) : KM Unit := do
  KM.log .InitModelBlobsWithRandomSeed
  KM.runHook (k.init_model_blobs_with_random_seed BnInOp2Blob)

/-- Invocation of the `InitModelBlobsWithDir` override. -/
def InitModelBlobsWithDir (k : Kernel) (part_id part_num : Int) (model_load_dir : String)
    (BnInOp2Blob : Resolver) : KM Unit := do
  KM.log (.InitModelBlobsWithDir part_id part_num model_load_dir)
  KM.runHook (k.init_model_blobs_with_dir part_id part_num model_load_dir BnInOp2Blob)

/-- Source `Kernel::InitModelAndConstBuf`. -/
def InitModelAndConstBuf (k : Kernel) (parallel_ctx : ParallelContext)
    (snapshot : Option Snapshot) (BnInOp2Blob : Resolver) : KM Unit := do
  k.InitConstBufBlobs BnInOp2Blob
  let model_load_dir : String :=
    match snapshot with
    | some snap =>
        let snapshot_load_path := snap.GetDirFromOpName k.op_conf.name
        if k.SnapshotFS_IsDirectory snapshot_load_path then snapshot_load_path else ""
    | none => k.op_conf.model_load_dir
  if model_load_dir = "" then
    k.InitModelBlobsWithRandomSeed BnInOp2Blob
  else
    let part := k.GetPartIdAndPartNumFromParallelCtx parallel_ctx
    k.InitModelBlobsWithDir part.1 part.2 model_load_dir BnInOp2Blob

/-- Source `Kernel::HasEmptyShapeBlob`, as a function of the heap it reads. -/
def hasEmptyShapeBlobIn (bns : List String) (BnInOp2Blob : Resolver) (h : Heap) : Bool :=
  bns.any fun bn =>
    match BnInOp2Blob bn with
    | some p => (h p).IsShapeEmpty
    | none => false

/-- Source `Kernel::HasEmptyShapeBlob`. -/
def HasEmptyShapeBlob (_k : Kernel) (bns : List String) (BnInOp2Blob : Resolver) : KM Bool :=
  fun s => .ok (hasEmptyShapeBlobIn bns BnInOp2Blob s.heap) s

/-- Source `KernelIf::CopyField`, overload taking the source buffer. -/
def CopyField_from_blob (_k : Kernel) (BnInOp2Blob : Resolver) (from_blob : Option Ptr)
    (to_bns : List String) (Copy : CopyKind) : KM Unit :=
  to_bns.forM fun to_bn => Blob_Copy Copy (BnInOp2Blob to_bn) from_blob

/-- Source `KernelIf::CopyField`, overload taking the source bindings. -/
def CopyField (k : Kernel) (BnInOp2Blob : Resolver) (from_bns to_bns : List String)
    (Copy : CopyKind) : KM Unit := do
  if from_bns.length = 1 then
    let in_blob := BnInOp2Blob (← PbRpf_Get from_bns 0)
    k.CopyField_from_blob BnInOp2Blob in_blob to_bns Copy
  else if to_bns.length = 1 then
    let in_blob := BnInOp2Blob (← PbRpf_Get from_bns 0)
    let out_blob := BnInOp2Blob (← PbRpf_Get to_bns 0)
    Blob_Copy Copy out_blob in_blob
  else
    CHECK (from_bns.length == 0 || to_bns.length == 0)

/-- Source `KernelIf::ForwardField`. -/
def ForwardField (k : Kernel) (BnInOp2Blob : Resolver) (Copy : CopyKind) : KM Unit :=
  k.CopyField BnInOp2Blob k.op_attribute.input_bns k.op_attribute.output_bns Copy

/-- Source `KernelIf::ForwardDataId`. -/
def ForwardDataId (k : Kernel) (BnInOp2Blob : Resolver) : KM Unit := do
  KM.log .ForwardDataId
  k.ForwardField BnInOp2Blob .CopyDataIdFrom

/-- Source `KernelIf::ForwardColNum`. -/
def ForwardColNum (k : Kernel) (BnInOp2Blob : Resolver) : KM Unit := do
  KM.log .ForwardColNum
  k.ForwardField BnInOp2Blob .CopyColNumFrom

/-- Source `KernelIf::ForwardDim0ValidNum`. -/
def ForwardDim0ValidNum (k : Kernel) (BnInOp2Blob : Resolver) : KM Unit := do
  KM.log .ForwardDim0ValidNum
  CHECK k.kernel_conf.can_naive_do_dim0_valid_num
  CheckSameDim0ValidNum k.op_attribute.input_bns BnInOp2Blob
  let from_blob := BnInOp2Blob (← PbRpf_Get k.op_attribute.input_bns 0)
  k.CopyField_from_blob BnInOp2Blob from_blob k.op_attribute.output_bns .CopyDim0ValidNumFrom

/-- Source `KernelIf::ForwardRecordIdInDevicePiece`. -/
def ForwardRecordIdInDevicePiece (k : Kernel) (BnInOp2Blob : Resolver) : KM Unit := do
  KM.log .ForwardRecordIdInDevicePiece
  CHECK k.kernel_conf.can_naive_do_record_id_in_device_piece
  CheckSameRecordIdInDevicePiece k.op_attribute.input_bns BnInOp2Blob
  let from_blob := BnInOp2Blob (← PbRpf_Get k.op_attribute.input_bns 0)
  k.CopyField_from_blob BnInOp2Blob from_blob k.op_attribute.output_bns
    .CopyRecordIdInDevicePieceFrom

/-- Invocation of the `ForwardDim1ValidNum` override. -/
def ForwardDim1ValidNum (k : Kernel) (BnInOp2Blob : Resolver) : KM Unit := do
  KM.log .ForwardDim1ValidNum
  KM.runHook (k.forward_dim1_valid_num BnInOp2Blob)

/-- Invocation of the `ForwardDim2ValidNum` override. -/
def ForwardDim2ValidNum (k : Kernel) (BnInOp2Blob : Resolver) : KM Unit := do
  KM.log .ForwardDim2ValidNum
  KM.runHook (k.forward_dim2_valid_num BnInOp2Blob)

/-- Invocation of the `ForwardDataContent` override. -/
def ForwardDataContent (k : Kernel) (BnInOp2Blob : Resolver) : KM Unit := do
  KM.log (.ForwardDataContent BnInOp2Blob)
  KM.runHook (k.forward_data_content BnInOp2Blob)

/-- Invocation of the `BackwardDataContent` override. -/
def BackwardDataContent (k : Kernel) (BnInOp2Blob : Resolver) : KM Unit := do
  KM.log (.BackwardDataContent BnInOp2Blob)
  KM.runHook (k.backward_data_content BnInOp2Blob)

/-- Source `KernelIf::ForwardPackedHeader`. -/
def ForwardPackedHeader (k : Kernel) (BnInOp2Blob : Resolver) : KM Unit := do
  KM.log .ForwardPackedHeader
  k.CopyField BnInOp2Blob k.op_attribute.input_bns k.op_attribute.output_bns .CopyHeaderFrom

/-- Source `KernelIfWithActivation::ForwardActivation`. -/
def ForwardActivation (k : Kernel) (out_blob : Option Ptr) : KM Unit := do
  KM.log (.ForwardActivation out_blob)
  let p ← KM.nonnull out_blob
  let blob ← KM.deref (some p)
  let elem_cnt := blob.elem_cnt.toNat
  match k.GetActivationType with
  | .kNone => KM.fail .unimplemented
  | t =>
      KM.store p { blob with
        dptr := (blob.dptr.take elem_cnt).map (k.kernel_util_activation t)
                  ++ blob.dptr.drop elem_cnt }

/-- Source `KernelIfWithActivation::BackwardActivation`. -/
def BackwardActivation (k : Kernel) (out_blob out_diff_blob bw_activation_blob : Option Ptr) :
    KM Unit := do
  KM.log (.BackwardActivation out_blob out_diff_blob bw_activation_blob)
  let out ← KM.deref out_blob
  let elem_cnt := out.elem_cnt.toNat
  match k.GetActivationType with
  | .kNone => KM.fail .unimplemented
  | t =>
      let out_diff ← KM.deref out_diff_blob
      let p ← KM.nonnull bw_activation_blob
      let bw ← KM.deref (some p)
      KM.store p { bw with
        dptr := List.zipWith (fun y dy => k.kernel_util_activation_backward t y y dy)
                    (out.dptr.take elem_cnt) (out_diff.dptr.take elem_cnt)
                  ++ bw.dptr.drop elem_cnt }

/-- Source `Kernel::Forward`. -/
def Forward (k : Kernel) (BnInOp2Blob : Resolver) : KM Unit := do
  IF k.kernel_conf.need_do_dim0_valid_num do
    CHECK (!k.kernel_conf.need_do_opaque_header)
    k.ForwardDim0ValidNum BnInOp2Blob
  if (← k.HasEmptyShapeBlob k.op_attribute.input_bns BnInOp2Blob)
      && !k.NeedForwardIfBlobEmpty then
    ClearBlobDim0ValidNumIfNeed k.op_attribute.output_bns BnInOp2Blob
  else
    IF k.kernel_conf.need_do_dim1_valid_num do
      CHECK (!k.kernel_conf.need_do_opaque_header)
      k.ForwardDim1ValidNum BnInOp2Blob
    IF k.kernel_conf.need_do_dim2_valid_num do
      CHECK (!k.kernel_conf.need_do_opaque_header)
      k.ForwardDim2ValidNum BnInOp2Blob
    IF k.kernel_conf.need_do_record_id_in_device_piece do
      CHECK (!k.kernel_conf.need_do_opaque_header)
      k.ForwardRecordIdInDevicePiece BnInOp2Blob
    k.ForwardDataContent BnInOp2Blob
    IF (k.GetActivationType != ActivationType.kNone) do
      let obns := k.op_attribute.output_bns
      CHECK (obns.length == 1)
      let out_blob := BnInOp2Blob (← PbRpf_Get obns 0)
      k.ForwardActivation out_blob
    if k.kernel_conf.need_do_opaque_header then
      k.ForwardPackedHeader BnInOp2Blob
    else
      IF k.kernel_conf.need_do_data_id (k.ForwardDataId BnInOp2Blob)
      IF k.kernel_conf.need_do_col_num (k.ForwardColNum BnInOp2Blob)

/-- Source `KernelIf::BackwardModelDiffDim0ValidNum`. -/
def BackwardModelDiffDim0ValidNum (k : Kernel) (BnInOp2Blob : Resolver) : KM Unit := do
  KM.log .BackwardModelDiffDim0ValidNum
  let is_out_diff_empty ← k.HasEmptyShapeBlob k.op_attribute.output_diff_bns BnInOp2Blob
  k.op_attribute.model_diff_bns.forM fun bn => do
    CHECK (BnInOp2Blob bn).isSome
    let p ← KM.nonnull (BnInOp2Blob bn)
    let blob ← KM.deref (some p)
    if blob.has_dim0_valid_num_field then
      CHECK blob.has_dim0_inner_shape
      CHECK (decide (1 = (← Shape_At (← blob.get_dim0_inner_shape) 0)))
      let val ← (if is_out_diff_empty then pure 0 else Shape_At blob.static_shape 0)
      KM.store p (← blob.set_dim0_valid_num 0 val)
    else pure ()

/-- Source `KernelIf::BackwardInDiffDim0ValidNum`. -/
def BackwardInDiffDim0ValidNum (k : Kernel) (BnInOp2Blob : Resolver) : KM Unit := do
  KM.log .BackwardInDiffDim0ValidNum
  CHECK k.kernel_conf.can_naive_do_dim0_valid_num
  CheckSameDim0ValidNum k.op_attribute.output_diff_bns BnInOp2Blob
  let input_diff_bns := k.op_attribute.input_diff_bns.filter fun bn => (BnInOp2Blob bn).isSome
  if input_diff_bns.isEmpty then pure ()
  else
    let from_blob := BnInOp2Blob (← PbRpf_Get k.op_attribute.output_diff_bns 0)
    k.CopyField_from_blob BnInOp2Blob from_blob input_diff_bns .CopyDim0ValidNumFrom

/-- Source `KernelIf::BackwardDataId`: does nothing. -/
def BackwardDataId (_k : Kernel) (_BnInOp2Blob : Resolver) : KM Unit :=
  KM.log .BackwardDataId

/-- Source `KernelIf::BackwardColNum`. -/
def BackwardColNum (k : Kernel) (BnInOp2Blob : Resolver) : KM Unit := do
  KM.log .BackwardColNum
  k.CopyField BnInOp2Blob k.op_attribute.output_diff_bns k.op_attribute.input_diff_bns
    .CopyColNumFrom

/-- Source `KernelIfWithModel::CalcInstanceNumSum`; the accumulator is an
`int32_t`. -/
def CalcInstanceNumSum (k : Kernel) (index : Nat) (BnInOp2Blob : Resolver) : KM Int := do
  CHECK (decide (index < k.op_attribute.output_diff_bns.length))
  let out_diff_blob ← KM.deref (BnInOp2Blob (← PbRpf_Get k.op_attribute.output_diff_bns index))
  if out_diff_blob.has_dim0_valid_num_field then
    let n ← Shape_At (← out_diff_blob.get_dim0_inner_shape) 0
    (List.range' 0 n.toNat).foldlM
      (fun instance_num_sum i => do
        pure (to_int32 (instance_num_sum + (← out_diff_blob.dim0_valid_num i))))
      (0 : Int)
  else
    pure (to_int32 (← Shape_At out_diff_blob.static_shape 0))

/-- Source `KernelIfWithModel::SetTotalInstanceNumDiffBlob`. -/
def SetTotalInstanceNumDiffBlob (k : Kernel) (BnInOp2Blob : Resolver) : KM Unit := do
  KM.log .SetTotalInstanceNumDiffBlob
  CHECK (decide (k.op_attribute.model_bns.length ≥ 2))
  let instance_num_sum ← k.CalcInstanceNumSum 0 BnInOp2Blob
  FOR_RANGE 1 k.op_attribute.output_diff_bns.length fun i => do
    CHECK (decide (instance_num_sum = (← k.CalcInstanceNumSum i BnInOp2Blob)))
  let total_instance_num_diff_blob ← KM.nonnull (BnInOp2Blob "total_instance_num_diff")
  KernelUtil_Set (k.static_cast_T instance_num_sum) total_instance_num_diff_blob

/-- Source `Kernel::Backward`. -/
def Backward (k : Kernel) (BnInOp2Blob : Resolver) : KM Unit := do
  IF (decide (k.op_attribute.model_diff_bns.length > 0)) do
    k.BackwardModelDiffDim0ValidNum BnInOp2Blob
  IF (k.kernel_conf.need_do_dim0_valid_num
      && decide (k.op_attribute.input_diff_bns.length > 0)) do
    CHECK (!k.kernel_conf.need_do_opaque_header)
    k.BackwardInDiffDim0ValidNum BnInOp2Blob
  if (← k.HasEmptyShapeBlob k.op_attribute.output_diff_bns BnInOp2Blob)
      && !k.NeedBackwardIfBlobEmpty then
    ClearBlobDim0ValidNumIfNeed k.op_attribute.input_diff_bns BnInOp2Blob
  else
    CHECK (false == (← k.HasEmptyShapeBlob k.op_attribute.model_diff_bns BnInOp2Blob))
    let activation := k.GetActivationType
    (if activation != ActivationType.kNone then do
      let obns := k.op_attribute.output_bns
      let odbns := k.op_attribute.output_diff_bns
      CHECK (obns.length == 1)
      CHECK (odbns.length == 1)
      let obn0 ← PbRpf_Get obns 0
      let odbn0 ← PbRpf_Get odbns 0
      let out_blob := BnInOp2Blob obn0
      let out_diff_blob := BnInOp2Blob odbn0
      let bw_activation_blob := BnInOp2Blob "bw_activation"
      CHECK bw_activation_blob.isSome
      k.BackwardActivation out_blob out_diff_blob bw_activation_blob
      k.BackwardDataContent fun bn =>
        if bn = odbn0 then bw_activation_blob else BnInOp2Blob bn
    else
      k.BackwardDataContent BnInOp2Blob)
    IF k.kernel_conf.need_do_data_id (k.BackwardDataId BnInOp2Blob)
    IF k.kernel_conf.need_do_col_num (k.BackwardColNum BnInOp2Blob)
    IF (decide (k.op_attribute.model_diff_bns.length > 0)) do
      k.SetTotalInstanceNumDiffBlob BnInOp2Blob

end Kernel

/-! ## Vocabulary of the statements -/

/-- State reached by an invocation, whether it completed or stopped. -/
def Result.state {α : Type} : Result α → KState
  | .ok _ s => s
  | .fatal _ s => s

/-- An operation relates every start state to the state it reaches. -/
def Preserves {α : Type} (R : KState → KState → Prop) (m : KM α) : Prop :=
  ∀ s, R s (m s).state

/-- An operation never changes the state. -/
def ReadOnly {α : Type} (m : KM α) : Prop := ∀ s, (m s).state = s

/-- Frame relation between two states: every buffer changed along `H`, and the
trace grew by entries satisfying `E`. -/
def Frame (H : Blob → Blob → Prop) (E : Event → Prop) (s s1 : KState) : Prop :=
  (∀ p, H (s.heap p) (s1.heap p)) ∧ ∃ evs, s1.trace = s.trace ++ evs ∧ ∀ ev ∈ evs, E ev

/-- Every entry of the dim0-valid-num field, when present, is zero. -/
def Blob.dim0_valid_num_zeroed (b : Blob) : Prop :=
  ∀ d, b.dim0_valid_num_ptr = some d → ∀ v ∈ d, v = 0

/-- The trace entry is an invocation of `ForwardDataContent`. -/
def Event.isForwardDataContent : Event → Bool
  | .ForwardDataContent _ => true
  | _ => false

/-- The first buffer's dim0-valid-num field, when present and non-empty, is a
prefix of the second buffer's: the two agree over the first one's size. -/
def Blob.dim0_valid_num_agrees (b0 b : Blob) : Prop :=
  ∀ d0, b0.dim0_valid_num_ptr = some d0 → d0 ≠ [] →
    ∃ d, b.dim0_valid_num_ptr = some d ∧ d0 <+: d

/-- Outcome of an invocation without the state reached. -/
def Result.outcome {α : Type} : Result α → Except KErr α
  | .ok a _ => .ok a
  | .fatal e _ => .error e

/-- The outcome of an operation depends on the heap only, not on the trace. -/
def HeapOnly {α : Type} (m : KM α) : Prop :=
  ∀ s s1, s.heap = s1.heap → (m s).outcome = (m s1).outcome

/-- Instance count of an output-diff buffer in the spec's words: the sum of
`dim0_valid_num(i)` over all partitions `i` below `dim0_inner_shape[0]` when
the buffer has a dim0-valid-num field, otherwise the static outer-dimension
extent.  Undefined when the buffer lacks what the count refers to. -/
def Blob.spec_instance_num (b : Blob) : Option Int :=
  match b.dim0_valid_num_ptr with
  | some d =>
      match b.dim0_inner_shape with
      | some (n :: _) =>
          if n.toNat ≤ d.length then some ((d.take n.toNat).sum) else none
      | _ => none
  | none => b.static_shape.head?

/-- Relations between the contents of a buffer before and after an invocation
that the metadata steps respect: reflexive, transitive, and closed under a
field copy, a change of the dim0-valid-num field and a change of the data
region. -/
structure BlobRel (H : Blob → Blob → Prop) : Prop where
  refl : ∀ b, H b b
  trans : ∀ a b c, H a b → H b c → H a c
  copy : ∀ k d src, H d (d.CopyFrom k src)
  dim0 : ∀ b d, H b { b with dim0_valid_num_ptr := d }
  dptr : ∀ b d, H b { b with dptr := d }

/-- The runtime shape of a buffer is unchanged. -/
def Blob.sameShape (b b1 : Blob) : Prop := b1.shape = b.shape

/-- The trace entry is an invocation of an operator-specific computation or of
an activation function. -/
def Event.isCompute : Event → Bool
  | .ForwardDataContent _ => true
  | .ForwardActivation _ => true
  | .BackwardActivation _ _ _ => true
  | .BackwardDataContent _ => true
  | _ => false

/-- The steps of `Kernel::Backward` that precede its empty-batch test: the
recomputation of the model-diff dim0-valid-num and the broadcast of the
output-diff dim0-valid-num onto the input-diffs, each under its guard. -/
def Kernel.BackwardDim0Steps (k : Kernel) (BnInOp2Blob : Resolver) : KM Unit := do
  IF (decide (k.op_attribute.model_diff_bns.length > 0)) do
    k.BackwardModelDiffDim0ValidNum BnInOp2Blob
  IF (k.kernel_conf.need_do_dim0_valid_num
      && decide (k.op_attribute.input_diff_bns.length > 0)) do
    CHECK (!k.kernel_conf.need_do_opaque_header)
    k.BackwardInDiffDim0ValidNum BnInOp2Blob

/-- What `Kernel::Backward` does after the dim0-valid-num steps when it takes
the empty-batch early return: it zeroes the input-diff dim0-valid-num. -/
def Kernel.BackwardEarlyReturn (k : Kernel) (BnInOp2Blob : Resolver) : KM Unit :=
  ClearBlobDim0ValidNumIfNeed k.op_attribute.input_diff_bns BnInOp2Blob

/-- One round of the loop of `BackwardModelDiffDim0ValidNum` (the loop body,
with `is_out_diff_empty` already computed). -/
def Kernel.modelDiffStep (is_out_diff_empty : Bool) (BnInOp2Blob : Resolver) (bn : String) :
    KM Unit := do
  CHECK (BnInOp2Blob bn).isSome
  let p ← KM.nonnull (BnInOp2Blob bn)
  let blob ← KM.deref (some p)
  if blob.has_dim0_valid_num_field then
    CHECK blob.has_dim0_inner_shape
    CHECK (decide (1 = (← Shape_At (← blob.get_dim0_inner_shape) 0)))
    let val ← (if is_out_diff_empty then pure 0 else Shape_At blob.static_shape 0)
    KM.store p (← blob.set_dim0_valid_num 0 val)
  else pure ()

/-- The value `BackwardModelDiffDim0ValidNum` is to store, in the spec's
words: 0 when the output-diff buffers are empty-shaped, else the parameter's
static outer-dimension extent. -/
def Blob.spec_model_diff_dim0 (is_out_diff_empty : Bool) (b : Blob) : Option Int :=
  if is_out_diff_empty then some 0 else b.static_shape.head?

/-- The buffer at `p` after `BackwardModelDiffDim0ValidNum` has recomputed its
single-partition dim0-valid-num: entry 0 of the field holds the spec's value,
everything else is as in the buffer `b` before. -/
def Blob.model_diff_recomputed (is_out_diff_empty : Bool) (b b1 : Blob) : Prop :=
  ∃ (d : List Int) (v : Int) (tl : List Int), b.dim0_valid_num_ptr = some d ∧ 0 < d.length ∧
    b.dim0_inner_shape = some (1 :: tl) ∧ b.spec_model_diff_dim0 is_out_diff_empty = some v ∧
    b1 = { b with dim0_valid_num_ptr := some (d.set 0 v) }

/-- What the claim about `BackwardModelDiffDim0ValidNum` presupposes of a
model-diff buffer: it has no dim0-valid-num field, or the field has a single
partition (`dim0_inner_shape[0] = 1`, entry 0 present) and the value to store
is defined. -/
def Blob.model_diff_well_formed (is_out_diff_empty : Bool) (b : Blob) : Prop :=
  b.dim0_valid_num_ptr = none ∨
    ∃ (d : List Int) (v : Int) (tl : List Int), b.dim0_valid_num_ptr = some d ∧ 0 < d.length ∧
      b.dim0_inner_shape = some (1 :: tl) ∧ b.spec_model_diff_dim0 is_out_diff_empty = some v

/-- The trace entry is an invocation of `SetTotalInstanceNumDiffBlob` or the
write of a scalar it performs. -/
def Event.isTotalInstanceNum : Event → Bool
  | .SetTotalInstanceNumDiffBlob => true
  | .Set _ _ => true
  | _ => false

/-- The data region of a buffer is unchanged. -/
def Blob.sameData (b b1 : Blob) : Prop := b1.dptr = b.dptr

/-- The invocation stopped at a fatal error. -/
def Result.isFatal {α : Type} : Result α → Bool
  | .ok _ _ => false
  | .fatal _ _ => true

/-- The trace entry is an application of an activation function. -/
def Event.isActivation : Event → Bool
  | .ForwardActivation _ => true
  | .BackwardActivation _ _ _ => true
  | _ => false

/-- `Kernel::Forward` with the activation block (the singleton check on the
output bindings and the call of `ForwardActivation`) left out. -/
def Kernel.ForwardWithoutActivation (k : Kernel) (BnInOp2Blob : Resolver) : KM Unit := do
  IF k.kernel_conf.need_do_dim0_valid_num do
    CHECK (!k.kernel_conf.need_do_opaque_header)
    k.ForwardDim0ValidNum BnInOp2Blob
  if (← k.HasEmptyShapeBlob k.op_attribute.input_bns BnInOp2Blob)
      && !k.NeedForwardIfBlobEmpty then
    ClearBlobDim0ValidNumIfNeed k.op_attribute.output_bns BnInOp2Blob
  else
    IF k.kernel_conf.need_do_dim1_valid_num do
      CHECK (!k.kernel_conf.need_do_opaque_header)
      k.ForwardDim1ValidNum BnInOp2Blob
    IF k.kernel_conf.need_do_dim2_valid_num do
      CHECK (!k.kernel_conf.need_do_opaque_header)
      k.ForwardDim2ValidNum BnInOp2Blob
    IF k.kernel_conf.need_do_record_id_in_device_piece do
      CHECK (!k.kernel_conf.need_do_opaque_header)
      k.ForwardRecordIdInDevicePiece BnInOp2Blob
    k.ForwardDataContent BnInOp2Blob
    if k.kernel_conf.need_do_opaque_header then
      k.ForwardPackedHeader BnInOp2Blob
    else
      IF k.kernel_conf.need_do_data_id (k.ForwardDataId BnInOp2Blob)
      IF k.kernel_conf.need_do_col_num (k.ForwardColNum BnInOp2Blob)

/-- `Kernel::Backward` with the activation branch (the singleton checks on the
output and output-diff bindings, the scratch-buffer check and the call of
`BackwardActivation`) left out: `BackwardDataContent` always runs on the
caller's resolver. -/
def Kernel.BackwardWithoutActivation (k : Kernel) (BnInOp2Blob : Resolver) : KM Unit := do
  IF (decide (k.op_attribute.model_diff_bns.length > 0)) do
    k.BackwardModelDiffDim0ValidNum BnInOp2Blob
  IF (k.kernel_conf.need_do_dim0_valid_num
      && decide (k.op_attribute.input_diff_bns.length > 0)) do
    CHECK (!k.kernel_conf.need_do_opaque_header)
    k.BackwardInDiffDim0ValidNum BnInOp2Blob
  if (← k.HasEmptyShapeBlob k.op_attribute.output_diff_bns BnInOp2Blob)
      && !k.NeedBackwardIfBlobEmpty then
    ClearBlobDim0ValidNumIfNeed k.op_attribute.input_diff_bns BnInOp2Blob
  else
    CHECK (false == (← k.HasEmptyShapeBlob k.op_attribute.model_diff_bns BnInOp2Blob))
    k.BackwardDataContent BnInOp2Blob
    IF k.kernel_conf.need_do_data_id (k.BackwardDataId BnInOp2Blob)
    IF k.kernel_conf.need_do_col_num (k.BackwardColNum BnInOp2Blob)
    IF (decide (k.op_attribute.model_diff_bns.length > 0)) do
      k.SetTotalInstanceNumDiffBlob BnInOp2Blob

/-- The trace entry is a field copy between two buffers. -/
def Event.isCopy : Event → Bool
  | .Copy _ _ _ => true
  | _ => false

/-- The trace entry is the invocation of a step, as opposed to a field copy or
a scalar write performed inside one. -/
def Event.isStep : Event → Bool
  | .Copy _ _ _ => false
  | .Set _ _ => false
  | _ => true

/-- An operation adds nothing but field copies to the trace, whatever it does
to the buffers and however it ends. -/
def CopiesOnly (m : KM Unit) : Prop :=
  ∀ E : Event → Prop, (∀ c t f, E (.Copy c t f)) → Preserves (Frame (fun _ _ => True) E) m

/-- An operation logs its own invocation and then adds nothing but field
copies to the trace. -/
def LogsThenCopies (ev : Event) (m : KM Unit) : Prop :=
  ∃ body : KM Unit, m = (KM.log ev >>= fun _ => body) ∧ CopiesOnly body

/-- The sequence of steps the specification prescribes for a forward pass
that is not short-circuited: each metadata step under its own flag, the
data-content step always, the activation step iff the activation type is not
`kNone`, and then either the opaque-header copy or the data-id and col-num
copies under their flags. -/
def Kernel.spec_forward_steps (k : Kernel) (BnInOp2Blob : Resolver) : List Event :=
  (if k.kernel_conf.need_do_dim0_valid_num then [Event.ForwardDim0ValidNum] else [])
  ++ (if k.kernel_conf.need_do_dim1_valid_num then [Event.ForwardDim1ValidNum] else [])
  ++ (if k.kernel_conf.need_do_dim2_valid_num then [Event.ForwardDim2ValidNum] else [])
  ++ (if k.kernel_conf.need_do_record_id_in_device_piece
        then [Event.ForwardRecordIdInDevicePiece] else [])
  ++ [Event.ForwardDataContent BnInOp2Blob]
  ++ (if k.GetActivationType != ActivationType.kNone
        then [Event.ForwardActivation (k.op_attribute.output_bns.head?.bind BnInOp2Blob)]
        else [])
  ++ (if k.kernel_conf.need_do_opaque_header then [Event.ForwardPackedHeader]
      else (if k.kernel_conf.need_do_data_id then [Event.ForwardDataId] else [])
        ++ (if k.kernel_conf.need_do_col_num then [Event.ForwardColNum] else []))

/-- Whenever the operation completes, the steps it has invoked are exactly
those of `l`, in that order. -/
def StepsOf (m : KM Unit) (l : List Event) : Prop :=
  ∀ s s2, m s = .ok () s2 → ∃ evs, s2.trace = s.trace ++ evs ∧ evs.filter Event.isStep = l

/-- A two-element buffer without metadata. -/
def Blob.plain : Blob :=
  { static_shape := [2], shape := [2], dim0_inner_shape := none, dim0_valid_num_ptr := none,
    dim1_valid_num_ptr := none, dim2_valid_num_ptr := none,
    record_id_in_device_piece_ptr := none, data_id_ptr := none, col_num_ptr := none,
    header_ptr := none, dptr := [0, 0] }

/-- Operator attributes without any binding. -/
def OpAttribute.plain : OpAttribute :=
  { op_conf := { name := "op", model_load_dir := "" }, input_bns := [], output_bns := [],
    model_bns := [], model_diff_bns := [], input_diff_bns := [], output_diff_bns := [] }

/-- A configuration with every flag off. -/
def KernelConf.plain : KernelConf :=
  { op_attribute := OpAttribute.plain, is_forward := true, need_do_dim0_valid_num := false,
    need_do_dim1_valid_num := false, need_do_dim2_valid_num := false,
    need_do_record_id_in_device_piece := false, need_do_opaque_header := false,
    need_do_data_id := false, need_do_col_num := false, can_naive_do_dim0_valid_num := false,
    can_naive_do_record_id_in_device_piece := false }

/-- A kernel over a configuration whose overrides leave the heap alone. -/
def Kernel.plain (conf : KernelConf) : Kernel :=
  { kernel_conf := conf, NeedForwardIfBlobEmpty := false, NeedBackwardIfBlobEmpty := false,
    GetActivationType := .kNone, SnapshotFS_IsDirectory := fun _ => false,
    GetPartIdAndPartNumFromParallelCtx := fun c => (c.parallel_id, c.parallel_num),
    init_const_buf_blobs := fun _ h => .ok h,
    init_model_blobs_with_random_seed := fun _ h => .ok h,
    init_model_blobs_with_dir := fun _ _ _ _ h => .ok h,
    forward_data_content := fun _ h => .ok h, backward_data_content := fun _ h => .ok h,
    forward_dim1_valid_num := fun _ h => .ok h, forward_dim2_valid_num := fun _ h => .ok h,
    kernel_util_activation := fun _ x => x,
    kernel_util_activation_backward := fun _ _ _ dy => dy, static_cast_T := fun x => x }

/-- Resolver of the samples: four buffers at addresses 0 to 3. -/
def sampleResolver : Resolver := fun bn =>
  if bn = "a" then some 0 else if bn = "b" then some 1
  else if bn = "c" then some 2 else if bn = "d" then some 3 else none

/-- Heap holding four given buffers at addresses 0 to 3. -/
def sampleHeap (b0 b1 b2 b3 : Blob) : Heap := fun p =>
  match p with
  | 0 => b0
  | 1 => b1
  | 2 => b2
  | _ => b3

/-- Start state over four given buffers, with an empty trace. -/
def sampleState (b0 b1 b2 b3 : Blob) : KState :=
  { heap := sampleHeap b0 b1 b2 b3, trace := [] }

/-- Dim0 propagation from input `a` to output `b`. -/
def kernelDim0 : Kernel :=
  Kernel.plain { KernelConf.plain with
    op_attribute := { OpAttribute.plain with input_bns := ["a"], output_bns := ["b"] },
    need_do_dim0_valid_num := true, can_naive_do_dim0_valid_num := true }

/-- An empty-shaped input carrying three valid instances and an output
carrying seven. -/
def stateEmptyInput : KState :=
  sampleState { Blob.plain with shape := [0], dim0_valid_num_ptr := some [3] }
    { Blob.plain with dim0_valid_num_ptr := some [7] } Blob.plain Blob.plain

/-- Both the opaque header and dim0 propagation requested. -/
def kernelHeaderAndDim0 : Kernel :=
  Kernel.plain { KernelConf.plain with
    op_attribute := { OpAttribute.plain with input_bns := ["a"], output_bns := ["b"] },
    need_do_dim0_valid_num := true, need_do_opaque_header := true,
    can_naive_do_dim0_valid_num := true }

/-- Dim0 propagation over two inputs `a`, `b` and no output. -/
def kernelTwoInputs : Kernel :=
  Kernel.plain { KernelConf.plain with
    op_attribute := { OpAttribute.plain with input_bns := ["a", "b"] },
    need_do_dim0_valid_num := true, can_naive_do_dim0_valid_num := true }

/-- Input `a` has one partition with four valid instances, input `b` has two
partitions with four and five. -/
def stateUnequalFields : KState :=
  sampleState { Blob.plain with dim0_valid_num_ptr := some [4] }
    { Blob.plain with dim0_valid_num_ptr := some [4, 5] } Blob.plain Blob.plain

/-- Inputs `a` and `b` both have one partition, with four and five valid
instances. -/
def stateDifferingFields : KState :=
  sampleState { Blob.plain with dim0_valid_num_ptr := some [4] }
    { Blob.plain with dim0_valid_num_ptr := some [5] } Blob.plain Blob.plain

/-- Inputs `a` and `b` both have one partition with four valid instances. -/
def stateEqualFields : KState :=
  sampleState { Blob.plain with dim0_valid_num_ptr := some [4] }
    { Blob.plain with dim0_valid_num_ptr := some [4] } Blob.plain Blob.plain

/-- Buffer `a` carries the column count 9, the other buffers carry none. -/
def stateColNum : KState :=
  sampleState { Blob.plain with col_num_ptr := some [9] } Blob.plain Blob.plain Blob.plain

/-- Resolver of the model samples: output-diff buffers `a`, `b` at addresses 0
and 1, the total-instance-count buffer at 2, the activation scratch at 3. -/
def modelResolver : Resolver := fun bn =>
  if bn = "a" then some 0 else if bn = "b" then some 1
  else if bn = "total_instance_num_diff" then some 2
  else if bn = "bw_activation" then some 3 else none

/-- Two model bindings and the output-diff bindings `a`, `b`. -/
def kernelModel : Kernel :=
  Kernel.plain { KernelConf.plain with
    op_attribute := { OpAttribute.plain with
      model_bns := ["weight", "bias"], output_diff_bns := ["a", "b"] } }

/-- Two model bindings and the single output-diff binding `a`. -/
def kernelModelOne : Kernel :=
  Kernel.plain { KernelConf.plain with
    op_attribute := { OpAttribute.plain with
      model_bns := ["weight", "bias"], output_diff_bns := ["a"] } }

/-- One model binding only. -/
def kernelOneModelBn : Kernel :=
  Kernel.plain { KernelConf.plain with
    op_attribute := { OpAttribute.plain with
      model_bns := ["weight"], output_diff_bns := ["a", "b"] } }

/-- Both output-diff buffers report the valid counts 4 and 4 over two
partitions. -/
def stateCounts8 : KState :=
  sampleState
    { Blob.plain with dim0_inner_shape := some [2], dim0_valid_num_ptr := some [4, 4] }
    { Blob.plain with dim0_inner_shape := some [2], dim0_valid_num_ptr := some [4, 4] }
    Blob.plain Blob.plain

/-- The output-diff buffers report the sums 4 and 5. -/
def stateCounts4and5 : KState :=
  sampleState
    { Blob.plain with dim0_inner_shape := some [2], dim0_valid_num_ptr := some [1, 3] }
    { Blob.plain with dim0_inner_shape := some [2], dim0_valid_num_ptr := some [2, 3] }
    Blob.plain Blob.plain

/-- An output-diff buffer without dim0-valid-num field whose static outer
extent is `2 ^ 31`. -/
def stateHugeExtent : KState :=
  sampleState { Blob.plain with static_shape := [2147483648] } Blob.plain Blob.plain Blob.plain

/-- A snapshot whose operator directories live under `snapshot/`. -/
def sampleSnapshot : Snapshot := { GetDirFromOpName := fun name => "snapshot/" ++ name }

/-- A single-replica parallel context. -/
def sampleParallelCtx : ParallelContext := { parallel_id := 0, parallel_num := 1 }

/-- An operator with the configured load directory `conf_dir`, on a file
system where no snapshot directory exists. -/
def kernelConfiguredDir : Kernel :=
  Kernel.plain { KernelConf.plain with
    op_attribute := { OpAttribute.plain with
      op_conf := { name := "op", model_load_dir := "conf_dir" } } }

/-- The opaque header together with dim1 propagation, input `a`, output `b`. -/
def kernelHeaderAndDim1 : Kernel :=
  Kernel.plain { KernelConf.plain with
    op_attribute := { OpAttribute.plain with input_bns := ["a"], output_bns := ["b"] },
    need_do_dim1_valid_num := true, need_do_opaque_header := true }

/-- Four plain buffers, none of them empty-shaped. -/
def statePlain : KState := sampleState Blob.plain Blob.plain Blob.plain Blob.plain

/-- A Relu-fused operator with output `a`, output-diff `b` and no model. -/
def kernelRelu : Kernel :=
  { Kernel.plain { KernelConf.plain with
      is_forward := false,
      op_attribute := { OpAttribute.plain with output_bns := ["a"], output_diff_bns := ["b"] } }
    with GetActivationType := .kRelu }

/-- An operator without input and output-diff bindings, with the single output
binding `b` and the single input-diff binding `b`. -/
def kernelNoSource : Kernel :=
  Kernel.plain { KernelConf.plain with
    op_attribute := { OpAttribute.plain with output_bns := ["b"], input_diff_bns := ["b"] },
    need_do_col_num := true, need_do_opaque_header := true }

/-- A backward operator with output-diff `a`, input-diff `b`, model-diff `c`
and dim0 propagation. -/
def kernelBackward : Kernel :=
  Kernel.plain { KernelConf.plain with
    is_forward := false,
    op_attribute := { OpAttribute.plain with
      model_bns := ["weight", "bias"], output_diff_bns := ["a"], input_diff_bns := ["b"],
      model_diff_bns := ["c"] },
    need_do_dim0_valid_num := true, can_naive_do_dim0_valid_num := true }

/-- An empty-shaped output-diff `a` with three valid instances, an input-diff
`b` with seven, and a single-partition model-diff `c` with extent two. -/
def stateEmptyOutDiff : KState :=
  sampleState { Blob.plain with shape := [0], dim0_valid_num_ptr := some [3] }
    { Blob.plain with dim0_valid_num_ptr := some [7] }
    { Blob.plain with dim0_inner_shape := some [1], dim0_valid_num_ptr := some [2] }
    Blob.plain

/-- The same buffers with a non-empty output-diff `a`. -/
def stateFullOutDiff : KState :=
  sampleState { Blob.plain with dim0_valid_num_ptr := some [3] }
    { Blob.plain with dim0_valid_num_ptr := some [7] }
    { Blob.plain with dim0_inner_shape := some [1], dim0_valid_num_ptr := some [1] }
    Blob.plain

/-- An empty-shaped output-diff `a`, an input-diff `b`, and a single-partition
model-diff `c` that is itself empty-shaped. -/
def stateEmptyModelDiff : KState :=
  sampleState { Blob.plain with shape := [0], dim0_valid_num_ptr := some [3] }
    { Blob.plain with dim0_valid_num_ptr := some [7] }
    { Blob.plain with shape := [0], dim0_inner_shape := some [1],
                      dim0_valid_num_ptr := some [2] }
    Blob.plain

/-- Two output-diffs `a` and `b` broadcast onto the input-diffs `c`, the
unresolved `missing`, and `d`. -/
def kernelTwoOutDiffs : Kernel :=
  Kernel.plain { KernelConf.plain with
    is_forward := false,
    op_attribute := { OpAttribute.plain with
      output_diff_bns := ["a", "b"], input_diff_bns := ["c", "missing", "d"] },
    need_do_dim0_valid_num := true, can_naive_do_dim0_valid_num := true }

/-- A Relu-fused operator with the two outputs `a` and `b` and the output-diff
`c`. -/
def kernelReluTwoOutputs : Kernel :=
  { Kernel.plain { KernelConf.plain with
      op_attribute := { OpAttribute.plain with
        output_bns := ["a", "b"], output_diff_bns := ["c"] } }
    with GetActivationType := .kRelu }

/-- The same operator without an activation. -/
def kernelTwoOutputs : Kernel :=
  Kernel.plain { KernelConf.plain with
    op_attribute := { OpAttribute.plain with
      output_bns := ["a", "b"], output_diff_bns := ["c"] } }

/-- A Relu-fused operator from input `a` to output `b` with the dim0, dim2 and
col-num flags set and the dim1, record-id and data-id flags clear. -/
def kernelSteps : Kernel :=
  { Kernel.plain { KernelConf.plain with
      op_attribute := { OpAttribute.plain with input_bns := ["a"], output_bns := ["b"] },
      need_do_dim0_valid_num := true, can_naive_do_dim0_valid_num := true,
      need_do_dim2_valid_num := true, need_do_col_num := true }
    with GetActivationType := .kRelu }

/-- An operator from input `a` to output `b` with the opaque-header, data-id
and col-num flags set. -/
def kernelHeaderAndDataId : Kernel :=
  Kernel.plain { KernelConf.plain with
    op_attribute := { OpAttribute.plain with input_bns := ["a"], output_bns := ["b"] },
    need_do_opaque_header := true, need_do_data_id := true, need_do_col_num := true }

namespace KM

@[simp] theorem pure_apply {α : Type} (a : α) (s : KState) :
    (pure a : KM α) s = Result.ok a s := rfl

theorem bind_apply {α β : Type} (m : KM α) (f : α → KM β) (s : KState) :
    (m >>= f) s = match m s with
      | .ok a s1 => f a s1
      | .fatal e s1 => .fatal e s1 := rfl

theorem bind_ok {α β : Type} {m : KM α} {f : α → KM β} {s s1 : KState} {a : α}
    (h : m s = .ok a s1) : (m >>= f) s = f a s1 := by
  simp [bind_apply, h]

theorem bind_fatal {α β : Type} {m : KM α} {f : α → KM β} {s s1 : KState} {e : KErr}
    (h : m s = .fatal e s1) : (m >>= f) s = .fatal e s1 := by
  simp [bind_apply, h]

@[simp] theorem fail_apply {α : Type} (e : KErr) (s : KState) :
    (fail e : KM α) s = Result.fatal e s := rfl

@[simp] theorem log_apply (ev : Event) (s : KState) :
    log ev s = Result.ok () { s with trace := s.trace ++ [ev] } := rfl

@[simp] theorem store_apply (p : Ptr) (b : Blob) (s : KState) :
    store p b s = Result.ok () { s with heap := s.heap.set p b } := rfl

@[simp] theorem deref_some (p : Ptr) (s : KState) :
    deref (some p) s = Result.ok (s.heap p) s := rfl

@[simp] theorem deref_none (s : KState) : deref none s = Result.fatal .null s := rfl

@[simp] theorem nonnull_some (p : Ptr) (s : KState) :
    nonnull (some p) s = Result.ok p s := rfl

@[simp] theorem nonnull_none (s : KState) : nonnull none s = Result.fatal .null s := rfl

end KM

@[simp] theorem IF_true (m : KM Unit) : IF true m = m := rfl

@[simp] theorem IF_false (m : KM Unit) : IF false m = pure () := rfl

@[simp] theorem CHECK_true (s : KState) : CHECK true s = Result.ok () s := rfl

@[simp] theorem CHECK_false (s : KState) : CHECK false s = Result.fatal .check s := rfl

section preserves
variable {R : KState → KState → Prop}

theorem readOnly_preserves {α : Type} {m : KM α} (hr : ∀ s, R s s) (h : ReadOnly m) :
    Preserves R m := by
  intro s; rw [h s]; exact hr s

theorem readOnly_pure {α : Type} (a : α) : ReadOnly (pure a : KM α) := fun _ => rfl

theorem readOnly_fail {α : Type} (e : KErr) : ReadOnly (KM.fail e : KM α) := fun _ => rfl

theorem readOnly_bind {α β : Type} {m : KM α} {f : α → KM β} (hm : ReadOnly m)
    (hf : ∀ a, ReadOnly (f a)) : ReadOnly (m >>= f) := by
  intro s
  have h1 := hm s
  rw [KM.bind_apply]
  cases h : m s with
  | ok a s1 => rw [h] at h1; simp only [Result.state] at h1; subst h1; exact hf a _
  | fatal e s1 => rw [h] at h1; exact h1

theorem readOnly_CHECK (c : Bool) : ReadOnly (CHECK c) := by
  intro s; cases c <;> rfl

theorem readOnly_deref (p : Option Ptr) : ReadOnly (KM.deref p) := by
  intro s; cases p <;> rfl

theorem readOnly_nonnull (p : Option Ptr) : ReadOnly (KM.nonnull p) := by
  intro s; cases p <;> rfl

theorem readOnly_PbRpf_Get (bns : List String) (i : Nat) : ReadOnly (PbRpf_Get bns i) := by
  intro s; unfold oneflow.PbRpf_Get; cases bns.get? i <;> rfl

theorem readOnly_Shape_At (sh : List Int) (i : Nat) : ReadOnly (Shape_At sh i) := by
  intro s; unfold oneflow.Shape_At; cases sh.get? i <;> rfl

theorem readOnly_forM {α : Type} (l : List α) (f : α → KM Unit) (hf : ∀ a, ReadOnly (f a)) :
    ReadOnly (l.forM f) := by
  induction l with
  | nil => exact readOnly_pure _
  | cons a t ih => rw [List.forM_cons']; exact readOnly_bind (hf a) (fun _ => ih)

theorem readOnly_memcmp_eq_zero (p q : Option (List Int)) (len : Nat) :
    ReadOnly (memcmp_eq_zero p q len) := by
  intro s; unfold oneflow.memcmp_eq_zero
  split
  · rfl
  · split
    · split <;> rfl
    · rfl

theorem preserves_bind {α β : Type} {m : KM α} {f : α → KM β}
    (ht : ∀ a b c, R a b → R b c → R a c) (hm : Preserves R m)
    (hf : ∀ a, Preserves R (f a)) : Preserves R (m >>= f) := by
  intro s
  have h1 := hm s
  rw [KM.bind_apply]
  cases h : m s with
  | ok a s1 => rw [h] at h1; exact ht _ _ _ h1 (hf a s1)
  | fatal e s1 => rw [h] at h1; exact h1

theorem preserves_forM {α : Type} (hr : ∀ s, R s s) (ht : ∀ a b c, R a b → R b c → R a c)
    (l : List α) (f : α → KM Unit) (hf : ∀ a, Preserves R (f a)) :
    Preserves R (l.forM f) := by
  induction l with
  | nil => exact readOnly_preserves hr (readOnly_pure _)
  | cons a t ih => rw [List.forM_cons']; exact preserves_bind ht (hf a) (fun _ => ih)

end preserves

theorem readOnly_CheckSameDim0ValidNum (bns : List String) (r : Resolver) :
    ReadOnly (CheckSameDim0ValidNum bns r) := by
  unfold oneflow.CheckSameDim0ValidNum FOR_RANGE
  repeat (first
    | apply readOnly_bind | apply readOnly_forM | apply readOnly_PbRpf_Get
    | apply readOnly_deref | apply readOnly_memcmp_eq_zero | apply readOnly_CHECK
    | intro _)

section frame
variable {H : Blob → Blob → Prop} {E : Event → Prop}

theorem frame_refl (hH : ∀ b, H b b) (s : KState) : Frame H E s s :=
  ⟨fun _ => hH _, [], by simp, by simp⟩

theorem frame_trans (hH : ∀ a b c, H a b → H b c → H a c) (a b c : KState)
    (h1 : Frame H E a b) (h2 : Frame H E b c) : Frame H E a c := by
  obtain ⟨ha, e1, ht1, he1⟩ := h1
  obtain ⟨hb, e2, ht2, he2⟩ := h2
  refine ⟨fun p => hH _ _ _ (ha p) (hb p), e1 ++ e2, by rw [ht2, ht1, List.append_assoc], ?_⟩
  intro ev hev
  rcases List.mem_append.1 hev with h | h
  · exact he1 ev h
  · exact he2 ev h

theorem preserves_log (hH : ∀ b, H b b) (ev : Event) (hev : E ev) :
    Preserves (Frame H E) (KM.log ev) := by
  intro s
  refine ⟨fun _ => hH _, [ev], rfl, ?_⟩
  intro e he
  rw [List.mem_singleton] at he
  rw [he]; exact hev

theorem preserves_Blob_Copy (hH : ∀ b, H b b) (hC : ∀ k d src, H d (Blob.CopyFrom k d src))
    (hE : ∀ k t f, E (.Copy k t f)) (k : CopyKind) (t f : Option Ptr) :
    Preserves (Frame H E) (Blob_Copy k t f) := by
  intro s
  cases t with
  | none => exact frame_refl hH s
  | some t =>
    cases f with
    | none => exact frame_refl hH s
    | some f =>
      refine ⟨fun p => ?_, [.Copy k t f], rfl, ?_⟩
      · show H (s.heap p) (Heap.set s.heap t _ p)
        unfold Heap.set
        split
        · rename_i h; rw [h]; exact hC _ _ _
        · exact hH _
      · intro e he
        rw [List.mem_singleton] at he
        rw [he]; exact hE _ _ _

theorem preserves_CopyField_from_blob (hH : ∀ b, H b b) (hT : ∀ a b c, H a b → H b c → H a c)
    (hC : ∀ k d src, H d (Blob.CopyFrom k d src))
    (hE : ∀ k t f, E (.Copy k t f)) (k : Kernel) (r : Resolver) (f : Option Ptr)
    (to_bns : List String) (c : CopyKind) :
    Preserves (Frame H E) (k.CopyField_from_blob r f to_bns c) := by
  unfold Kernel.CopyField_from_blob
  exact preserves_forM (frame_refl hH) (frame_trans hT) _ _
    (fun _ => preserves_Blob_Copy hH hC hE _ _ _)

theorem preserves_ForwardDim0ValidNum (hH : ∀ b, H b b) (hT : ∀ a b c, H a b → H b c → H a c)
    (hC : ∀ k d src, H d (Blob.CopyFrom k d src))
    (hE : ∀ k t f, E (.Copy k t f)) (hE0 : E .ForwardDim0ValidNum) (k : Kernel) (r : Resolver) :
    Preserves (Frame H E) (k.ForwardDim0ValidNum r) := by
  unfold Kernel.ForwardDim0ValidNum
  refine preserves_bind (frame_trans hT) (preserves_log hH _ hE0) fun _ => ?_
  refine preserves_bind (frame_trans hT) (readOnly_preserves (frame_refl hH) (readOnly_CHECK _)) fun _ => ?_
  refine preserves_bind (frame_trans hT)
    (readOnly_preserves (frame_refl hH) (readOnly_CheckSameDim0ValidNum _ _)) fun _ => ?_
  refine preserves_bind (frame_trans hT)
    (readOnly_preserves (frame_refl hH) (readOnly_PbRpf_Get _ _)) fun _ => ?_
  exact preserves_CopyField_from_blob hH hT hC hE _ _ _ _ _

end frame

theorem Blob.memset_dim0_valid_num_zeroed (b : Blob) :
    b.memset_dim0_valid_num.dim0_valid_num_zeroed := by
  intro d hd v hv
  unfold Blob.memset_dim0_valid_num at hd
  cases hb : b.dim0_valid_num_ptr with
  | none => simp [hb] at hd
  | some d0 =>
    simp [hb] at hd
    subst hd
    exact List.eq_of_mem_replicate hv

/-- `ClearBlobDim0ValidNumIfNeed` always completes; it leaves the trace alone,
each buffer is either untouched or has had its dim0-valid-num field zeroed,
and the field of every present buffer named in `bns` is zero afterwards. -/
theorem ClearBlobDim0ValidNumIfNeed_spec (r : Resolver) (bns : List String) (s : KState) :
    ∃ s1, ClearBlobDim0ValidNumIfNeed bns r s = .ok () s1 ∧ s1.trace = s.trace ∧
      (∀ p, s1.heap p = s.heap p ∨
        (s1.heap p = (s.heap p).memset_dim0_valid_num ∧
          ∃ bn ∈ bns, r bn = some p ∧ (s.heap p).has_dim0_valid_num_field = true)) ∧
      (∀ bn ∈ bns, ∀ p, r bn = some p → (s1.heap p).dim0_valid_num_zeroed) := by
  induction bns generalizing s with
  | nil => exact ⟨s, rfl, rfl, fun _ => Or.inl rfl, by simp⟩
  | cons bn t ih =>
    unfold ClearBlobDim0ValidNumIfNeed at ih ⊢
    rw [List.forM_cons']
    -- the state after the first binding
    have hstep : ∃ s0, (match r bn with
        | none => (pure () : KM Unit)
        | some p => do
            let blob ← KM.deref (some p)
            if blob.has_dim0_valid_num_field then KM.store p blob.memset_dim0_valid_num
            else pure ()) s = .ok () s0 ∧ s0.trace = s.trace ∧
        (∀ p, s0.heap p = s.heap p ∨
          (s0.heap p = (s.heap p).memset_dim0_valid_num ∧ r bn = some p ∧
            (s.heap p).has_dim0_valid_num_field = true)) ∧
        (∀ p, r bn = some p → (s0.heap p).dim0_valid_num_zeroed) := by
      cases hr : r bn with
      | none => exact ⟨s, rfl, rfl, fun _ => Or.inl rfl, by simp⟩
      | some q =>
        by_cases hf : (s.heap q).has_dim0_valid_num_field = true
        · refine ⟨{ s with heap := s.heap.set q (s.heap q).memset_dim0_valid_num }, ?_, rfl, ?_, ?_⟩
          · simp [KM.bind_apply, hf]
          · intro p
            by_cases hp : p = q
            · subst hp; right; simp [Heap.set, hf]
            · left; simp [Heap.set, hp]
          · intro p hp
            simp only [Option.some.injEq] at hp
            subst hp
            simp only [Heap.set, if_true]
            exact Blob.memset_dim0_valid_num_zeroed _
        · refine ⟨s, ?_, rfl, fun _ => Or.inl rfl, ?_⟩
          · simp [KM.bind_apply, hf]
          · intro p hp
            simp only [Option.some.injEq] at hp
            subst hp
            intro d hd
            simp [Blob.has_dim0_valid_num_field, hd] at hf
    obtain ⟨s0, h0, ht0, hh0, hz0⟩ := hstep
    obtain ⟨s1, h1, ht1, hh1, hz1⟩ := ih s0
    refine ⟨s1, ?_, ht1.trans ht0, ?_, ?_⟩
    · exact (KM.bind_ok h0).trans h1
    · intro p
      rcases hh1 p with h | ⟨h, b, hb, hrb, hf⟩
      · rcases hh0 p with h2 | ⟨h2, hrb, hf⟩
        · left; rw [h, h2]
        · right; exact ⟨by rw [h, h2], bn, List.mem_cons_self _ _, hrb, hf⟩
      · rcases hh0 p with h2 | ⟨h2, hrb2, hf2⟩
        · right
          rw [h2] at h hf
          exact ⟨h, b, List.mem_cons_of_mem _ hb, hrb, hf⟩
        · right
          refine ⟨?_, bn, List.mem_cons_self _ _, hrb2, hf2⟩
          rw [h, h2]
          cases hd : (s.heap p).dim0_valid_num_ptr <;> simp [Blob.memset_dim0_valid_num, hd]
    · intro b hb p hp
      rcases List.mem_cons.1 hb with h | h
      · subst h
        rcases hh1 p with h2 | ⟨h2, -⟩
        · rw [h2]; exact hz0 p hp
        · rw [h2]; exact Blob.memset_dim0_valid_num_zeroed _
      · exact hz1 b h p hp

theorem HasEmptyShapeBlob_apply (k : Kernel) (bns : List String) (r : Resolver) (s : KState) :
    k.HasEmptyShapeBlob bns r s = .ok (Kernel.hasEmptyShapeBlobIn bns r s.heap) s := rfl

theorem bind_eq_ok {α β : Type} {m : KM α} {f : α → KM β} {s s2 : KState} {b : β}
    (h : (m >>= f) s = .ok b s2) : ∃ a s1, m s = .ok a s1 ∧ f a s1 = .ok b s2 := by
  rw [KM.bind_apply] at h
  cases hm : m s with
  | ok a s1 => rw [hm] at h; exact ⟨a, s1, rfl, h⟩
  | fatal e s1 => rw [hm] at h; cases h

theorem readOnly_eq_ok {α : Type} {m : KM α} (hm : ReadOnly m) {s s1 : KState} {a : α}
    (h : m s = .ok a s1) : s = s1 := by
  have := hm s
  rw [h] at this
  exact this.symm

theorem readOnly_forM_ok {α : Type} (l : List α) (f : α → KM Unit) (hf : ∀ a, ReadOnly (f a))
    (s s1 : KState) (h : l.forM f s = .ok () s1) : ∀ a ∈ l, f a s = .ok () s := by
  induction l with
  | nil => simp
  | cons a t ih =>
    rw [List.forM_cons'] at h
    obtain ⟨u, s0, h0, h1⟩ := bind_eq_ok h
    have hs0 := readOnly_eq_ok (hf a) h0
    subst hs0
    intro x hx
    rcases List.mem_cons.1 hx with hx | hx
    · subst hx; exact h0
    · exact ih h1 x hx

theorem memcmp_eq_zero_true (fld mem : Option (List Int)) (len : Nat) (s s1 : KState)
    (h : memcmp_eq_zero fld mem len s = .ok true s1) :
    len = 0 ∨ ∃ d d0, fld = some d ∧ mem = some d0 ∧ len / 8 ≤ d.length ∧ len / 8 ≤ d0.length ∧
      d.take (len / 8) = d0.take (len / 8) := by
  unfold memcmp_eq_zero at h
  by_cases hl : len = 0
  · exact Or.inl hl
  · right
    rw [if_neg hl] at h
    cases fld with
    | none => cases mem <;> simp at h
    | some d =>
      cases mem with
      | none => simp at h
      | some d0 =>
        simp only at h
        by_cases hc : len / 8 ≤ d.length ∧ len / 8 ≤ d0.length
        · rw [if_pos hc] at h
          simp only [KM.pure_apply, Result.ok.injEq, decide_eq_true_eq] at h
          exact ⟨d, d0, rfl, rfl, hc.1, hc.2, h.1⟩
        · rw [if_neg hc] at h
          simp at h

theorem PbRpf_Get_eq_ok {bns : List String} {i : Nat} {s s1 : KState} {bn : String}
    (h : PbRpf_Get bns i s = .ok bn s1) : bns.get? i = some bn ∧ s = s1 := by
  unfold PbRpf_Get at h
  cases hg : bns.get? i with
  | none => rw [hg] at h; simp at h
  | some x => rw [hg] at h; simp at h; exact ⟨by rw [h.1], h.2⟩

theorem deref_eq_ok {p : Option Ptr} {s s1 : KState} {b : Blob}
    (h : KM.deref p s = .ok b s1) : ∃ q, p = some q ∧ b = s.heap q ∧ s = s1 := by
  cases p with
  | none => simp at h
  | some q => simp at h; exact ⟨q, rfl, h.1.symm, h.2⟩

theorem CHECK_eq_ok {c : Bool} {s s1 : KState} (h : CHECK c s = .ok () s1) :
    c = true ∧ s = s1 := by
  cases c with
  | false => simp at h
  | true => simp at h; exact ⟨rfl, h⟩

/-- What a successful `CheckSameDim0ValidNum` establishes. -/
theorem CheckSameDim0ValidNum_ok (bns : List String) (r : Resolver) (s s1 : KState)
    (h : CheckSameDim0ValidNum bns r s = .ok () s1) :
    s = s1 ∧ ∃ bn0 rest p0, bns = bn0 :: rest ∧ r bn0 = some p0 ∧
      ∀ bn ∈ bns, ∃ p, r bn = some p ∧ (s.heap p0).dim0_valid_num_agrees (s.heap p) := by
  have hs := readOnly_eq_ok (readOnly_CheckSameDim0ValidNum bns r) h
  subst hs
  refine ⟨rfl, ?_⟩
  unfold CheckSameDim0ValidNum FOR_RANGE at h
  cases bns with
  | nil =>
    obtain ⟨bn0, s0, hg, -⟩ := bind_eq_ok h
    have := (PbRpf_Get_eq_ok hg).1
    simp at this
  | cons x rest =>
    obtain ⟨bn0, s0, hg, h1⟩ := bind_eq_ok h
    obtain ⟨hg0, hs0⟩ := PbRpf_Get_eq_ok hg
    subst hs0
    simp only [List.get?_cons_zero, Option.some.injEq] at hg0
    subst hg0
    obtain ⟨blob0, s0, hd, h2⟩ := bind_eq_ok h1
    obtain ⟨p0, hp0, hb0, hs0⟩ := deref_eq_ok hd
    subst hs0
    refine ⟨x, rest, p0, rfl, hp0, ?_⟩
    have hall := readOnly_forM_ok _ _ (fun i => by
      repeat (first
        | apply readOnly_bind | apply readOnly_PbRpf_Get
        | apply readOnly_deref | apply readOnly_memcmp_eq_zero | apply readOnly_CHECK
        | intro _)) _ _ h2
    intro bn hbn
    rcases List.mem_cons.1 hbn with hx | hx
    · subst hx
      refine ⟨p0, hp0, ?_⟩
      intro d0 hd0 _
      exact ⟨d0, hd0, List.prefix_refl _⟩
    · obtain ⟨j, hj, hjbn⟩ := List.getElem_of_mem hx
      have hmem : j + 1 ∈ List.range' 1 ((x :: rest).length - 1) := by
        rw [List.mem_range']
        exact ⟨j, by simpa using hj, by omega⟩
      have hb := hall (j + 1) hmem
      obtain ⟨bn1, s0, hg1, hb⟩ := bind_eq_ok hb
      obtain ⟨hget, hs0⟩ := PbRpf_Get_eq_ok hg1
      subst hs0
      have hbn1 : bn1 = bn := by
        rw [List.get?_cons_succ, List.get?_eq_getElem?, List.getElem?_eq_getElem hj] at hget
        simp only [Option.some.injEq] at hget
        rw [← hget, hjbn]
      subst hbn1
      obtain ⟨blob, s0, hd1, hb⟩ := bind_eq_ok hb
      obtain ⟨p, hp, hbl, hs0⟩ := deref_eq_ok hd1
      subst hs0
      obtain ⟨c, s0, hm, hb⟩ := bind_eq_ok hb
      have hs0 := readOnly_eq_ok (readOnly_memcmp_eq_zero _ _ _) hm
      subst hs0
      obtain ⟨hc, -⟩ := CHECK_eq_ok hb
      subst hc
      refine ⟨p, hp, ?_⟩
      intro d0 hd0 hne
      rcases memcmp_eq_zero_true _ _ _ _ _ hm with hlen | ⟨d, d0', hfd, hmem0, hl1, hl2, htake⟩
      · exfalso
        rw [hb0] at hlen
        unfold Blob.ByteSizeOfDim0ValidNumField at hlen
        rw [hd0] at hlen
        simp at hlen
        exact hne hlen
      · rw [hb0, hd0] at hmem0
        simp only [Option.some.injEq] at hmem0
        subst hmem0
        rw [hb0] at htake hl1
        unfold Blob.ByteSizeOfDim0ValidNumField at htake hl1
        rw [hd0] at htake hl1
        simp only [ne_eq, OfNat.ofNat_ne_zero, not_false_eq_true, Nat.mul_div_cancel_left,
          Nat.ofNat_pos, List.take_length] at htake hl1
        refine ⟨d, by rw [hbl] at hfd; exact hfd, ?_⟩
        rw [← htake]
        exact List.take_prefix _ _

theorem Blob.field_CopyFrom (c : CopyKind) (dst src : Blob) :
    (dst.CopyFrom c src).field c = src.field c := by
  cases c <;> rfl

theorem Blob_Copy_some (c : CopyKind) (t f : Ptr) (s : KState) :
    Blob_Copy c (some t) (some f) s = .ok ()
      { heap := s.heap.set t ((s.heap t).CopyFrom c (s.heap f)),
        trace := s.trace ++ [.Copy c t f] } := rfl

/-- Broadcast of one source buffer: completes when every destination binding
resolves, leaves buffers outside the destinations alone, and gives every
destination the source's field. -/
theorem CopyField_from_blob_spec (k : Kernel) (r : Resolver) (c : CopyKind) (pf : Ptr)
    (to_bns : List String) (s : KState) (hdst : ∀ bn ∈ to_bns, ∃ p, r bn = some p) :
    ∃ s2, k.CopyField_from_blob r (some pf) to_bns c s = .ok () s2 ∧
      (∀ p, (∀ bn ∈ to_bns, r bn ≠ some p) → s2.heap p = s.heap p) ∧
      (∀ p, (s2.heap p).field c = (s.heap p).field c ∨
        (s2.heap p).field c = (s.heap pf).field c) ∧
      (∀ bn ∈ to_bns, ∀ p, r bn = some p → (s2.heap p).field c = (s.heap pf).field c) := by
  induction to_bns generalizing s with
  | nil => exact ⟨s, rfl, fun _ _ => rfl, fun _ => Or.inl rfl, by simp⟩
  | cons bn t ih =>
    obtain ⟨q, hq⟩ := hdst bn (List.mem_cons_self _ _)
    have hstep := Blob_Copy_some c q pf s
    obtain ⟨s2, h2, hout, hfr, hall⟩ :=
      ih { heap := s.heap.set q ((s.heap q).CopyFrom c (s.heap pf)),
           trace := s.trace ++ [.Copy c q pf] }
        (fun b hb => hdst b (List.mem_cons_of_mem _ hb))
    have hsrc : (Heap.set s.heap q ((s.heap q).CopyFrom c (s.heap pf)) pf).field c
        = (s.heap pf).field c := by
      unfold Heap.set
      split
      · exact Blob.field_CopyFrom _ _ _
      · rfl
    have hfld : ∀ p, (Heap.set s.heap q ((s.heap q).CopyFrom c (s.heap pf)) p).field c
        = (s.heap p).field c ∨
        (Heap.set s.heap q ((s.heap q).CopyFrom c (s.heap pf)) p).field c
        = (s.heap pf).field c := by
      intro p
      unfold Heap.set
      split
      · right; exact Blob.field_CopyFrom _ _ _
      · left; rfl
    refine ⟨s2, ?_, ?_, ?_, ?_⟩
    · unfold Kernel.CopyField_from_blob at h2 ⊢
      rw [List.forM_cons', KM.bind_apply, hq, hstep]
      exact h2
    · intro p hp
      rw [hout p (fun b hb => hp b (List.mem_cons_of_mem _ hb))]
      have : p ≠ q := fun h => hp bn (List.mem_cons_self _ _) (by rw [hq, h])
      simp [Heap.set, this]
    · intro p
      rcases hfr p with h | h
      · rcases hfld p with h1 | h1
        · left; rw [h]; exact h1
        · right; rw [h]; exact h1
      · right; rw [h]; exact hsrc
    · intro b hb p hp
      rcases List.mem_cons.1 hb with hx | hx
      · subst hx
        have hpq : p = q := by rw [hq] at hp; exact (Option.some.inj hp).symm
        subst hpq
        rcases hfr p with h | h
        · rw [h]
          simp only [Heap.set, if_true]
          exact Blob.field_CopyFrom _ _ _
        · rw [h]; exact hsrc
      · rw [hall b hx p hp]; exact hsrc

theorem sampleResolver_resolves_bcd :
    ∀ bn ∈ ["b", "c", "d"], ∃ p, sampleResolver bn = some p := by
  intro bn hbn
  simp only [List.mem_cons, List.mem_singleton, List.not_mem_nil, or_false] at hbn
  rcases hbn with h | h | h <;> subst h <;> exact ⟨_, rfl⟩

theorem to_int32_add (a b : Int) : to_int32 (to_int32 a + b) = to_int32 (a + b) := by
  unfold to_int32
  omega

theorem to_int32_of_range (c : Int) (h1 : -2 ^ 31 ≤ c) (h2 : c < 2 ^ 31) : to_int32 c = c := by
  unfold to_int32
  omega

theorem to_int32_idem (a : Int) : to_int32 (to_int32 a) = to_int32 a := by
  unfold to_int32
  omega

theorem dim0_valid_num_apply (b : Blob) (d : List Int) (i : Nat) (s : KState)
    (hd : b.dim0_valid_num_ptr = some d) (hi : i < d.length) :
    b.dim0_valid_num i s = .ok (d.getD i 0) s := by
  unfold Blob.dim0_valid_num
  rw [hd]
  simp [List.get?_eq_getElem?, List.getElem?_eq_getElem hi, List.getD_eq_getElem _ _ hi]

theorem foldlM_instance_num_sum (b : Blob) (d : List Int) (hd : b.dim0_valid_num_ptr = some d)
    (l : List Nat) (hl : ∀ i ∈ l, i < d.length) (acc : Int) (hacc : to_int32 acc = acc)
    (s : KState) :
    (l.foldlM (fun instance_num_sum i => do
        pure (to_int32 (instance_num_sum + (← b.dim0_valid_num i)))) acc : KM Int) s
      = Result.ok (to_int32 (acc + (l.map fun i => d.getD i 0).sum)) s := by
  induction l generalizing acc with
  | nil => simp [hacc]
  | cons i t ih =>
    rw [List.foldlM_cons, KM.bind_apply, KM.bind_apply,
      dim0_valid_num_apply b d i s hd (hl i (List.mem_cons_self _ _))]
    simp only [KM.pure_apply]
    rw [ih (fun j hj => hl j (List.mem_cons_of_mem _ hj)) _ (to_int32_idem _), to_int32_add]
    simp [add_assoc]

theorem sum_map_getD_range' (d : List Int) (n : Nat) (hn : n ≤ d.length) :
    ((List.range' 0 n).map fun i => d.getD i 0).sum = (d.take n).sum := by
  induction n with
  | zero => simp
  | succ m ih =>
    have hm : m < d.length := by omega
    rw [List.range'_1_concat, List.map_append, List.sum_append, ih (by omega),
      List.take_succ, List.sum_append]
    simp [List.getD_eq_getElem _ _ hm, List.getElem?_eq_getElem hm]

theorem CalcInstanceNumSum_of_spec (k : Kernel) (r : Resolver) (i : Nat) (bn : String) (p : Ptr)
    (c : Int) (s : KState) (hi : k.op_attribute.output_diff_bns.get? i = some bn)
    (hp : r bn = some p) (hc : (s.heap p).spec_instance_num = some c) :
    k.CalcInstanceNumSum i r s = .ok (to_int32 c) s := by
  have hlt : i < k.op_attribute.output_diff_bns.length := by
    rw [List.get?_eq_getElem?] at hi
    by_contra hcon
    rw [List.getElem?_eq_none (by omega)] at hi
    cases hi
  unfold Kernel.CalcInstanceNumSum
  unfold Blob.spec_instance_num at hc
  simp only [KM.bind_apply, hlt, decide_True, CHECK_true, PbRpf_Get, hi, KM.pure_apply, hp,
    KM.deref_some, Blob.has_dim0_valid_num_field]
  cases hd : (s.heap p).dim0_valid_num_ptr with
  | none =>
    rw [hd] at hc
    simp only [Option.isSome_none, Bool.false_eq_true, if_false, KM.bind_apply, Shape_At]
    cases hs : (s.heap p).static_shape with
    | nil => rw [hs] at hc; simp at hc
    | cons x t =>
      rw [hs] at hc
      simp only [List.head?_cons, Option.some.injEq] at hc
      subst hc
      simp
  | some d =>
    rw [hd] at hc
    simp only [Option.isSome_some, if_true, KM.bind_apply, Blob.get_dim0_inner_shape]
    cases hin : (s.heap p).dim0_inner_shape with
    | none => rw [hin] at hc; simp at hc
    | some sh =>
      rw [hin] at hc
      cases sh with
      | nil => simp at hc
      | cons n t =>
        simp only at hc
        by_cases hn : n.toNat ≤ d.length
        · rw [if_pos hn] at hc
          simp only [Option.some.injEq] at hc
          subst hc
          simp only [KM.pure_apply, Shape_At, List.get?_cons_zero]
          rw [foldlM_instance_num_sum (s.heap p) d hd _ (fun j hj => by
            rw [List.mem_range'] at hj
            obtain ⟨m, hm, rfl⟩ := hj
            omega) 0 (by unfold to_int32; omega)]
          rw [sum_map_getD_range' d _ hn]
          simp
        · rw [if_neg hn] at hc
          cases hc


theorem readOnly_ite {α : Type} (c : Prop) [Decidable c] {m n : KM α} (hm : ReadOnly m)
    (hn : ReadOnly n) : ReadOnly (if c then m else n) := by
  split
  · exact hm
  · exact hn

theorem readOnly_foldlM {α β : Type} (l : List α) (f : β → α → KM β)
    (hf : ∀ b a, ReadOnly (f b a)) (b : β) : ReadOnly (l.foldlM f b) := by
  induction l generalizing b with
  | nil => exact readOnly_pure _
  | cons a t ih => rw [List.foldlM_cons]; exact readOnly_bind (hf b a) (fun _ => ih _)

theorem readOnly_dim0_valid_num (b : Blob) (i : Nat) : ReadOnly (b.dim0_valid_num i) := by
  intro s; unfold Blob.dim0_valid_num
  cases b.dim0_valid_num_ptr with
  | none => rfl
  | some d =>
    simp only []
    cases d.get? i <;> rfl

theorem readOnly_get_dim0_inner_shape (b : Blob) : ReadOnly b.get_dim0_inner_shape := by
  intro s; unfold Blob.get_dim0_inner_shape; cases b.dim0_inner_shape <;> rfl

theorem readOnly_CalcInstanceNumSum (k : Kernel) (i : Nat) (r : Resolver) :
    ReadOnly (k.CalcInstanceNumSum i r) := by
  unfold Kernel.CalcInstanceNumSum
  repeat (first
    | exact readOnly_pure _ | exact readOnly_PbRpf_Get _ _ | exact readOnly_Shape_At _ _
    | exact readOnly_dim0_valid_num _ _ | exact readOnly_get_dim0_inner_shape _
    | exact readOnly_deref _ | exact readOnly_CHECK _
    | apply readOnly_bind | apply readOnly_ite | apply readOnly_foldlM
    | intro _)

theorem heapOnly_pure {α : Type} (a : α) : HeapOnly (pure a : KM α) := fun _ _ _ => rfl

theorem heapOnly_fail {α : Type} (e : KErr) : HeapOnly (KM.fail e : KM α) := fun _ _ _ => rfl

theorem heapOnly_bind {α β : Type} {m : KM α} {f : α → KM β} (hr : ReadOnly m)
    (hm : HeapOnly m) (hf : ∀ a, HeapOnly (f a)) : HeapOnly (m >>= f) := by
  intro s s1 hs
  have h0 := hm s s1 hs
  have r0 := hr s
  have r1 := hr s1
  cases h : m s with
  | ok a t =>
    rw [h] at h0 r0
    cases h1 : m s1 with
    | ok a1 t1 =>
      rw [h1] at h0 r1
      simp only [Result.outcome, Except.ok.injEq] at h0
      simp only [Result.state] at r0 r1
      subst h0 r0 r1
      rw [KM.bind_ok h, KM.bind_ok h1]
      exact hf a _ _ hs
    | fatal e1 t1 => rw [h1] at h0; simp [Result.outcome] at h0
  | fatal e t =>
    rw [h] at h0
    cases h1 : m s1 with
    | ok a1 t1 => rw [h1] at h0; simp [Result.outcome] at h0
    | fatal e1 t1 =>
      rw [h1] at h0
      rw [KM.bind_fatal h, KM.bind_fatal h1]
      simp only [Result.outcome, Except.error.injEq] at h0
      subst h0
      rfl

theorem heapOnly_CHECK (c : Bool) : HeapOnly (CHECK c) := by
  intro s s1 _; cases c <;> rfl

theorem heapOnly_deref (p : Option Ptr) : HeapOnly (KM.deref p) := by
  intro s s1 h
  cases p with
  | none => rfl
  | some q => simp [Result.outcome, h]

theorem heapOnly_PbRpf_Get (bns : List String) (i : Nat) : HeapOnly (PbRpf_Get bns i) := by
  intro s s1 _; unfold oneflow.PbRpf_Get; cases bns.get? i <;> rfl

theorem heapOnly_Shape_At (sh : List Int) (i : Nat) : HeapOnly (Shape_At sh i) := by
  intro s s1 _; unfold oneflow.Shape_At; cases sh.get? i <;> rfl

theorem heapOnly_dim0_valid_num (b : Blob) (i : Nat) : HeapOnly (b.dim0_valid_num i) := by
  intro s s1 _; unfold Blob.dim0_valid_num
  cases b.dim0_valid_num_ptr with
  | none => rfl
  | some d =>
    simp only []
    cases d.get? i <;> rfl

theorem heapOnly_get_dim0_inner_shape (b : Blob) : HeapOnly b.get_dim0_inner_shape := by
  intro s s1 _; unfold Blob.get_dim0_inner_shape; cases b.dim0_inner_shape <;> rfl

theorem heapOnly_ite {α : Type} (c : Prop) [Decidable c] {m n : KM α} (hm : HeapOnly m)
    (hn : HeapOnly n) : HeapOnly (if c then m else n) := by
  split
  · exact hm
  · exact hn

theorem heapOnly_foldlM {α β : Type} (l : List α) (f : β → α → KM β)
    (hr : ∀ b a, ReadOnly (f b a)) (hf : ∀ b a, HeapOnly (f b a)) (b : β) :
    HeapOnly (l.foldlM f b) := by
  induction l generalizing b with
  | nil => exact heapOnly_pure _
  | cons a t ih => rw [List.foldlM_cons]; exact heapOnly_bind (hr b a) (hf b a) (fun _ => ih _)

theorem heapOnly_CalcInstanceNumSum (k : Kernel) (i : Nat) (r : Resolver) :
    HeapOnly (k.CalcInstanceNumSum i r) := by
  unfold Kernel.CalcInstanceNumSum
  repeat (first
    | exact readOnly_pure _ | exact readOnly_PbRpf_Get _ _ | exact readOnly_Shape_At _ _
    | exact readOnly_dim0_valid_num _ _ | exact readOnly_get_dim0_inner_shape _
    | exact readOnly_deref _ | exact readOnly_CHECK _
    | exact heapOnly_pure _ | exact heapOnly_PbRpf_Get _ _ | exact heapOnly_Shape_At _ _
    | exact heapOnly_dim0_valid_num _ _ | exact heapOnly_get_dim0_inner_shape _
    | exact heapOnly_deref _ | exact heapOnly_CHECK _
    | apply readOnly_bind | apply heapOnly_bind | apply heapOnly_ite | apply heapOnly_foldlM
    | intro _)

/-- A read-only, heap-only operation gives the same result after the trace
has grown. -/
theorem heapOnly_transfer {α : Type} {m : KM α} (hr : ReadOnly m) (hh : HeapOnly m)
    (s s1 : KState) (hs : s.heap = s1.heap) {a : α} (h : m s = .ok a s) :
    m s1 = .ok a s1 := by
  have h0 := hh s s1 hs
  have r1 := hr s1
  rw [h] at h0
  cases h1 : m s1 with
  | ok a1 t1 =>
    rw [h1] at h0 r1
    simp only [Result.outcome, Except.ok.injEq] at h0
    simp only [Result.state] at r1
    rw [h0, r1]
  | fatal e1 t1 => rw [h1] at h0; simp [Result.outcome] at h0

theorem readOnly_forM_of_all_ok {α : Type} (l : List α) (f : α → KM Unit) (s : KState)
    (h : ∀ a ∈ l, f a s = .ok () s) : l.forM f s = .ok () s := by
  induction l with
  | nil => rfl
  | cons a t ih =>
    rw [List.forM_cons', KM.bind_ok (h a (List.mem_cons_self _ _))]
    exact ih (fun b hb => h b (List.mem_cons_of_mem _ hb))

theorem readOnly_forM_fatal {α : Type} (l : List α) (f : α → KM Unit)
    (hf : ∀ a, ReadOnly (f a)) (s : KState) (a : α) (ha : a ∈ l) (e : KErr)
    (h : f a s = .fatal e s) : ∃ e1, l.forM f s = .fatal e1 s := by
  induction l with
  | nil => simp at ha
  | cons b t ih =>
    rw [List.forM_cons', KM.bind_apply]
    have hb := hf b s
    cases hfb : f b s with
    | fatal e1 s1 =>
      rw [hfb] at hb
      simp only [Result.state] at hb
      subst hb
      exact ⟨e1, rfl⟩
    | ok u s1 =>
      rw [hfb] at hb
      simp only [Result.state] at hb
      subst hb
      rcases List.mem_cons.1 ha with hx | hx
      · subst hx; rw [h] at hfb; cases hfb
      · exact ih hx

theorem KernelUtil_Set_apply (v : Int) (pt : Ptr) (s : KState) (x : Int) (rest : List Int)
    (hd : (s.heap pt).dptr = x :: rest) :
    KernelUtil_Set v pt s = .ok ()
      { heap := s.heap.set pt { s.heap pt with dptr := v :: rest },
        trace := s.trace ++ [.Set pt v] } := by
  unfold KernelUtil_Set
  simp only [KM.bind_apply, KM.log_apply, KM.deref_some, hd, KM.store_apply]

theorem modelResolver_counts8 :
    ∀ bn ∈ kernelModel.op_attribute.output_diff_bns,
      ∃ p, modelResolver bn = some p ∧ (stateCounts8.heap p).spec_instance_num = some 8 := by
  intro bn hbn
  have hb : bn = "a" ∨ bn = "b" := by simpa [kernelModel, Kernel.plain, Kernel.op_attribute] using hbn
  rcases hb with h | h <;> subst h
  · exact ⟨0, rfl, rfl⟩
  · exact ⟨1, rfl, rfl⟩

theorem blobRel_sameShape : BlobRel Blob.sameShape :=
  ⟨fun _ => rfl, fun _ _ _ h1 h2 => h2.trans h1, fun k _ _ => by cases k <;> rfl,
    fun _ _ => rfl, fun _ _ => rfl⟩

theorem blobRel_true : BlobRel (fun _ _ => True) :=
  ⟨fun _ => trivial, fun _ _ _ _ _ => trivial, fun _ _ _ => trivial, fun _ _ => trivial,
    fun _ _ => trivial⟩

section backward
variable {H : Blob → Blob → Prop} {E : Event → Prop}

/-- Pointwise rule for a read-only first step: the continuation may use what
the step returned in the current state. -/
theorem frame_readOnly_bind {α β : Type} {m : KM α} {f : α → KM β} {s : KState}
    (hH : BlobRel H) (hm : ReadOnly m)
    (hf : ∀ a, m s = .ok a s → Frame H E s (f a s).state) :
    Frame H E s ((m >>= f) s).state := by
  have h0 := hm s
  cases h : m s with
  | ok a s1 =>
    rw [h] at h0
    simp only [Result.state] at h0
    subst h0
    rw [KM.bind_ok h]
    exact hf a h
  | fatal e s1 =>
    rw [h] at h0
    simp only [Result.state] at h0
    subst h0
    rw [KM.bind_fatal h]
    exact frame_refl hH.refl _

theorem frame_store (hH : BlobRel H) (s : KState) (p : Ptr) (b : Blob)
    (hb : H (s.heap p) b) : Frame H E s (KM.store p b s).state := by
  refine ⟨fun q => ?_, [], by simp [Result.state], by simp⟩
  show H (s.heap q) (Heap.set s.heap p b q)
  unfold Heap.set
  split
  · rename_i h; rw [h]; exact hb
  · exact hH.refl _

theorem readOnly_set_dim0_valid_num (b : Blob) (no : Nat) (val : Int) :
    ReadOnly (b.set_dim0_valid_num no val) := by
  intro s; unfold Blob.set_dim0_valid_num
  cases b.dim0_valid_num_ptr with
  | none => rfl
  | some d =>
    simp only []
    split <;> rfl

theorem set_dim0_valid_num_eq_ok {b b1 : Blob} {no : Nat} {val : Int} {s s1 : KState}
    (h : b.set_dim0_valid_num no val s = .ok b1 s1) :
    ∃ d, b.dim0_valid_num_ptr = some d ∧ no < d.length ∧
      b1 = { b with dim0_valid_num_ptr := some (d.set no val) } := by
  unfold Blob.set_dim0_valid_num at h
  cases hd : b.dim0_valid_num_ptr with
  | none => rw [hd] at h; simp at h
  | some d =>
    rw [hd] at h
    simp only [] at h
    by_cases hn : no < d.length
    · rw [if_pos hn] at h
      simp only [KM.pure_apply, Result.ok.injEq] at h
      exact ⟨d, rfl, hn, h.1.symm⟩
    · rw [if_neg hn] at h
      simp at h

theorem preserves_BackwardModelDiffDim0ValidNum (hH : BlobRel H)
    (hE : ∀ ev, ev.isCompute = false → E ev) (k : Kernel) (r : Resolver) :
    Preserves (Frame H E) (k.BackwardModelDiffDim0ValidNum r) := by
  unfold Kernel.BackwardModelDiffDim0ValidNum
  refine preserves_bind (frame_trans hH.trans) (preserves_log hH.refl _ (hE _ rfl)) fun _ => ?_
  refine preserves_bind (frame_trans hH.trans)
    (readOnly_preserves (frame_refl hH.refl) (fun _ => rfl)) fun e => ?_
  refine preserves_forM (frame_refl hH.refl) (frame_trans hH.trans) _ _ fun bn => ?_
  intro s
  refine frame_readOnly_bind hH (readOnly_CHECK _) fun _ _ => ?_
  refine frame_readOnly_bind hH (readOnly_nonnull _) fun p _ => ?_
  refine frame_readOnly_bind hH (readOnly_deref _) fun blob hblob => ?_
  obtain ⟨q, hq, hbl, -⟩ := deref_eq_ok hblob
  simp only [Option.some.injEq] at hq
  subst hq
  split
  · refine frame_readOnly_bind hH (readOnly_CHECK _) fun _ _ => ?_
    refine frame_readOnly_bind hH (readOnly_get_dim0_inner_shape _) fun _ _ => ?_
    refine frame_readOnly_bind hH (readOnly_Shape_At _ _) fun _ _ => ?_
    refine frame_readOnly_bind hH (readOnly_CHECK _) fun _ _ => ?_
    refine frame_readOnly_bind hH
      (readOnly_ite _ (readOnly_pure _) (readOnly_Shape_At _ _)) fun val _ => ?_
    refine frame_readOnly_bind hH (readOnly_set_dim0_valid_num _ _ _) fun b1 hb1 => ?_
    obtain ⟨d, -, -, hb⟩ := set_dim0_valid_num_eq_ok hb1
    subst hb
    subst hbl
    exact frame_store hH s p _ (hH.dim0 _ _)
  · exact frame_refl hH.refl _

theorem preserves_ite {α : Type} {R : KState → KState → Prop} (c : Prop) [Decidable c]
    {m n : KM α} (hm : Preserves R m) (hn : Preserves R n) :
    Preserves R (if c then m else n) := by
  split
  · exact hm
  · exact hn

theorem preserves_IF {R : KState → KState → Prop} (hr : ∀ s, R s s) (c : Bool) {m : KM Unit}
    (hm : Preserves R m) : Preserves R (IF c m) := by
  cases c
  · exact readOnly_preserves hr (readOnly_pure _)
  · exact hm

theorem preserves_BackwardInDiffDim0ValidNum (hH : BlobRel H)
    (hE : ∀ ev, ev.isCompute = false → E ev) (k : Kernel) (r : Resolver) :
    Preserves (Frame H E) (k.BackwardInDiffDim0ValidNum r) := by
  unfold Kernel.BackwardInDiffDim0ValidNum
  refine preserves_bind (frame_trans hH.trans) (preserves_log hH.refl _ (hE _ rfl)) fun _ => ?_
  refine preserves_bind (frame_trans hH.trans)
    (readOnly_preserves (frame_refl hH.refl) (readOnly_CHECK _)) fun _ => ?_
  refine preserves_bind (frame_trans hH.trans)
    (readOnly_preserves (frame_refl hH.refl) (readOnly_CheckSameDim0ValidNum _ _)) fun _ => ?_
  refine preserves_ite _ (readOnly_preserves (frame_refl hH.refl) (readOnly_pure _)) ?_
  refine preserves_bind (frame_trans hH.trans)
    (readOnly_preserves (frame_refl hH.refl) (readOnly_PbRpf_Get _ _)) fun _ => ?_
  exact preserves_CopyField_from_blob hH.refl hH.trans hH.copy (fun _ _ _ => hE _ rfl) _ _ _ _ _

theorem preserves_CopyField (hH : BlobRel H) (hE : ∀ ev, ev.isCompute = false → E ev)
    (k : Kernel) (r : Resolver) (from_bns to_bns : List String) (c : CopyKind) :
    Preserves (Frame H E) (k.CopyField r from_bns to_bns c) := by
  unfold Kernel.CopyField
  refine preserves_ite _ ?_ (preserves_ite _ ?_ ?_)
  · refine preserves_bind (frame_trans hH.trans)
      (readOnly_preserves (frame_refl hH.refl) (readOnly_PbRpf_Get _ _)) fun _ => ?_
    exact preserves_CopyField_from_blob hH.refl hH.trans hH.copy (fun _ _ _ => hE _ rfl)
      _ _ _ _ _
  · refine preserves_bind (frame_trans hH.trans)
      (readOnly_preserves (frame_refl hH.refl) (readOnly_PbRpf_Get _ _)) fun _ => ?_
    refine preserves_bind (frame_trans hH.trans)
      (readOnly_preserves (frame_refl hH.refl) (readOnly_PbRpf_Get _ _)) fun _ => ?_
    exact preserves_Blob_Copy hH.refl hH.copy (fun _ _ _ => hE _ rfl) _ _ _
  · exact readOnly_preserves (frame_refl hH.refl) (readOnly_CHECK _)

theorem preserves_BackwardColNum (hH : BlobRel H) (hE : ∀ ev, ev.isCompute = false → E ev)
    (k : Kernel) (r : Resolver) : Preserves (Frame H E) (k.BackwardColNum r) := by
  unfold Kernel.BackwardColNum
  exact preserves_bind (frame_trans hH.trans) (preserves_log hH.refl _ (hE _ rfl))
    fun _ => preserves_CopyField hH hE _ _ _ _ _

theorem preserves_BackwardDataId (hH : BlobRel H) (hE : ∀ ev, ev.isCompute = false → E ev)
    (k : Kernel) (r : Resolver) : Preserves (Frame H E) (k.BackwardDataId r) := by
  unfold Kernel.BackwardDataId
  exact preserves_log hH.refl _ (hE _ rfl)

theorem preserves_KernelUtil_Set (hH : BlobRel H) (hE : ∀ ev, ev.isCompute = false → E ev)
    (v : Int) (p : Ptr) : Preserves (Frame H E) (KernelUtil_Set v p) := by
  unfold KernelUtil_Set
  refine preserves_bind (frame_trans hH.trans) (preserves_log hH.refl _ (hE _ rfl)) fun _ => ?_
  intro s
  refine frame_readOnly_bind hH (readOnly_deref _) fun blob hblob => ?_
  obtain ⟨q, hq, hbl, -⟩ := deref_eq_ok hblob
  simp only [Option.some.injEq] at hq
  subst hq
  subst hbl
  cases (s.heap p).dptr with
  | nil => exact frame_refl hH.refl _
  | cons x rest => exact frame_store hH s p _ (hH.dptr _ _)

theorem preserves_SetTotalInstanceNumDiffBlob (hH : BlobRel H)
    (hE : ∀ ev, ev.isCompute = false → E ev) (k : Kernel) (r : Resolver) :
    Preserves (Frame H E) (k.SetTotalInstanceNumDiffBlob r) := by
  unfold Kernel.SetTotalInstanceNumDiffBlob FOR_RANGE
  refine preserves_bind (frame_trans hH.trans) (preserves_log hH.refl _ (hE _ rfl)) fun _ => ?_
  refine preserves_bind (frame_trans hH.trans)
    (readOnly_preserves (frame_refl hH.refl) (readOnly_CHECK _)) fun _ => ?_
  refine preserves_bind (frame_trans hH.trans)
    (readOnly_preserves (frame_refl hH.refl) (readOnly_CalcInstanceNumSum _ _ _)) fun _ => ?_
  refine preserves_bind (frame_trans hH.trans)
    (readOnly_preserves (frame_refl hH.refl) (readOnly_forM _ _ fun _ =>
      readOnly_bind (readOnly_CalcInstanceNumSum _ _ _) fun _ => readOnly_CHECK _)) fun _ => ?_
  refine preserves_bind (frame_trans hH.trans)
    (readOnly_preserves (frame_refl hH.refl) (readOnly_nonnull _)) fun _ => ?_
  exact preserves_KernelUtil_Set hH hE _ _

end backward


theorem BackwardActivation_trace (k : Kernel) (a b c : Option Ptr) (s : KState) :
    (k.BackwardActivation a b c s).state.trace = s.trace ++ [.BackwardActivation a b c] := by
  unfold Kernel.BackwardActivation
  rw [KM.bind_apply, KM.log_apply]
  simp only []
  cases a with
  | none => rfl
  | some pa =>
    rw [KM.bind_apply, KM.deref_some]
    simp only []
    cases k.GetActivationType with
    | kNone => rfl
    | kTanH =>
      simp only []
      cases b with
      | none => rfl
      | some pb => cases c <;> rfl
    | kSigmoid =>
      simp only []
      cases b with
      | none => rfl
      | some pb => cases c <;> rfl
    | kRelu =>
      simp only []
      cases b with
      | none => rfl
      | some pb => cases c <;> rfl

theorem BackwardDataContent_trace (k : Kernel) (r : Resolver) (s : KState) :
    (k.BackwardDataContent r s).state.trace = s.trace ++ [.BackwardDataContent r] := by
  unfold Kernel.BackwardDataContent
  rw [KM.bind_apply, KM.log_apply]
  simp only [KM.runHook]
  cases k.backward_data_content r s.heap <;> rfl

theorem hasEmptyShapeBlobIn_congr (bns : List String) (r : Resolver) (h h1 : Heap)
    (hs : ∀ p, (h p).sameShape (h1 p)) :
    Kernel.hasEmptyShapeBlobIn bns r h1 = Kernel.hasEmptyShapeBlobIn bns r h := by
  unfold Kernel.hasEmptyShapeBlobIn
  congr 1
  funext bn
  cases r bn with
  | none => rfl
  | some p =>
    simp only [Blob.IsShapeEmpty, Blob.elem_cnt]
    rw [hs p]

theorem KM_bind_assoc_apply {α β γ : Type} (m : KM α) (f : α → KM β) (g : β → KM γ)
    (s : KState) : ((m >>= f) >>= g) s = (m >>= fun a => f a >>= g) s := by
  rw [KM.bind_apply, KM.bind_apply, KM.bind_apply]
  cases m s with
  | ok a s1 => simp only [KM.bind_apply]
  | fatal e s1 => rfl

/-- `Backward` runs the dim0-valid-num steps and then tests for the empty
batch. -/
theorem Backward_after_dim0_steps (k : Kernel) (r : Resolver) (s s2 : KState)
    (h : k.BackwardDim0Steps r s = .ok () s2)
    (hsc : (Kernel.hasEmptyShapeBlobIn k.op_attribute.output_diff_bns r s2.heap
      && !k.NeedBackwardIfBlobEmpty) = true) :
    k.Backward r s = k.BackwardEarlyReturn r s2 := by
  unfold Kernel.BackwardDim0Steps at h
  unfold Kernel.Backward Kernel.BackwardEarlyReturn
  rw [← KM_bind_assoc_apply, KM.bind_ok h, KM.bind_apply, HasEmptyShapeBlob_apply]
  simp only [hsc, if_true]

theorem preserves_BackwardDim0Steps {H : Blob → Blob → Prop} {E : Event → Prop}
    (hH : BlobRel H) (hE : ∀ ev, ev.isCompute = false → E ev) (k : Kernel) (r : Resolver) :
    Preserves (Frame H E) (k.BackwardDim0Steps r) := by
  unfold Kernel.BackwardDim0Steps
  refine preserves_bind (frame_trans hH.trans)
    (preserves_IF (frame_refl hH.refl) _ (preserves_BackwardModelDiffDim0ValidNum hH hE k r))
    fun _ => ?_
  refine preserves_IF (frame_refl hH.refl) _ ?_
  exact preserves_bind (frame_trans hH.trans)
    (readOnly_preserves (frame_refl hH.refl) (readOnly_CHECK _))
    fun _ => preserves_BackwardInDiffDim0ValidNum hH hE k r

theorem hasEmptyShapeBlobIn_of_mem (bns : List String) (r : Resolver) (h : Heap)
    (hE : ∃ bn ∈ bns, ∃ p, r bn = some p ∧ (h p).IsShapeEmpty = true) :
    Kernel.hasEmptyShapeBlobIn bns r h = true := by
  obtain ⟨bn, hbn, p, hp, he⟩ := hE
  unfold Kernel.hasEmptyShapeBlobIn
  rw [List.any_eq_true]
  exact ⟨bn, hbn, by simp only [hp]; exact he⟩

theorem BackwardModelDiffDim0ValidNum_eq (k : Kernel) (r : Resolver) :
    k.BackwardModelDiffDim0ValidNum r = (do
      KM.log .BackwardModelDiffDim0ValidNum
      let is_out_diff_empty ← k.HasEmptyShapeBlob k.op_attribute.output_diff_bns r
      k.op_attribute.model_diff_bns.forM (Kernel.modelDiffStep is_out_diff_empty r)) := rfl

theorem modelDiffStep_null (e : Bool) (r : Resolver) (bn : String) (t : KState)
    (hr : r bn = none) : Kernel.modelDiffStep e r bn t = .fatal .check t := by
  unfold Kernel.modelDiffStep
  simp [KM.bind_apply, hr]

theorem modelDiffStep_no_field (e : Bool) (r : Resolver) (bn : String) (t : KState) (p : Ptr)
    (hr : r bn = some p) (hd : (t.heap p).dim0_valid_num_ptr = none) :
    Kernel.modelDiffStep e r bn t = .ok () t := by
  unfold Kernel.modelDiffStep
  simp [KM.bind_apply, hr, Blob.has_dim0_valid_num_field, hd]

theorem modelDiffStep_field (e : Bool) (r : Resolver) (bn : String) (t : KState) (p : Ptr)
    (d : List Int) (v : Int) (tl : List Int)
    (hr : r bn = some p) (hd : (t.heap p).dim0_valid_num_ptr = some d) (hl : 0 < d.length)
    (hi : (t.heap p).dim0_inner_shape = some (1 :: tl))
    (hv : (t.heap p).spec_model_diff_dim0 e = some v) :
    Kernel.modelDiffStep e r bn t = .ok ()
      { heap := t.heap.set p { t.heap p with dim0_valid_num_ptr := some (d.set 0 v) },
        trace := t.trace } := by
  unfold Kernel.modelDiffStep
  unfold Blob.spec_model_diff_dim0 at hv
  cases e with
  | true =>
    simp only [if_true, Option.some.injEq] at hv
    subst hv
    simp [KM.bind_apply, hr, Blob.has_dim0_valid_num_field, hd, Blob.has_dim0_inner_shape, hi,
      Blob.get_dim0_inner_shape, Shape_At, Blob.set_dim0_valid_num, hl]
  | false =>
    simp only [Bool.false_eq_true, if_false] at hv
    cases hs : (t.heap p).static_shape with
    | nil => rw [hs] at hv; simp at hv
    | cons x xs =>
      rw [hs] at hv
      simp only [List.head?_cons, Option.some.injEq] at hv
      subst hv
      simp [KM.bind_apply, hr, Blob.has_dim0_valid_num_field, hd, Blob.has_dim0_inner_shape,
        hi, Blob.get_dim0_inner_shape, Shape_At, Blob.set_dim0_valid_num, hl, hs]

theorem modelDiffStep_eq_ok (e : Bool) (r : Resolver) (bn : String) (t t1 : KState)
    (h : Kernel.modelDiffStep e r bn t = .ok () t1) :
    ∃ p, r bn = some p ∧
      (((t.heap p).dim0_valid_num_ptr = none ∧ t1 = t) ∨
        ((t.heap p).model_diff_recomputed e (t1.heap p) ∧ t1.trace = t.trace ∧
          ∀ q, q ≠ p → t1.heap q = t.heap q)) := by
  cases hr : r bn with
  | none => rw [modelDiffStep_null e r bn t hr] at h; cases h
  | some p =>
    refine ⟨p, rfl, ?_⟩
    cases hd : (t.heap p).dim0_valid_num_ptr with
    | none =>
      rw [modelDiffStep_no_field e r bn t p hr hd] at h
      simp only [Result.ok.injEq, true_and] at h
      exact Or.inl ⟨rfl, h.symm⟩
    | some d =>
      right
      unfold Kernel.modelDiffStep at h
      simp only [KM.bind_apply, hr, Option.isSome_some, CHECK_true, KM.nonnull_some,
        KM.deref_some, Blob.has_dim0_valid_num_field, hd, if_true] at h
      cases hi : (t.heap p).dim0_inner_shape with
      | none => simp [Blob.has_dim0_inner_shape, hi] at h
      | some sh =>
        cases sh with
        | nil =>
          simp [Blob.has_dim0_inner_shape, hi, Blob.get_dim0_inner_shape, Shape_At] at h
        | cons n tl =>
          by_cases hn : 1 = n
          · subst hn
            by_cases hl : 0 < d.length
            · cases hv : (t.heap p).spec_model_diff_dim0 e with
              | none =>
                unfold Blob.spec_model_diff_dim0 at hv
                cases e with
                | true => simp at hv
                | false =>
                  simp only [Bool.false_eq_true, if_false] at hv
                  cases hs : (t.heap p).static_shape with
                  | nil =>
                    simp [Blob.has_dim0_inner_shape, hi, Blob.get_dim0_inner_shape, Shape_At,
                      hs] at h
                  | cons x xs => rw [hs] at hv; simp at hv
              | some v =>
                have h2 := modelDiffStep_field e r bn t p d v tl hr hd hl hi hv
                unfold Kernel.modelDiffStep at h2
                simp only [KM.bind_apply, hr, Option.isSome_some, CHECK_true, KM.nonnull_some,
                  KM.deref_some, Blob.has_dim0_valid_num_field, hd, if_true] at h2
                rw [h2] at h
                simp only [Result.ok.injEq, true_and] at h
                subst h
                refine ⟨⟨d, v, tl, hd, hl, hi, hv, ?_⟩, rfl, ?_⟩
                · simp [Heap.set]
                · intro q hq
                  simp [Heap.set, hq]
            · simp [Blob.has_dim0_inner_shape, hi, Blob.get_dim0_inner_shape, Shape_At,
                Blob.set_dim0_valid_num, hd, hl] at h
              split at h <;> simp [KM.bind_apply] at h
          · simp [Blob.has_dim0_inner_shape, hi, Blob.get_dim0_inner_shape, Shape_At, hn] at h


theorem model_diff_recomputed_again (e : Bool) (b b1 b2 : Blob)
    (h1 : b.model_diff_recomputed e b1) (h2 : b1.model_diff_recomputed e b2) :
    b.model_diff_recomputed e b2 := by
  obtain ⟨d, v, tl, hd, hl, hi, hv, hb1⟩ := h1
  obtain ⟨d1, v1, tl1, hd1, hl1, hi1, hv1, hb2⟩ := h2
  subst hb1
  simp only [Option.some.injEq] at hd1
  subst hd1
  have hvv : v1 = v := by
    unfold Blob.spec_model_diff_dim0 at hv hv1
    simp only at hv1
    rw [hv] at hv1
    exact (Option.some.inj hv1).symm
  subst hvv
  refine ⟨d, v1, tl, hd, hl, hi, hv, ?_⟩
  rw [hb2]
  simp

theorem model_diff_recomputed_well_formed (e : Bool) (b b1 : Blob)
    (h : b.model_diff_recomputed e b1) :
    ∃ (d : List Int) (v : Int) (tl : List Int), b1.dim0_valid_num_ptr = some d ∧ 0 < d.length ∧
      b1.dim0_inner_shape = some (1 :: tl) ∧ b1.spec_model_diff_dim0 e = some v := by
  obtain ⟨d, v, tl, hd, hl, hi, hv, hb1⟩ := h
  subst hb1
  exact ⟨d.set 0 v, v, tl, rfl, by simpa using hl, hi, hv⟩

theorem model_diff_recomputed_entry (e : Bool) (b b1 : Blob)
    (h : b.model_diff_recomputed e b1) :
    ∃ (d2 : List Int) (v : Int), b1.dim0_valid_num_ptr = some d2 ∧ d2.get? 0 = some v ∧
      b.spec_model_diff_dim0 e = some v ∧ b1 = { b with dim0_valid_num_ptr := some d2 } := by
  obtain ⟨d, v, tl, hd, hl, hi, hv, hb1⟩ := h
  subst hb1
  refine ⟨d.set 0 v, v, rfl, ?_, hv, rfl⟩
  cases d with
  | nil => simp at hl
  | cons x xs => simp

/-- Partial correctness of the loop of `BackwardModelDiffDim0ValidNum` over a
base heap `h0`. -/
theorem modelDiffStep_forM_ok (e : Bool) (r : Resolver) (h0 : Heap) (l : List String)
    (t t1 : KState) (h : l.forM (Kernel.modelDiffStep e r) t = .ok () t1)
    (hinv : ∀ p, t.heap p = h0 p ∨ (h0 p).model_diff_recomputed e (t.heap p)) :
    (∀ p, t1.heap p = h0 p ∨ (h0 p).model_diff_recomputed e (t1.heap p)) ∧
    t1.trace = t.trace ∧
    (∀ p, (h0 p).model_diff_recomputed e (t.heap p) →
      (h0 p).model_diff_recomputed e (t1.heap p)) ∧
    (∀ bn ∈ l, ∃ p, r bn = some p ∧
      ((h0 p).dim0_valid_num_ptr = none ∨ (h0 p).model_diff_recomputed e (t1.heap p))) := by
  induction l generalizing t with
  | nil =>
    simp only [List.forM_nil', KM.pure_apply, Result.ok.injEq, true_and] at h
    subst h
    exact ⟨hinv, rfl, fun _ hp => hp, by simp⟩
  | cons bn rest ih =>
    rw [List.forM_cons'] at h
    obtain ⟨u, t0, hstep, hrest⟩ := bind_eq_ok h
    obtain ⟨p, hp, hcase⟩ := modelDiffStep_eq_ok e r bn t t0 hstep
    -- the state after the first round satisfies the invariant again
    have hstate : (∀ q, t0.heap q = h0 q ∨ (h0 q).model_diff_recomputed e (t0.heap q)) ∧
        t0.trace = t.trace ∧
        (∀ q, (h0 q).model_diff_recomputed e (t.heap q) →
          (h0 q).model_diff_recomputed e (t0.heap q)) ∧
        ((h0 p).dim0_valid_num_ptr = none ∨ (h0 p).model_diff_recomputed e (t0.heap p)) := by
      rcases hcase with ⟨hnone, ht0⟩ | ⟨hrec, htr, hothers⟩
      · subst ht0
        refine ⟨hinv, rfl, fun _ hq => hq, ?_⟩
        rcases hinv p with hq | hq
        · left; rw [← hq]; exact hnone
        · right; exact hq
      · have hp0 : (h0 p).model_diff_recomputed e (t0.heap p) := by
          rcases hinv p with hq | hq
          · rw [← hq]; exact hrec
          · exact model_diff_recomputed_again e _ _ _ hq hrec
        refine ⟨fun q => ?_, htr, fun q hq => ?_, Or.inr hp0⟩
        · by_cases hqp : q = p
          · subst hqp; exact Or.inr hp0
          · rw [hothers q hqp]; exact hinv q
        · by_cases hqp : q = p
          · subst hqp; exact hp0
          · rw [hothers q hqp]; exact hq
    obtain ⟨hinv0, htr0, hmono0, hp0⟩ := hstate
    obtain ⟨hinv1, htr1, hmono1, hall1⟩ := ih t0 hrest hinv0
    refine ⟨hinv1, htr1.trans htr0, fun q hq => hmono1 q (hmono0 q hq), ?_⟩
    intro b hb
    rcases List.mem_cons.1 hb with hx | hx
    · subst hx
      refine ⟨p, hp, ?_⟩
      rcases hp0 with h1 | h1
      · exact Or.inl h1
      · exact Or.inr (hmono1 p h1)
    · exact hall1 b hx

/-- Termination of the loop of `BackwardModelDiffDim0ValidNum` on well-formed
model-diff buffers. -/
theorem modelDiffStep_forM_total (e : Bool) (r : Resolver) (h0 : Heap) (l : List String)
    (hwf : ∀ bn ∈ l, ∃ p, r bn = some p ∧ (h0 p).model_diff_well_formed e) (t : KState)
    (hinv : ∀ p, t.heap p = h0 p ∨ (h0 p).model_diff_recomputed e (t.heap p)) :
    ∃ t1, l.forM (Kernel.modelDiffStep e r) t = .ok () t1 := by
  induction l generalizing t with
  | nil => exact ⟨t, rfl⟩
  | cons bn rest ih =>
    obtain ⟨p, hp, hw⟩ := hwf bn (List.mem_cons_self _ _)
    have hstep : ∃ t0, Kernel.modelDiffStep e r bn t = .ok () t0 := by
      rcases hinv p with hq | hq
      · rcases hw with hn | ⟨d, v, tl, hd, hl, hi, hv⟩
        · exact ⟨t, modelDiffStep_no_field e r bn t p hp (by rw [hq]; exact hn)⟩
        · exact ⟨_, modelDiffStep_field e r bn t p d v tl hp (by rw [hq]; exact hd) hl
            (by rw [hq]; exact hi) (by rw [hq]; exact hv)⟩
      · obtain ⟨d, v, tl, hd, hl, hi, hv⟩ := model_diff_recomputed_well_formed e _ _ hq
        exact ⟨_, modelDiffStep_field e r bn t p d v tl hp hd hl hi hv⟩
    obtain ⟨t0, ht0⟩ := hstep
    have hone : [bn].forM (Kernel.modelDiffStep e r) t = .ok () t0 := by
      rw [List.forM_cons', KM.bind_ok ht0]; rfl
    obtain ⟨hinv0, -, -, -⟩ := modelDiffStep_forM_ok e r h0 [bn] t t0 hone hinv
    obtain ⟨t1, ht1⟩ := ih (fun b hb => hwf b (List.mem_cons_of_mem _ hb)) t0 hinv0
    exact ⟨t1, by rw [List.forM_cons', KM.bind_ok ht0]; exact ht1⟩

/-- A null model-diff binding stops the loop of
`BackwardModelDiffDim0ValidNum`. -/
theorem modelDiffStep_forM_null (e : Bool) (r : Resolver) (l : List String)
    (hnull : ∃ bn ∈ l, r bn = none) (t : KState) :
    ∃ err t1, l.forM (Kernel.modelDiffStep e r) t = .fatal err t1 := by
  induction l generalizing t with
  | nil => obtain ⟨bn, hbn, -⟩ := hnull; simp at hbn
  | cons bn rest ih =>
    rw [List.forM_cons', KM.bind_apply]
    cases hstep : Kernel.modelDiffStep e r bn t with
    | fatal err t0 => exact ⟨err, t0, rfl⟩
    | ok u t0 =>
      simp only []
      obtain ⟨b, hb, hnb⟩ := hnull
      rcases List.mem_cons.1 hb with hx | hx
      · subst hx
        rw [modelDiffStep_null e r b t hnb] at hstep
        cases hstep
      · exact ih ⟨b, hx, hnb⟩ t0

theorem BackwardModelDiffDim0ValidNum_run (k : Kernel) (r : Resolver) (s : KState) :
    k.BackwardModelDiffDim0ValidNum r s
      = k.op_attribute.model_diff_bns.forM
          (Kernel.modelDiffStep
            (Kernel.hasEmptyShapeBlobIn k.op_attribute.output_diff_bns r s.heap) r)
          { heap := s.heap, trace := s.trace ++ [.BackwardModelDiffDim0ValidNum] } := by
  rw [BackwardModelDiffDim0ValidNum_eq, KM.bind_apply, KM.log_apply]
  simp only []
  rw [KM.bind_apply, HasEmptyShapeBlob_apply]

/-- What a completed `BackwardModelDiffDim0ValidNum` has done. -/
theorem BackwardModelDiffDim0ValidNum_ok (k : Kernel) (r : Resolver) (s s2 : KState)
    (h : k.BackwardModelDiffDim0ValidNum r s = .ok () s2) :
    s2.trace = s.trace ++ [.BackwardModelDiffDim0ValidNum] ∧
    (∀ p, s2.heap p = s.heap p ∨ (s.heap p).model_diff_recomputed
      (Kernel.hasEmptyShapeBlobIn k.op_attribute.output_diff_bns r s.heap) (s2.heap p)) ∧
    (∀ bn ∈ k.op_attribute.model_diff_bns, ∃ p, r bn = some p ∧
      ((s.heap p).dim0_valid_num_ptr = none ∨ (s.heap p).model_diff_recomputed
        (Kernel.hasEmptyShapeBlobIn k.op_attribute.output_diff_bns r s.heap) (s2.heap p))) := by
  rw [BackwardModelDiffDim0ValidNum_run] at h
  obtain ⟨hinv, htr, -, hall⟩ :=
    modelDiffStep_forM_ok _ r s.heap _ _ s2 h (fun _ => Or.inl rfl)
  exact ⟨htr, hinv, hall⟩

theorem preserves_BackwardInDiffDim0ValidNum_of {H : Blob → Blob → Prop} {E : Event → Prop}
    (hH : ∀ b, H b b) (hT : ∀ a b c, H a b → H b c → H a c)
    (hC : ∀ k d src, H d (Blob.CopyFrom k d src))
    (hE : E .BackwardInDiffDim0ValidNum) (hEC : ∀ k t f, E (.Copy k t f))
    (k : Kernel) (r : Resolver) :
    Preserves (Frame H E) (k.BackwardInDiffDim0ValidNum r) := by
  unfold Kernel.BackwardInDiffDim0ValidNum
  refine preserves_bind (frame_trans hT) (preserves_log hH _ hE) fun _ => ?_
  refine preserves_bind (frame_trans hT)
    (readOnly_preserves (frame_refl hH) (readOnly_CHECK _)) fun _ => ?_
  refine preserves_bind (frame_trans hT)
    (readOnly_preserves (frame_refl hH) (readOnly_CheckSameDim0ValidNum _ _)) fun _ => ?_
  refine preserves_ite _ (readOnly_preserves (frame_refl hH) (readOnly_pure _)) ?_
  refine preserves_bind (frame_trans hT)
    (readOnly_preserves (frame_refl hH) (readOnly_PbRpf_Get _ _)) fun _ => ?_
  exact preserves_CopyField_from_blob hH hT hC hEC _ _ _ _ _

theorem mem_filter_isSome (r : Resolver) (bns : List String) (bn : String) :
    bn ∈ bns.filter (fun b => (r b).isSome) ↔ bn ∈ bns ∧ ∃ p, r bn = some p := by
  rw [List.mem_filter]
  constructor
  · rintro ⟨h1, h2⟩
    exact ⟨h1, Option.isSome_iff_exists.1 h2⟩
  · rintro ⟨h1, h2⟩
    exact ⟨h1, Option.isSome_iff_exists.2 h2⟩

/-- What a completed `BackwardInDiffDim0ValidNum` has checked and done. -/
theorem BackwardInDiffDim0ValidNum_ok (k : Kernel) (r : Resolver) (s s2 : KState)
    (h : k.BackwardInDiffDim0ValidNum r s = .ok () s2) :
    k.kernel_conf.can_naive_do_dim0_valid_num = true ∧
    ∃ bn0 rest p0, k.op_attribute.output_diff_bns = bn0 :: rest ∧ r bn0 = some p0 ∧
      (∀ bn ∈ k.op_attribute.output_diff_bns, ∃ p, r bn = some p ∧
        (s.heap p0).dim0_valid_num_agrees (s.heap p)) ∧
      (∀ p, (∀ bn ∈ k.op_attribute.input_diff_bns, r bn ≠ some p) → s2.heap p = s.heap p) ∧
      (∀ bn ∈ k.op_attribute.input_diff_bns, ∀ p, r bn = some p →
        (s2.heap p).dim0_valid_num_ptr = (s.heap p0).dim0_valid_num_ptr) := by
  unfold Kernel.BackwardInDiffDim0ValidNum at h
  obtain ⟨u, s0, hl, h⟩ := bind_eq_ok h
  rw [KM.log_apply] at hl
  simp only [Result.ok.injEq, true_and] at hl
  subst hl
  obtain ⟨u, s0, hc, h⟩ := bind_eq_ok h
  obtain ⟨hcan, hs0⟩ := CHECK_eq_ok hc
  subst hs0
  obtain ⟨u, s0, hc, h⟩ := bind_eq_ok h
  obtain ⟨hs0, bn0, rest, p0, hb, hp0, hall⟩ := CheckSameDim0ValidNum_ok _ _ _ _ hc
  subst hs0
  refine ⟨hcan, bn0, rest, p0, hb, hp0, hall, ?_⟩
  by_cases hemp : (k.op_attribute.input_diff_bns.filter fun bn => (r bn).isSome).isEmpty = true
  · rw [if_pos hemp] at h
    simp only [KM.pure_apply, Result.ok.injEq, true_and] at h
    subst h
    refine ⟨fun _ _ => rfl, ?_⟩
    intro bn hbn p hp
    exfalso
    rw [List.isEmpty_iff] at hemp
    have : bn ∈ k.op_attribute.input_diff_bns.filter fun b => (r b).isSome :=
      (mem_filter_isSome r _ bn).2 ⟨hbn, p, hp⟩
    rw [hemp] at this
    simp at this
  · rw [if_neg hemp] at h
    obtain ⟨b0, s0, hg, h⟩ := bind_eq_ok h
    obtain ⟨hg0, hs0⟩ := PbRpf_Get_eq_ok hg
    subst hs0
    rw [hb] at hg0
    simp only [List.get?_cons_zero, Option.some.injEq] at hg0
    subst hg0
    rw [hp0] at h
    obtain ⟨s3, h3, hout, -, hfld⟩ := CopyField_from_blob_spec k r .CopyDim0ValidNumFrom p0
      (k.op_attribute.input_diff_bns.filter fun bn => (r bn).isSome)
      { heap := s.heap, trace := s.trace ++ [.BackwardInDiffDim0ValidNum] }
      (fun bn hbn => ((mem_filter_isSome r _ bn).1 hbn).2)
    rw [h3] at h
    simp only [Result.ok.injEq, true_and] at h
    subst h
    refine ⟨fun p hp => ?_, fun bn hbn p hp => ?_⟩
    · exact hout p (fun bn hbn => hp bn ((mem_filter_isSome r _ bn).1 hbn).1)
    · exact hfld bn ((mem_filter_isSome r _ bn).2 ⟨hbn, p, hp⟩) p hp

theorem kernelBackward_model_diff_well_formed (e : Bool) (s : KState)
    (h : (s.heap 2).model_diff_well_formed e) :
    ∀ bn ∈ kernelBackward.op_attribute.model_diff_bns,
      ∃ p, sampleResolver bn = some p ∧ (s.heap p).model_diff_well_formed e := by
  intro bn hbn
  have hb : bn = "c" := by simpa [kernelBackward, Kernel.plain, Kernel.op_attribute] using hbn
  subst hb
  exact ⟨2, rfl, h⟩

theorem IF_eq_ok_true {c : Bool} {m : KM Unit} {s s1 : KState} (hc : c = true)
    (h : IF c m s = .ok () s1) : m s = .ok () s1 := by
  subst hc; exact h

theorem memcmp_eq_zero_same (b : Blob) (s : KState) :
    memcmp_eq_zero b.dim0_valid_num_ptr b.dim0_valid_num_ptr b.ByteSizeOfDim0ValidNumField s
      = .ok true s := by
  unfold Blob.ByteSizeOfDim0ValidNumField
  cases b.dim0_valid_num_ptr with
  | none => simp [memcmp_eq_zero]
  | some d =>
    unfold memcmp_eq_zero
    by_cases h : 8 * d.length = 0
    · simp [h]
    · have h8 : 8 * d.length / 8 = d.length := by omega
      simp [h, h8]

theorem CheckSameDim0ValidNum_same (bns : List String) (r : Resolver) (s : KState)
    (bn0 : String) (rest : List String) (p0 : Ptr) (hb : bns = bn0 :: rest)
    (h0 : r bn0 = some p0)
    (hall : ∀ bn ∈ bns, ∃ p, r bn = some p ∧
      (s.heap p).dim0_valid_num_ptr = (s.heap p0).dim0_valid_num_ptr) :
    CheckSameDim0ValidNum bns r s = .ok () s := by
  unfold CheckSameDim0ValidNum FOR_RANGE
  have hg : PbRpf_Get bns 0 s = .ok bn0 s := by rw [hb]; rfl
  rw [KM.bind_ok hg, h0]
  have hd : KM.deref (some p0) s = .ok (s.heap p0) s := rfl
  rw [KM.bind_ok hd]
  apply readOnly_forM_of_all_ok
  intro i hi
  have hi2 : i < bns.length := by
    rw [List.mem_range'_1] at hi
    omega
  have hgi : PbRpf_Get bns i s = .ok (bns.get ⟨i, hi2⟩) s := by
    unfold PbRpf_Get
    rw [List.get?_eq_get hi2]
    rfl
  obtain ⟨p, hp, hf⟩ := hall (bns.get ⟨i, hi2⟩) (List.get_mem _ _ _)
  rw [KM.bind_ok hgi, hp]
  have hdi : KM.deref (some p) s = .ok (s.heap p) s := rfl
  rw [KM.bind_ok hdi, hf]
  rw [KM.bind_ok (memcmp_eq_zero_same (s.heap p0) s)]
  rfl

theorem BackwardInDiffDim0ValidNum_total (k : Kernel) (r : Resolver) (s : KState)
    (hcan : k.kernel_conf.can_naive_do_dim0_valid_num = true)
    (bn0 : String) (rest : List String) (p0 : Ptr)
    (hb : k.op_attribute.output_diff_bns = bn0 :: rest) (h0 : r bn0 = some p0)
    (hall : ∀ bn ∈ k.op_attribute.output_diff_bns, ∃ p, r bn = some p ∧
      (s.heap p).dim0_valid_num_ptr = (s.heap p0).dim0_valid_num_ptr) :
    ∃ s2, k.BackwardInDiffDim0ValidNum r s = .ok () s2 := by
  unfold Kernel.BackwardInDiffDim0ValidNum
  rw [KM.bind_ok (KM.log_apply _ _), hcan, KM.bind_ok (CHECK_true _)]
  rw [KM.bind_ok (CheckSameDim0ValidNum_same _ r
    { s with trace := s.trace ++ [.BackwardInDiffDim0ValidNum] } bn0 rest p0 hb h0 hall)]
  by_cases hemp : (k.op_attribute.input_diff_bns.filter fun bn => (r bn).isSome).isEmpty = true
  · rw [if_pos hemp]
    exact ⟨_, rfl⟩
  · rw [if_neg hemp]
    have hg : ∀ t, PbRpf_Get k.op_attribute.output_diff_bns 0 t = .ok bn0 t := by
      intro t; rw [hb]; rfl
    rw [KM.bind_ok (hg _), h0]
    obtain ⟨s2, h2, -⟩ := CopyField_from_blob_spec k r .CopyDim0ValidNumFrom p0
      (k.op_attribute.input_diff_bns.filter fun bn => (r bn).isSome) _
      (fun bn hbn => ((mem_filter_isSome r _ bn).1 hbn).2)
    exact ⟨s2, h2⟩

theorem CheckSameDim0ValidNum_differ (bns : List String) (r : Resolver) (s : KState)
    (bn0 : String) (rest : List String) (p0 : Ptr) (d0 : List Int) (hb : bns = bn0 :: rest)
    (h0 : r bn0 = some p0) (hd0 : (s.heap p0).dim0_valid_num_ptr = some d0)
    (bn : String) (hbn : bn ∈ rest) (p : Ptr) (d : List Int) (hp : r bn = some p)
    (hd : (s.heap p).dim0_valid_num_ptr = some d) (hlen : d.length = d0.length)
    (hne : d ≠ d0) :
    ∃ e, CheckSameDim0ValidNum bns r s = .fatal e s := by
  unfold CheckSameDim0ValidNum FOR_RANGE
  have hg : PbRpf_Get bns 0 s = .ok bn0 s := by rw [hb]; rfl
  rw [KM.bind_ok hg, h0]
  have hdr : KM.deref (some p0) s = .ok (s.heap p0) s := rfl
  rw [KM.bind_ok hdr]
  obtain ⟨⟨j, hj⟩, hjb⟩ := List.mem_iff_get.1 hbn
  have hlen0 : d0.length ≠ 0 := by
    intro h0
    have h1 : d.length = 0 := by omega
    rw [List.length_eq_zero] at h0 h1
    exact hne (by rw [h0, h1])
  refine readOnly_forM_fatal _ _ ?_ s (j + 1) ?_ .check ?_
  · intro i
    repeat (first
      | apply readOnly_bind | apply readOnly_PbRpf_Get
      | apply readOnly_deref | apply readOnly_memcmp_eq_zero | apply readOnly_CHECK
      | intro _)
  · rw [List.mem_range'_1, hb]
    simp only [List.length_cons]
    omega
  · have hgi : PbRpf_Get bns (j + 1) s = .ok bn s := by
      unfold PbRpf_Get
      rw [hb, List.get?_cons_succ, List.get?_eq_get hj, hjb]
      rfl
    rw [KM.bind_ok hgi, hp]
    have hdi : KM.deref (some p) s = .ok (s.heap p) s := rfl
    rw [KM.bind_ok hdi]
    have hm : memcmp_eq_zero (s.heap p).dim0_valid_num_ptr (s.heap p0).dim0_valid_num_ptr
        (s.heap p0).ByteSizeOfDim0ValidNumField s = .ok false s := by
      unfold Blob.ByteSizeOfDim0ValidNumField memcmp_eq_zero
      rw [hd0, hd]
      have h8 : 8 * d0.length / 8 = d0.length := by omega
      have h80 : ¬ 8 * d0.length = 0 := by omega
      have ht : List.take d0.length d = d := List.take_of_length_le (by omega)
      simp [h80, h8, hlen, ht, hne]
    rw [KM.bind_ok hm]
    rfl

theorem KM_pure_bind {α β : Type} (a : α) (f : α → KM β) : (pure a >>= f) = f a := rfl

theorem isFatal_bind_left {α β : Type} {m : KM α} {f : α → KM β} {s : KState}
    (h : (m s).isFatal = true) : ((m >>= f) s).isFatal = true := by
  rw [KM.bind_apply]
  cases hm : m s with
  | ok a s1 => rw [hm] at h; cases h
  | fatal e s1 => rfl

theorem isFatal_bind_right {α β : Type} {m : KM α} {f : α → KM β} {s : KState}
    (h : ∀ a s1, m s = .ok a s1 → (f a s1).isFatal = true) :
    ((m >>= f) s).isFatal = true := by
  rw [KM.bind_apply]
  cases hm : m s with
  | ok a s1 => exact h a s1 hm
  | fatal e s1 => rfl

theorem Forward_WithoutActivation (k : Kernel) (r : Resolver)
    (hN : k.GetActivationType = .kNone) : k.Forward r = k.ForwardWithoutActivation r := by
  unfold Kernel.Forward Kernel.ForwardWithoutActivation
  simp only [hN, bne_self_eq_false, IF_false, KM_pure_bind]

theorem Backward_WithoutActivation (k : Kernel) (r : Resolver)
    (hN : k.GetActivationType = .kNone) : k.Backward r = k.BackwardWithoutActivation r := by
  unfold Kernel.Backward Kernel.BackwardWithoutActivation
  simp only [hN, bne_self_eq_false]
  rfl

theorem Forward_activation_fatal (k : Kernel) (r : Resolver) (s : KState)
    (hA : k.GetActivationType ≠ .kNone)
    (hns : (Kernel.hasEmptyShapeBlobIn k.op_attribute.input_bns r s.heap
      && !k.NeedForwardIfBlobEmpty) = false)
    (hlen : k.op_attribute.output_bns.length ≠ 1) :
    (k.Forward r s).isFatal = true := by
  have hA2 : (k.GetActivationType != ActivationType.kNone) = true := by
    simpa using hA
  have hlen2 : (k.op_attribute.output_bns.length == 1) = false := by
    simpa using hlen
  unfold Kernel.Forward
  refine isFatal_bind_right fun u s1 h1 => ?_
  have F : Frame Blob.sameShape (fun _ => True) s s1 := by
    have F0 := preserves_IF (frame_refl blobRel_sameShape.refl)
      k.kernel_conf.need_do_dim0_valid_num
      (preserves_bind (frame_trans blobRel_sameShape.trans)
        (readOnly_preserves (frame_refl blobRel_sameShape.refl)
          (readOnly_CHECK (!k.kernel_conf.need_do_opaque_header)))
        fun _ => preserves_ForwardDim0ValidNum (E := fun _ => True) blobRel_sameShape.refl
          blobRel_sameShape.trans blobRel_sameShape.copy (fun _ _ _ => trivial) trivial k r) s
    rw [h1] at F0
    exact F0
  rw [KM.bind_apply, HasEmptyShapeBlob_apply]
  simp only []
  rw [hasEmptyShapeBlobIn_congr _ r s.heap s1.heap F.1, hns]
  simp only [Bool.false_eq_true, if_false]
  refine isFatal_bind_right fun _ _ _ => ?_
  refine isFatal_bind_right fun _ _ _ => ?_
  refine isFatal_bind_right fun _ _ _ => ?_
  refine isFatal_bind_right fun _ _ _ => ?_
  refine isFatal_bind_left ?_
  rw [hA2, IF_true]
  refine isFatal_bind_left ?_
  rw [hlen2]
  rfl

theorem Backward_activation_fatal (k : Kernel) (r : Resolver) (s : KState)
    (hA : k.GetActivationType ≠ .kNone)
    (hns : (Kernel.hasEmptyShapeBlobIn k.op_attribute.output_diff_bns r s.heap
      && !k.NeedBackwardIfBlobEmpty) = false)
    (hlen : k.op_attribute.output_bns.length ≠ 1 ∨
      k.op_attribute.output_diff_bns.length ≠ 1) :
    (k.Backward r s).isFatal = true := by
  have hA2 : (k.GetActivationType != ActivationType.kNone) = true := by
    simpa using hA
  unfold Kernel.Backward
  refine isFatal_bind_right fun u s1 h1 => ?_
  have F1 : Frame Blob.sameShape (fun _ => True) s s1 := by
    have F0 := preserves_IF (frame_refl blobRel_sameShape.refl)
      (decide (k.op_attribute.model_diff_bns.length > 0))
      (preserves_BackwardModelDiffDim0ValidNum (E := fun _ => True) blobRel_sameShape
        (fun _ _ => trivial) k r) s
    rw [h1] at F0
    exact F0
  refine isFatal_bind_right fun u s2 h2 => ?_
  have F2 : Frame Blob.sameShape (fun _ => True) s1 s2 := by
    have F0 := preserves_IF (frame_refl blobRel_sameShape.refl)
      (k.kernel_conf.need_do_dim0_valid_num
        && decide (k.op_attribute.input_diff_bns.length > 0))
      (preserves_bind (frame_trans blobRel_sameShape.trans)
        (readOnly_preserves (frame_refl blobRel_sameShape.refl)
          (readOnly_CHECK (!k.kernel_conf.need_do_opaque_header)))
        fun _ => preserves_BackwardInDiffDim0ValidNum (E := fun _ => True) blobRel_sameShape
          (fun _ _ => trivial) k r) s1
    rw [h2] at F0
    exact F0
  have F := frame_trans blobRel_sameShape.trans s s1 s2 F1 F2
  rw [KM.bind_apply, HasEmptyShapeBlob_apply]
  simp only []
  rw [hasEmptyShapeBlobIn_congr _ r s.heap s2.heap F.1, hns]
  simp only [Bool.false_eq_true, if_false]
  refine isFatal_bind_right fun _ _ _ => ?_
  refine isFatal_bind_right fun _ _ _ => ?_
  refine isFatal_bind_left ?_
  simp only [hA2, if_true]
  by_cases h1 : k.op_attribute.output_bns.length = 1
  · have h2 : (k.op_attribute.output_diff_bns.length == 1) = false := by
      rcases hlen with h | h
      · exact absurd h1 h
      · simpa using h
    refine isFatal_bind_right fun _ _ _ => ?_
    refine isFatal_bind_left ?_
    rw [h2]
    rfl
  · have h2 : (k.op_attribute.output_bns.length == 1) = false := by
      simpa using h1
    refine isFatal_bind_left ?_
    rw [h2]
    rfl

section copies
variable {E : Event → Prop}

theorem frame_any_trans (a b c : KState) (h1 : Frame (fun _ _ => True) E a b)
    (h2 : Frame (fun _ _ => True) E b c) : Frame (fun _ _ => True) E a c :=
  frame_trans (fun _ _ _ _ _ => trivial) a b c h1 h2

theorem frame_any_refl (s : KState) : Frame (fun _ _ => True) E s s :=
  frame_refl (fun _ => trivial) s

theorem preserves_runHook (f : Heap → Except KErr Heap) :
    Preserves (Frame (fun _ _ => True) E) (KM.runHook f) := by
  intro s
  unfold KM.runHook
  cases f s.heap with
  | ok h => exact ⟨fun _ => trivial, [], by simp [Result.state], by simp⟩
  | error e => exact ⟨fun _ => trivial, [], by simp [Result.state], by simp⟩

theorem preserves_ClearBlobDim0ValidNumIfNeed (bns : List String) (r : Resolver) :
    Preserves (Frame (fun _ _ => True) E) (ClearBlobDim0ValidNumIfNeed bns r) := by
  intro s
  obtain ⟨s1, h1, ht, -⟩ := ClearBlobDim0ValidNumIfNeed_spec r bns s
  rw [h1]
  exact ⟨fun _ => trivial, [], by simp [Result.state, ht], by simp⟩


end copies

theorem readOnly_CheckSameRecordIdInDevicePiece (bns : List String) (r : Resolver) :
    ReadOnly (CheckSameRecordIdInDevicePiece bns r) := by
  unfold oneflow.CheckSameRecordIdInDevicePiece FOR_RANGE
  repeat (first
    | apply readOnly_bind | apply readOnly_forM | apply readOnly_PbRpf_Get
    | apply readOnly_deref | apply readOnly_memcmp_eq_zero | apply readOnly_CHECK
    | intro _)

theorem copiesOnly_runHook (f : Heap → Except KErr Heap) : CopiesOnly (KM.runHook f) :=
  fun _ _ => preserves_runHook f

theorem copiesOnly_CopyField_from_blob (k : Kernel) (r : Resolver) (f : Option Ptr)
    (to_bns : List String) (c : CopyKind) : CopiesOnly (k.CopyField_from_blob r f to_bns c) :=
  fun _ hEC => preserves_CopyField_from_blob (fun _ => trivial) (fun _ _ _ _ _ => trivial)
    (fun _ _ _ => trivial) hEC k r f to_bns c

theorem copiesOnly_CopyField (k : Kernel) (r : Resolver) (from_bns to_bns : List String)
    (c : CopyKind) : CopiesOnly (k.CopyField r from_bns to_bns c) := by
  intro E hEC
  unfold Kernel.CopyField
  refine preserves_ite _ ?_ (preserves_ite _ ?_ ?_)
  · refine preserves_bind frame_any_trans
      (readOnly_preserves frame_any_refl (readOnly_PbRpf_Get _ _)) fun _ => ?_
    exact copiesOnly_CopyField_from_blob _ _ _ _ _ E hEC
  · refine preserves_bind frame_any_trans
      (readOnly_preserves frame_any_refl (readOnly_PbRpf_Get _ _)) fun _ => ?_
    refine preserves_bind frame_any_trans
      (readOnly_preserves frame_any_refl (readOnly_PbRpf_Get _ _)) fun _ => ?_
    exact preserves_Blob_Copy (fun _ => trivial) (fun _ _ _ => trivial) hEC _ _ _
  · exact readOnly_preserves frame_any_refl (readOnly_CHECK _)

theorem logsThenCopies_ForwardDim0ValidNum (k : Kernel) (r : Resolver) :
    LogsThenCopies .ForwardDim0ValidNum (k.ForwardDim0ValidNum r) := by
  refine ⟨_, rfl, fun E hEC => ?_⟩
  refine preserves_bind frame_any_trans
    (readOnly_preserves frame_any_refl (readOnly_CHECK _)) fun _ => ?_
  refine preserves_bind frame_any_trans
    (readOnly_preserves frame_any_refl (readOnly_CheckSameDim0ValidNum _ _)) fun _ => ?_
  refine preserves_bind frame_any_trans
    (readOnly_preserves frame_any_refl (readOnly_PbRpf_Get _ _)) fun _ => ?_
  exact copiesOnly_CopyField_from_blob _ _ _ _ _ E hEC

theorem logsThenCopies_ForwardRecordIdInDevicePiece (k : Kernel) (r : Resolver) :
    LogsThenCopies .ForwardRecordIdInDevicePiece (k.ForwardRecordIdInDevicePiece r) := by
  refine ⟨_, rfl, fun E hEC => ?_⟩
  refine preserves_bind frame_any_trans
    (readOnly_preserves frame_any_refl (readOnly_CHECK _)) fun _ => ?_
  refine preserves_bind frame_any_trans
    (readOnly_preserves frame_any_refl (readOnly_CheckSameRecordIdInDevicePiece _ _))
    fun _ => ?_
  refine preserves_bind frame_any_trans
    (readOnly_preserves frame_any_refl (readOnly_PbRpf_Get _ _)) fun _ => ?_
  exact copiesOnly_CopyField_from_blob _ _ _ _ _ E hEC

theorem logsThenCopies_ForwardDim1ValidNum (k : Kernel) (r : Resolver) :
    LogsThenCopies .ForwardDim1ValidNum (k.ForwardDim1ValidNum r) :=
  ⟨_, rfl, copiesOnly_runHook _⟩

theorem logsThenCopies_ForwardDim2ValidNum (k : Kernel) (r : Resolver) :
    LogsThenCopies .ForwardDim2ValidNum (k.ForwardDim2ValidNum r) :=
  ⟨_, rfl, copiesOnly_runHook _⟩

theorem logsThenCopies_ForwardDataContent (k : Kernel) (r : Resolver) :
    LogsThenCopies (.ForwardDataContent r) (k.ForwardDataContent r) :=
  ⟨_, rfl, copiesOnly_runHook _⟩

theorem logsThenCopies_BackwardDataContent (k : Kernel) (r : Resolver) :
    LogsThenCopies (.BackwardDataContent r) (k.BackwardDataContent r) :=
  ⟨_, rfl, copiesOnly_runHook _⟩

theorem logsThenCopies_ForwardPackedHeader (k : Kernel) (r : Resolver) :
    LogsThenCopies .ForwardPackedHeader (k.ForwardPackedHeader r) :=
  ⟨_, rfl, copiesOnly_CopyField _ _ _ _ _⟩

theorem logsThenCopies_ForwardDataId (k : Kernel) (r : Resolver) :
    LogsThenCopies .ForwardDataId (k.ForwardDataId r) :=
  ⟨_, rfl, copiesOnly_CopyField _ _ _ _ _⟩

theorem logsThenCopies_ForwardColNum (k : Kernel) (r : Resolver) :
    LogsThenCopies .ForwardColNum (k.ForwardColNum r) :=
  ⟨_, rfl, copiesOnly_CopyField _ _ _ _ _⟩

theorem logsThenCopies_ForwardActivation (k : Kernel) (o : Option Ptr) :
    LogsThenCopies (.ForwardActivation o) (k.ForwardActivation o) := by
  refine ⟨_, rfl, fun E hEC => ?_⟩
  intro s
  refine frame_readOnly_bind blobRel_true (readOnly_nonnull _) fun p _ => ?_
  refine frame_readOnly_bind blobRel_true (readOnly_deref _) fun blob _ => ?_
  cases k.GetActivationType <;> exact frame_any_refl s

theorem logsThenCopies_preserves {E : Event → Prop} {ev : Event} {m : KM Unit}
    (h : LogsThenCopies ev m) (hE0 : E ev) (hEC : ∀ c t f, E (.Copy c t f)) :
    Preserves (Frame (fun _ _ => True) E) m := by
  obtain ⟨body, hm, hb⟩ := h
  rw [hm]
  exact preserves_bind frame_any_trans (preserves_log (fun _ => trivial) _ hE0)
    fun _ => hb E hEC

theorem logsThenCopies_ok {ev : Event} {m : KM Unit} (h : LogsThenCopies ev m)
    {s s2 : KState} (hok : m s = .ok () s2) :
    ∃ evs, s2.trace = s.trace ++ ev :: evs ∧ ∀ e ∈ evs, e.isCopy = true := by
  obtain ⟨body, hm, hb⟩ := h
  rw [hm] at hok
  obtain ⟨u, s1, hl, h2⟩ := bind_eq_ok hok
  rw [KM.log_apply] at hl
  simp only [Result.ok.injEq, true_and] at hl
  subst hl
  have F := hb (fun e => e.isCopy = true) (fun _ _ _ => rfl)
    { s with trace := s.trace ++ [ev] }
  rw [h2] at F
  obtain ⟨-, evs, ht, hev⟩ := F
  refine ⟨evs, ?_, hev⟩
  have ht : s2.trace = (s.trace ++ [ev]) ++ evs := ht
  rw [ht, List.append_assoc]
  rfl

theorem isActivation_of_not_isCompute (ev : Event) (h : ev.isCompute = false) :
    ev.isActivation = false := by
  cases ev <;> first | rfl | cases h

theorem preserves_ForwardWithoutActivation (k : Kernel) (r : Resolver) :
    Preserves (Frame (fun _ _ => True) (fun ev => ev.isActivation = false))
      (k.ForwardWithoutActivation r) := by
  have hEC : ∀ (c : CopyKind) (t f : Ptr),
      (fun ev : Event => ev.isActivation = false) (.Copy c t f) := fun _ _ _ => rfl
  have hCK : ∀ c : Bool, Preserves
      (Frame (fun _ _ => True) (fun ev : Event => ev.isActivation = false)) (CHECK c) :=
    fun c => readOnly_preserves frame_any_refl (readOnly_CHECK c)
  unfold Kernel.ForwardWithoutActivation
  refine preserves_bind frame_any_trans (preserves_IF frame_any_refl _
    (preserves_bind frame_any_trans (hCK _) fun _ =>
      logsThenCopies_preserves (logsThenCopies_ForwardDim0ValidNum k r) rfl hEC)) fun _ => ?_
  refine preserves_bind frame_any_trans
    (readOnly_preserves frame_any_refl (fun _ => rfl)) fun e => ?_
  refine preserves_ite _ (preserves_ClearBlobDim0ValidNumIfNeed _ _) ?_
  refine preserves_bind frame_any_trans (preserves_IF frame_any_refl _
    (preserves_bind frame_any_trans (hCK _) fun _ =>
      logsThenCopies_preserves (logsThenCopies_ForwardDim1ValidNum k r) rfl hEC)) fun _ => ?_
  refine preserves_bind frame_any_trans (preserves_IF frame_any_refl _
    (preserves_bind frame_any_trans (hCK _) fun _ =>
      logsThenCopies_preserves (logsThenCopies_ForwardDim2ValidNum k r) rfl hEC)) fun _ => ?_
  refine preserves_bind frame_any_trans (preserves_IF frame_any_refl _
    (preserves_bind frame_any_trans (hCK _) fun _ =>
      logsThenCopies_preserves (logsThenCopies_ForwardRecordIdInDevicePiece k r) rfl hEC))
    fun _ => ?_
  refine preserves_bind frame_any_trans
    (logsThenCopies_preserves (logsThenCopies_ForwardDataContent k r) rfl hEC) fun _ => ?_
  refine preserves_ite _
    (logsThenCopies_preserves (logsThenCopies_ForwardPackedHeader k r) rfl hEC) ?_
  refine preserves_bind frame_any_trans (preserves_IF frame_any_refl _
    (logsThenCopies_preserves (logsThenCopies_ForwardDataId k r) rfl hEC)) fun _ => ?_
  exact preserves_IF frame_any_refl _
    (logsThenCopies_preserves (logsThenCopies_ForwardColNum k r) rfl hEC)

theorem preserves_BackwardWithoutActivation (k : Kernel) (r : Resolver) :
    Preserves (Frame (fun _ _ => True) (fun ev => ev.isActivation = false))
      (k.BackwardWithoutActivation r) := by
  have hEC : ∀ (c : CopyKind) (t f : Ptr),
      (fun ev : Event => ev.isActivation = false) (.Copy c t f) := fun _ _ _ => rfl
  have hE : ∀ ev : Event, ev.isCompute = false →
      (fun ev : Event => ev.isActivation = false) ev := isActivation_of_not_isCompute
  have hCK : ∀ c : Bool, Preserves
      (Frame (fun _ _ => True) (fun ev : Event => ev.isActivation = false)) (CHECK c) :=
    fun c => readOnly_preserves frame_any_refl (readOnly_CHECK c)
  unfold Kernel.BackwardWithoutActivation
  refine preserves_bind frame_any_trans (preserves_IF frame_any_refl _
    (preserves_BackwardModelDiffDim0ValidNum blobRel_true hE k r)) fun _ => ?_
  refine preserves_bind frame_any_trans (preserves_IF frame_any_refl _
    (preserves_bind frame_any_trans (hCK _) fun _ =>
      preserves_BackwardInDiffDim0ValidNum blobRel_true hE k r)) fun _ => ?_
  refine preserves_bind frame_any_trans
    (readOnly_preserves frame_any_refl (fun _ => rfl)) fun e => ?_
  refine preserves_ite _ (preserves_ClearBlobDim0ValidNumIfNeed _ _) ?_
  refine preserves_bind frame_any_trans
    (readOnly_preserves frame_any_refl (fun _ => rfl)) fun e => ?_
  refine preserves_bind frame_any_trans (hCK _) fun _ => ?_
  refine preserves_bind frame_any_trans
    (logsThenCopies_preserves (logsThenCopies_BackwardDataContent k r) rfl hEC) fun _ => ?_
  refine preserves_bind frame_any_trans (preserves_IF frame_any_refl _
    (preserves_BackwardDataId blobRel_true hE k r)) fun _ => ?_
  refine preserves_bind frame_any_trans (preserves_IF frame_any_refl _
    (preserves_BackwardColNum blobRel_true hE k r)) fun _ => ?_
  exact preserves_IF frame_any_refl _
    (preserves_SetTotalInstanceNumDiffBlob blobRel_true hE k r)

theorem stepsOf_pure : StepsOf (pure ()) [] := by
  intro s s2 h
  simp only [KM.pure_apply, Result.ok.injEq, true_and] at h
  subst h
  exact ⟨[], by simp, rfl⟩

theorem stepsOf_bind {m : KM Unit} {f : Unit → KM Unit} {l1 l2 : List Event}
    (hm : StepsOf m l1) (hf : ∀ a, StepsOf (f a) l2) : StepsOf (m >>= f) (l1 ++ l2) := by
  intro s s2 h
  obtain ⟨u, s1, h1, h2⟩ := bind_eq_ok h
  obtain ⟨e1, ht1, hf1⟩ := hm s s1 h1
  obtain ⟨e2, ht2, hf2⟩ := hf u s1 s2 h2
  exact ⟨e1 ++ e2, by rw [ht2, ht1, List.append_assoc], by rw [List.filter_append, hf1, hf2]⟩

theorem stepsOf_IF (c : Bool) {m : KM Unit} {l : List Event} (hm : StepsOf m l) :
    StepsOf (IF c m) (if c then l else []) := by
  cases c
  · exact stepsOf_pure
  · exact hm

theorem stepsOf_CHECK_bind (c : Bool) {m : KM Unit} {l : List Event} (hm : StepsOf m l) :
    StepsOf (CHECK c >>= fun _ => m) l := by
  intro s s2 h
  obtain ⟨u, s1, h1, h2⟩ := bind_eq_ok h
  obtain ⟨-, hs⟩ := CHECK_eq_ok h1
  subst hs
  exact hm s s2 h2

theorem stepsOf_logsThenCopies {ev : Event} {m : KM Unit} (h : LogsThenCopies ev m)
    (hev : ev.isStep = true) : StepsOf m [ev] := by
  intro s s2 hok
  obtain ⟨evs, ht, hc⟩ := logsThenCopies_ok h hok
  refine ⟨ev :: evs, ht, ?_⟩
  rw [List.filter_cons_of_pos hev]
  congr 1
  rw [List.filter_eq_nil_iff]
  intro e he
  have := hc e he
  cases e <;> simp_all [Event.isCopy, Event.isStep]

theorem stepsOf_ForwardActivation_block (k : Kernel) (r : Resolver) :
    StepsOf (IF (k.GetActivationType != ActivationType.kNone) do
        let obns := k.op_attribute.output_bns
        CHECK (obns.length == 1)
        let out_blob := r (← PbRpf_Get obns 0)
        k.ForwardActivation out_blob)
      (if k.GetActivationType != ActivationType.kNone
        then [Event.ForwardActivation (k.op_attribute.output_bns.head?.bind r)]
        else []) := by
  refine stepsOf_IF _ ?_
  intro s s2 h
  obtain ⟨u, s1, h1, h2⟩ := bind_eq_ok h
  obtain ⟨-, hs⟩ := CHECK_eq_ok h1
  subst hs
  obtain ⟨bn, s1, hg, h3⟩ := bind_eq_ok h2
  obtain ⟨hget, hs⟩ := PbRpf_Get_eq_ok hg
  subst hs
  have hhead : k.op_attribute.output_bns.head?.bind r = r bn := by
    cases hl : k.op_attribute.output_bns with
    | nil => rw [hl] at hget; simp at hget
    | cons a t =>
      rw [hl] at hget
      simp only [List.get?_cons_zero, Option.some.injEq] at hget
      subst hget
      rfl
  rw [hhead]
  exact stepsOf_logsThenCopies (logsThenCopies_ForwardActivation k (r bn)) rfl s s2 h3

theorem stepsOf_ite (c : Prop) [Decidable c] {m n : KM Unit} {l1 l2 : List Event}
    (hm : StepsOf m l1) (hn : StepsOf n l2) :
    StepsOf (if c then m else n) (if c then l1 else l2) := by
  split
  · exact hm
  · exact hn

/-- C1: for an operator without empty-input support, when some input binding
resolves to a buffer with an empty runtime shape and the dim0-valid-num step
(if configured) does not fail, `Forward` completes, the trace gains no
`ForwardDataContent` entry, and on return every output buffer that has a
dim0-valid-num field holds only zeros in it. -/
theorem Forward_empty_input_short_circuit (k : Kernel) (r : Resolver) (s : KState)
    (hN : k.NeedForwardIfBlobEmpty = false)
    (hE : ∃ bn ∈ k.op_attribute.input_bns, ∃ p, r bn = some p ∧ (s.heap p).IsShapeEmpty = true)
    (hD : k.kernel_conf.need_do_dim0_valid_num = true →
      k.kernel_conf.need_do_opaque_header = false ∧ ∃ s1, k.ForwardDim0ValidNum r s = .ok () s1) :
    ∃ s2, k.Forward r s = .ok () s2 ∧
      (∃ evs, s2.trace = s.trace ++ evs ∧ ∀ ev ∈ evs, ev.isForwardDataContent = false) ∧
      ∀ bn ∈ k.op_attribute.output_bns, ∀ p, r bn = some p →
        (s2.heap p).has_dim0_valid_num_field = true →
        ∃ d, (s2.heap p).dim0_valid_num_ptr = some d ∧ ∀ v ∈ d, v = 0 := by
  -- the state after the dim0-valid-num step
  have hpre : ∃ s1, IF k.kernel_conf.need_do_dim0_valid_num
        (do CHECK (!k.kernel_conf.need_do_opaque_header); k.ForwardDim0ValidNum r) s = .ok () s1 ∧
      Frame (fun b b1 => b1.shape = b.shape) (fun ev => ev.isForwardDataContent = false) s s1 := by
    by_cases hd : k.kernel_conf.need_do_dim0_valid_num = true
    · obtain ⟨ho, s1, h1⟩ := hD hd
      refine ⟨s1, ?_, ?_⟩
      · simp [hd, ho, KM.bind_apply, h1]
      · have := preserves_ForwardDim0ValidNum (H := fun b b1 => b1.shape = b.shape)
          (E := fun ev => ev.isForwardDataContent = false) (fun _ => rfl)
          (fun a b c h1 h2 => h2.trans h1)
          (fun c d src => by cases c <;> rfl) (fun _ _ _ => rfl) rfl k r s
        rw [h1] at this
        exact this
    · refine ⟨s, by simp [hd], frame_refl (H := fun b b1 => b1.shape = b.shape) (fun _ => rfl) s⟩
  obtain ⟨s1, h1, hshape, evs, htr, hev⟩ := hpre
  have hempty : Kernel.hasEmptyShapeBlobIn k.op_attribute.input_bns r s1.heap = true := by
    obtain ⟨bn, hbn, p, hp, he⟩ := hE
    unfold Kernel.hasEmptyShapeBlobIn
    rw [List.any_eq_true]
    refine ⟨bn, hbn, ?_⟩
    simp only [hp]
    unfold Blob.IsShapeEmpty Blob.elem_cnt at he ⊢
    rw [hshape p]; exact he
  obtain ⟨s2, h2, ht2, hh2, hz2⟩ := ClearBlobDim0ValidNumIfNeed_spec r k.op_attribute.output_bns s1
  refine ⟨s2, ?_, ⟨evs, by rw [ht2, htr], hev⟩, ?_⟩
  · unfold Kernel.Forward
    rw [KM.bind_ok h1, KM.bind_ok (HasEmptyShapeBlob_apply _ _ _ _)]
    simp [hempty, hN, h2]
  · intro bn hbn p hp hf
    cases hd : (s2.heap p).dim0_valid_num_ptr with
    | none => simp [Blob.has_dim0_valid_num_field, hd] at hf
    | some d => exact ⟨d, rfl, hz2 bn hbn p hp d hd⟩

/-- Witness for C1 on `kernelDim0`: the output's field `[7]` first receives the
input's `[3]` and is then zeroed. -/
theorem Forward_empty_input_short_circuit_witness :
    kernelDim0.NeedForwardIfBlobEmpty = false ∧
    (∃ s2, kernelDim0.Forward sampleResolver stateEmptyInput = .ok () s2 ∧
      (∃ evs, s2.trace = stateEmptyInput.trace ++ evs ∧
        ∀ ev ∈ evs, ev.isForwardDataContent = false) ∧
      ∀ bn ∈ kernelDim0.op_attribute.output_bns, ∀ p, sampleResolver bn = some p →
        (s2.heap p).has_dim0_valid_num_field = true →
        ∃ d, (s2.heap p).dim0_valid_num_ptr = some d ∧ ∀ v ∈ d, v = 0) :=
  ⟨rfl, Forward_empty_input_short_circuit kernelDim0 sampleResolver stateEmptyInput rfl
    ⟨"a", by decide, 0, rfl, rfl⟩ (fun _ => ⟨rfl, _, rfl⟩)⟩

/-- C2 (as amended): with `need_do_dim0_valid_num` set, if `Forward` completes
then the first input binding resolves to a buffer and every input buffer's
dim0-valid-num data agrees with the first input's over the first input's field
size, hence is identical to it whenever the two fields have the same size; and
with two inputs whose fields have the same size but differ, `Forward` stops at
a failed `CHECK` with no buffer modified. -/
theorem Forward_dim0_valid_num_consistency (k : Kernel) (r : Resolver) (s : KState)
    (hd : k.kernel_conf.need_do_dim0_valid_num = true) :
    (∀ s2, k.Forward r s = .ok () s2 →
      ∃ bn0 rest p0, k.op_attribute.input_bns = bn0 :: rest ∧ r bn0 = some p0 ∧
        ∀ bn ∈ k.op_attribute.input_bns, ∃ p, r bn = some p ∧
          (s.heap p0).dim0_valid_num_agrees (s.heap p) ∧
          ∀ d0 d, (s.heap p0).dim0_valid_num_ptr = some d0 →
            (s.heap p).dim0_valid_num_ptr = some d → d0.length = d.length → d = d0) ∧
    (∀ a b pa pb da db, k.op_attribute.input_bns = [a, b] → r a = some pa → r b = some pb →
      (s.heap pa).dim0_valid_num_ptr = some da → (s.heap pb).dim0_valid_num_ptr = some db →
      da.length = db.length → db ≠ da →
      ∃ s2, k.Forward r s = .fatal .check s2 ∧ s2.heap = s.heap) := by
  constructor
  · intro s2 h
    unfold Kernel.Forward at h
    obtain ⟨u, s1, h1, -⟩ := bind_eq_ok h
    rw [hd, IF_true] at h1
    obtain ⟨u, s0, hc, h1⟩ := bind_eq_ok h1
    obtain ⟨-, hs0⟩ := CHECK_eq_ok hc
    subst hs0
    unfold Kernel.ForwardDim0ValidNum at h1
    obtain ⟨u, s0, hl, h1⟩ := bind_eq_ok h1
    rw [KM.log_apply] at hl
    simp only [Result.ok.injEq, true_and] at hl
    subst hl
    obtain ⟨u, s0, hc, h1⟩ := bind_eq_ok h1
    obtain ⟨-, hs0⟩ := CHECK_eq_ok hc
    subst hs0
    obtain ⟨u, s0, hc, -⟩ := bind_eq_ok h1
    obtain ⟨-, bn0, rest, p0, hb, hp0, hall⟩ := CheckSameDim0ValidNum_ok _ _ _ _ hc
    refine ⟨bn0, rest, p0, hb, hp0, ?_⟩
    intro bn hbn
    obtain ⟨p, hp, hag⟩ := hall bn hbn
    refine ⟨p, hp, hag, ?_⟩
    intro d0 d hd0 hd1 hlen
    by_cases hne : d0 = []
    · subst hne
      exact List.eq_nil_of_length_eq_zero (by simpa using hlen.symm)
    · obtain ⟨d', hd', hpre⟩ := hag d0 hd0 hne
      have hd1' : (s.heap p).dim0_valid_num_ptr = some d := hd1
      have hd'' : (s.heap p).dim0_valid_num_ptr = some d' := hd'
      rw [hd1'] at hd''
      simp only [Option.some.injEq] at hd''
      subst hd''
      exact (List.IsPrefix.eq_of_length hpre hlen).symm
  · intro a b pa pb da db hin ha hb hda hdb hlen hne
    have hne0 : da.length ≠ 0 := by
      intro h0
      have h1 : db.length = 0 := by omega
      rw [List.length_eq_zero] at h0 h1
      exact hne (by rw [h0, h1])
    have hdb0 : db ≠ [] := by
      intro h0
      rw [h0] at hlen
      exact hne0 (by simpa using hlen)
    have htake : List.take db.length da = da := List.take_of_length_le (by omega)
    have hne1 : ¬ db = da := hne
    unfold Kernel.Forward
    rw [hd, IF_true]
    by_cases ho : k.kernel_conf.need_do_opaque_header = true
    · exact ⟨s, by simp [KM.bind_apply, ho], rfl⟩
    · by_cases hc : k.kernel_conf.can_naive_do_dim0_valid_num = true
      · refine ⟨{ s with trace := s.trace ++ [.ForwardDim0ValidNum] }, ?_, rfl⟩
        simp only [Bool.not_eq_true] at ho
        simp [KM.bind_apply, ho, hc, Kernel.ForwardDim0ValidNum, CheckSameDim0ValidNum,
          FOR_RANGE, hin, PbRpf_Get, ha, hb, hda, hdb, memcmp_eq_zero,
          Blob.ByteSizeOfDim0ValidNumField, hne0, hlen, hne1, hdb0, htake, List.range']
      · refine ⟨{ s with trace := s.trace ++ [.ForwardDim0ValidNum] }, ?_, rfl⟩
        simp only [Bool.not_eq_true] at ho hc
        simp [KM.bind_apply, ho, hc, Kernel.ForwardDim0ValidNum]

/-- Witness for C2: on one-partition inputs holding 4 and 5 `Forward` stops at
the failed check, and on inputs both holding 4 it yields the agreement. -/
theorem Forward_dim0_valid_num_consistency_witness :
    kernelTwoInputs.kernel_conf.need_do_dim0_valid_num = true ∧
    (∃ s2, kernelTwoInputs.Forward sampleResolver stateDifferingFields = .fatal .check s2 ∧
      s2.heap = stateDifferingFields.heap) ∧
    (∃ bn0 rest p0, kernelTwoInputs.op_attribute.input_bns = bn0 :: rest ∧
      sampleResolver bn0 = some p0 ∧
      ∀ bn ∈ kernelTwoInputs.op_attribute.input_bns, ∃ p, sampleResolver bn = some p ∧
        (stateEqualFields.heap p0).dim0_valid_num_agrees (stateEqualFields.heap p) ∧
        ∀ d0 d, (stateEqualFields.heap p0).dim0_valid_num_ptr = some d0 →
          (stateEqualFields.heap p).dim0_valid_num_ptr = some d → d0.length = d.length →
          d = d0) :=
  ⟨rfl,
    (Forward_dim0_valid_num_consistency kernelTwoInputs sampleResolver stateDifferingFields
      rfl).2 "a" "b" 0 1 [4] [5] rfl rfl rfl rfl rfl rfl (by decide),
    (Forward_dim0_valid_num_consistency kernelTwoInputs sampleResolver stateEqualFields
      rfl).1 _ rfl⟩

/-- Counterexample to C2 as stated: input `a` holds the one-partition field
`[4]`, input `b` the two-partition field `[4, 5]`; the comparison covers only
the first input's size, so `Forward` completes although the data differ. -/
theorem Forward_dim0_valid_num_unequal_inputs_pass :
    kernelTwoInputs.kernel_conf.need_do_dim0_valid_num = true ∧
    kernelTwoInputs.op_attribute.input_bns = ["a", "b"] ∧
    sampleResolver "a" = some 0 ∧ sampleResolver "b" = some 1 ∧
    (stateUnequalFields.heap 0).dim0_valid_num_ptr = some [4] ∧
    (stateUnequalFields.heap 1).dim0_valid_num_ptr = some [4, 5] ∧
    (stateUnequalFields.heap 0).dim0_valid_num_ptr
      ≠ (stateUnequalFields.heap 1).dim0_valid_num_ptr ∧
    ∃ s2, kernelTwoInputs.Forward sampleResolver stateUnequalFields = .ok () s2 :=
  ⟨rfl, rfl, rfl, rfl, rfl, rfl, by decide, _, rfl⟩

/-- C3: when both `need_do_opaque_header` and `need_do_dim0_valid_num` are
set, `Forward` stops at a failed `CHECK` in the very state it was called in:
no buffer has been modified and no operation (in particular not
`ForwardDataContent`) has been invoked. -/
theorem Forward_opaque_header_dim0_rejected (k : Kernel) (r : Resolver) (s : KState)
    (hh : k.kernel_conf.need_do_opaque_header = true)
    (hd : k.kernel_conf.need_do_dim0_valid_num = true) :
    k.Forward r s = Result.fatal KErr.check s := by
  unfold Kernel.Forward
  simp [KM.bind_apply, hh, hd]

/-- Witness for C3 on `kernelHeaderAndDim0`. -/
theorem Forward_opaque_header_dim0_rejected_witness :
    kernelHeaderAndDim0.kernel_conf.need_do_opaque_header = true ∧
    kernelHeaderAndDim0.kernel_conf.need_do_dim0_valid_num = true ∧
    kernelHeaderAndDim0.Forward sampleResolver stateEmptyInput
      = Result.fatal KErr.check stateEmptyInput :=
  ⟨rfl, rfl, Forward_opaque_header_dim0_rejected _ _ _ rfl rfl⟩

/-- C4: with exactly one source binding that resolves to a buffer and
destination bindings that all resolve to buffers, `CopyField` completes for
every copy kind and afterwards every destination buffer's field of that kind
equals the source buffer's field. -/
theorem CopyField_broadcast (k : Kernel) (Copy : CopyKind) (r : Resolver) (from_bn : String)
    (to_bns : List String) (s : KState) (pf : Ptr) (hsrc : r from_bn = some pf)
    (hdst : ∀ bn ∈ to_bns, ∃ p, r bn = some p) :
    ∃ s2, k.CopyField r [from_bn] to_bns Copy s = .ok () s2 ∧
      ∀ bn ∈ to_bns, ∀ p, r bn = some p →
        (s2.heap p).field Copy = (s.heap pf).field Copy := by
  obtain ⟨s2, h2, -, -, hall⟩ := CopyField_from_blob_spec k r Copy pf to_bns s hdst
  refine ⟨s2, ?_, hall⟩
  unfold Kernel.CopyField
  simp [KM.bind_apply, PbRpf_Get, hsrc, h2]

/-- Witness for C4: one source and three destinations. -/
theorem CopyField_broadcast_witness :
    sampleResolver "a" = some 0 ∧
    (∀ bn ∈ ["b", "c", "d"], ∃ p, sampleResolver bn = some p) ∧
    ∃ s2, (Kernel.plain KernelConf.plain).CopyField sampleResolver ["a"] ["b", "c", "d"]
        .CopyColNumFrom stateColNum = .ok () s2 ∧
      ∀ bn ∈ ["b", "c", "d"], ∀ p, sampleResolver bn = some p →
        (s2.heap p).field .CopyColNumFrom = (stateColNum.heap 0).field .CopyColNumFrom :=
  ⟨rfl, sampleResolver_resolves_bcd,
    CopyField_broadcast (Kernel.plain KernelConf.plain) .CopyColNumFrom sampleResolver "a"
      ["b", "c", "d"] stateColNum 0 rfl sampleResolver_resolves_bcd⟩

/-- C5: with at least two source bindings and at least two destination
bindings `CopyField` stops at a failed `CHECK` in the state it was called in,
so no buffer has been modified. -/
theorem CopyField_many_to_many_rejected (k : Kernel) (Copy : CopyKind) (r : Resolver)
    (from_bns to_bns : List String) (s : KState) (hf : 2 ≤ from_bns.length)
    (ht : 2 ≤ to_bns.length) :
    k.CopyField r from_bns to_bns Copy s = .fatal .check s := by
  unfold Kernel.CopyField
  have h1 : from_bns.length ≠ 1 := by omega
  have h2 : to_bns.length ≠ 1 := by omega
  have h3 : (from_bns.length == 0 || to_bns.length == 0) = false := by
    rw [Bool.or_eq_false_iff]
    constructor <;> rw [beq_eq_false_iff_ne] <;> omega
  rw [if_neg h1, if_neg h2, h3]
  rfl

/-- Witness for C5: three sources and three destinations. -/
theorem CopyField_many_to_many_rejected_witness :
    2 ≤ ["a", "b", "c"].length ∧ 2 ≤ ["b", "c", "d"].length ∧
    (Kernel.plain KernelConf.plain).CopyField sampleResolver ["a", "b", "c"] ["b", "c", "d"]
      .CopyColNumFrom stateColNum = .fatal .check stateColNum :=
  ⟨by decide, by decide,
    CopyField_many_to_many_rejected _ _ _ _ _ _ (by decide) (by decide)⟩

/-- C6 (as amended): with at least two model bindings and at least one
output-diff binding, if every output-diff buffer yields the same instance
count `c` (in the spec's words) and the `total_instance_num_diff` binding
resolves to a buffer with a data region, `SetTotalInstanceNumDiffBlob`
completes and stores `c` converted to `int32_t` (then cast to the element
type) at the start of that region, touching no other buffer; the stored value
is the cast of `c` itself whenever `c` lies in the signed 32-bit range. -/
theorem SetTotalInstanceNumDiffBlob_writes_count (k : Kernel) (r : Resolver) (s : KState)
    (c : Int) (pt : Ptr)
    (hm : 2 ≤ k.op_attribute.model_bns.length)
    (ho : 1 ≤ k.op_attribute.output_diff_bns.length)
    (hc : ∀ bn ∈ k.op_attribute.output_diff_bns,
      ∃ p, r bn = some p ∧ (s.heap p).spec_instance_num = some c)
    (ht : r "total_instance_num_diff" = some pt) (hdp : (s.heap pt).dptr ≠ []) :
    ∃ s2, k.SetTotalInstanceNumDiffBlob r s = .ok () s2 ∧
      s2.heap = s.heap.set pt
        { s.heap pt with dptr := k.static_cast_T (to_int32 c) :: (s.heap pt).dptr.tail } ∧
      (-2 ^ 31 ≤ c → c < 2 ^ 31 → (s2.heap pt).dptr.head? = some (k.static_cast_T c)) := by
  obtain ⟨x, rest, hxs⟩ := List.exists_cons_of_ne_nil hdp
  have hcalc : ∀ j, j < k.op_attribute.output_diff_bns.length → ∀ s1 : KState,
      s1.heap = s.heap → k.CalcInstanceNumSum j r s1 = .ok (to_int32 c) s1 := by
    intro j hj s1 hs1
    have hget : k.op_attribute.output_diff_bns.get? j
        = some (k.op_attribute.output_diff_bns[j]) := by
      rw [List.get?_eq_getElem?, List.getElem?_eq_getElem hj]
    obtain ⟨p, hp, hcp⟩ := hc _ (List.getElem_mem hj)
    exact CalcInstanceNumSum_of_spec k r j _ p c s1 hget hp (by rw [hs1]; exact hcp)
  refine ⟨{ heap := s.heap.set pt { s.heap pt with dptr := k.static_cast_T (to_int32 c) :: rest },
            trace := s.trace ++ [.SetTotalInstanceNumDiffBlob] ++
              [.Set pt (k.static_cast_T (to_int32 c))] }, ?_, ?_, ?_⟩
  · unfold Kernel.SetTotalInstanceNumDiffBlob
    rw [KM.bind_apply, KM.log_apply]
    simp only []
    have hm' : decide (k.op_attribute.model_bns.length ≥ 2) = true := by simpa using hm
    rw [KM.bind_apply, hm', CHECK_true]
    simp only []
    rw [KM.bind_apply, hcalc 0 (by omega)
      { heap := s.heap, trace := s.trace ++ [.SetTotalInstanceNumDiffBlob] } rfl]
    simp only []
    have hloop : FOR_RANGE 1 k.op_attribute.output_diff_bns.length (fun i => do
        CHECK (decide (to_int32 c = (← k.CalcInstanceNumSum i r))))
        { heap := s.heap, trace := s.trace ++ [.SetTotalInstanceNumDiffBlob] }
        = .ok () { heap := s.heap, trace := s.trace ++ [.SetTotalInstanceNumDiffBlob] } := by
      unfold FOR_RANGE
      apply readOnly_forM_of_all_ok
      intro j hj
      rw [List.mem_range'] at hj
      obtain ⟨i, hi, rfl⟩ := hj
      rw [KM.bind_apply, hcalc (1 + 1 * i) (by omega)
        { heap := s.heap, trace := s.trace ++ [.SetTotalInstanceNumDiffBlob] } rfl]
      simp
    rw [KM.bind_apply, hloop]
    simp only []
    rw [KM.bind_apply, ht, KM.nonnull_some]
    simp only []
    exact KernelUtil_Set_apply _ pt
      { heap := s.heap, trace := s.trace ++ [.SetTotalInstanceNumDiffBlob] } x rest hxs
  · simp [hxs]
  · intro h1 h2
    simp [Heap.set, to_int32_of_range c h1 h2]

/-- Witness for C6: two output-diff buffers with valid counts 4 and 4 over two
partitions give the written total 8. -/
theorem SetTotalInstanceNumDiffBlob_writes_count_witness :
    2 ≤ kernelModel.op_attribute.model_bns.length ∧
    1 ≤ kernelModel.op_attribute.output_diff_bns.length ∧
    modelResolver "total_instance_num_diff" = some 2 ∧
    ∃ s2, kernelModel.SetTotalInstanceNumDiffBlob modelResolver stateCounts8 = .ok () s2 ∧
      (s2.heap 2).dptr.head? = some 8 :=
  ⟨by decide, by decide, rfl,
    let ⟨s2, h, _, hr⟩ := SetTotalInstanceNumDiffBlob_writes_count kernelModel modelResolver
      stateCounts8 8 2 (by decide) (by decide) modelResolver_counts8 rfl (by decide)
    ⟨s2, h, hr (by decide) (by decide)⟩⟩

/-- Counterexample to C6 as stated: a single output-diff buffer without
dim0-valid-num field and static outer extent `2 ^ 31` yields the instance
count `2 ^ 31`, but the value written is `-2 ^ 31`. -/
theorem SetTotalInstanceNumDiffBlob_wraps_int32 :
    2 ≤ kernelModelOne.op_attribute.model_bns.length ∧
    kernelModelOne.op_attribute.output_diff_bns = ["a"] ∧
    modelResolver "a" = some 0 ∧
    (stateHugeExtent.heap 0).spec_instance_num = some 2147483648 ∧
    kernelModelOne.static_cast_T 2147483648 = 2147483648 ∧
    ∃ s2, kernelModelOne.SetTotalInstanceNumDiffBlob modelResolver stateHugeExtent
        = .ok () s2 ∧
      (s2.heap 2).dptr = [-2147483648, 0] :=
  ⟨by decide, rfl, rfl, rfl, rfl, _, rfl, rfl⟩

/-- C7: with at least two model bindings, whenever some output-diff binding's
instance count as computed by `CalcInstanceNumSum` differs from that of the
first one, `SetTotalInstanceNumDiffBlob` stops at a fatal error with the heap
untouched and nothing but its own invocation in the trace; with fewer than two
model bindings it stops at a failed `CHECK` in the same way. -/
theorem SetTotalInstanceNumDiffBlob_inconsistent_rejected (k : Kernel) (r : Resolver)
    (s : KState) :
    (2 ≤ k.op_attribute.model_bns.length →
      ∀ i c0 ci, i < k.op_attribute.output_diff_bns.length →
        k.CalcInstanceNumSum 0 r s = .ok c0 s → k.CalcInstanceNumSum i r s = .ok ci s →
        ci ≠ c0 →
        ∃ e s2, k.SetTotalInstanceNumDiffBlob r s = .fatal e s2 ∧ s2.heap = s.heap ∧
          s2.trace = s.trace ++ [.SetTotalInstanceNumDiffBlob]) ∧
    (k.op_attribute.model_bns.length < 2 →
      ∃ s2, k.SetTotalInstanceNumDiffBlob r s = .fatal .check s2 ∧ s2.heap = s.heap ∧
        s2.trace = s.trace ++ [.SetTotalInstanceNumDiffBlob]) := by
  constructor
  · intro hm i c0 ci hi h0 h1 hne
    have hi1 : 1 ≤ i := by
      by_contra hcon
      have hz : i = 0 := by omega
      subst hz
      rw [h0] at h1
      simp only [Result.ok.injEq, and_true] at h1
      exact hne h1.symm
    have hm' : decide (k.op_attribute.model_bns.length ≥ 2) = true := by simpa using hm
    have t0 := heapOnly_transfer (readOnly_CalcInstanceNumSum k 0 r)
      (heapOnly_CalcInstanceNumSum k 0 r) s
      { heap := s.heap, trace := s.trace ++ [.SetTotalInstanceNumDiffBlob] } rfl h0
    have t1 := heapOnly_transfer (readOnly_CalcInstanceNumSum k i r)
      (heapOnly_CalcInstanceNumSum k i r) s
      { heap := s.heap, trace := s.trace ++ [.SetTotalInstanceNumDiffBlob] } rfl h1
    have hbody : (do CHECK (decide (c0 = (← k.CalcInstanceNumSum i r))) : KM Unit)
        { heap := s.heap, trace := s.trace ++ [.SetTotalInstanceNumDiffBlob] }
        = .fatal .check { heap := s.heap, trace := s.trace ++ [.SetTotalInstanceNumDiffBlob] } := by
      rw [KM.bind_apply, t1]
      have : decide (c0 = ci) = false := by simpa using fun h => hne h.symm
      simp only [this, CHECK_false]
    obtain ⟨e, hloop⟩ := readOnly_forM_fatal
      (List.range' 1 (k.op_attribute.output_diff_bns.length - 1))
      (fun i => do CHECK (decide (c0 = (← k.CalcInstanceNumSum i r))))
      (fun j => readOnly_bind (readOnly_CalcInstanceNumSum k j r) fun _ => readOnly_CHECK _)
      { heap := s.heap, trace := s.trace ++ [.SetTotalInstanceNumDiffBlob] } i
      (by rw [List.mem_range']; exact ⟨i - 1, by omega, by omega⟩) .check hbody
    refine ⟨e, { heap := s.heap, trace := s.trace ++ [.SetTotalInstanceNumDiffBlob] }, ?_,
      rfl, rfl⟩
    unfold Kernel.SetTotalInstanceNumDiffBlob
    rw [KM.bind_apply, KM.log_apply]
    simp only []
    rw [KM.bind_apply, hm', CHECK_true]
    simp only []
    rw [KM.bind_apply, t0]
    simp only []
    exact KM.bind_fatal hloop
  · intro hm
    have hm' : decide (k.op_attribute.model_bns.length ≥ 2) = false := by simpa using hm
    refine ⟨{ heap := s.heap, trace := s.trace ++ [.SetTotalInstanceNumDiffBlob] }, ?_,
      rfl, rfl⟩
    unfold Kernel.SetTotalInstanceNumDiffBlob
    rw [KM.bind_apply, KM.log_apply]
    simp only []
    rw [KM.bind_apply, hm', CHECK_false]

/-- Witness for C7: the sums 4 and 5 are rejected, and so is an operator with
a single model binding. -/
theorem SetTotalInstanceNumDiffBlob_inconsistent_rejected_witness :
    (∃ e s2, kernelModel.SetTotalInstanceNumDiffBlob modelResolver stateCounts4and5
        = .fatal e s2 ∧ s2.heap = stateCounts4and5.heap ∧
      s2.trace = stateCounts4and5.trace ++ [.SetTotalInstanceNumDiffBlob]) ∧
    (∃ s2, kernelOneModelBn.SetTotalInstanceNumDiffBlob modelResolver stateCounts8
        = .fatal .check s2 ∧ s2.heap = stateCounts8.heap ∧
      s2.trace = stateCounts8.trace ++ [.SetTotalInstanceNumDiffBlob]) :=
  ⟨(SetTotalInstanceNumDiffBlob_inconsistent_rejected kernelModel modelResolver
      stateCounts4and5).1 (by decide) 1 4 5 (by decide) rfl rfl (by decide),
    (SetTotalInstanceNumDiffBlob_inconsistent_rejected kernelOneModelBn modelResolver
      stateCounts8).2 (by decide)⟩

/-- C8 (as amended): the model-load source of `InitModelAndConstBuf`.  With a
snapshot whose directory for this operator exists (and has a non-empty path)
the parameters are loaded from that directory; with a snapshot whose directory
does not exist they are initialised from the random seed, whatever the
configured `model_load_dir`; without a snapshot they are loaded from the
configured `model_load_dir` when it is non-empty and initialised from the
random seed otherwise. -/
theorem InitModelAndConstBuf_source (k : Kernel) (parallel_ctx : ParallelContext)
    (r : Resolver) :
    (∀ snap : Snapshot, k.SnapshotFS_IsDirectory (snap.GetDirFromOpName k.op_conf.name) = true →
      snap.GetDirFromOpName k.op_conf.name ≠ "" →
      k.InitModelAndConstBuf parallel_ctx (some snap) r = (do
        k.InitConstBufBlobs r
        k.InitModelBlobsWithDir (k.GetPartIdAndPartNumFromParallelCtx parallel_ctx).1
          (k.GetPartIdAndPartNumFromParallelCtx parallel_ctx).2
          (snap.GetDirFromOpName k.op_conf.name) r)) ∧
    (∀ snap : Snapshot, k.SnapshotFS_IsDirectory (snap.GetDirFromOpName k.op_conf.name) = false →
      k.InitModelAndConstBuf parallel_ctx (some snap) r = (do
        k.InitConstBufBlobs r
        k.InitModelBlobsWithRandomSeed r)) ∧
    (k.op_conf.model_load_dir ≠ "" →
      k.InitModelAndConstBuf parallel_ctx none r = (do
        k.InitConstBufBlobs r
        k.InitModelBlobsWithDir (k.GetPartIdAndPartNumFromParallelCtx parallel_ctx).1
          (k.GetPartIdAndPartNumFromParallelCtx parallel_ctx).2 k.op_conf.model_load_dir r)) ∧
    (k.op_conf.model_load_dir = "" →
      k.InitModelAndConstBuf parallel_ctx none r = (do
        k.InitConstBufBlobs r
        k.InitModelBlobsWithRandomSeed r)) := by
  refine ⟨?_, ?_, ?_, ?_⟩
  · intro snap hdir hne
    unfold Kernel.InitModelAndConstBuf
    simp only [hdir, if_true, if_neg hne]
  · intro snap hdir
    unfold Kernel.InitModelAndConstBuf
    simp only [hdir, Bool.false_eq_true, if_false, if_true]
  · intro hne
    unfold Kernel.InitModelAndConstBuf
    simp only [if_neg hne]
  · intro he
    unfold Kernel.InitModelAndConstBuf
    simp only [he, if_true]

/-- Witness for C8: a snapshot without directory for the operator leads to
random initialisation although `conf_dir` is configured. -/
theorem InitModelAndConstBuf_source_witness :
    kernelConfiguredDir.InitModelAndConstBuf sampleParallelCtx (some sampleSnapshot)
      sampleResolver = (do
        kernelConfiguredDir.InitConstBufBlobs sampleResolver
        kernelConfiguredDir.InitModelBlobsWithRandomSeed sampleResolver) :=
  (InitModelAndConstBuf_source kernelConfiguredDir sampleParallelCtx sampleResolver).2.1
    sampleSnapshot rfl

/-- Counterexample to C8 as stated: a snapshot is supplied, its directory for
the operator does not exist and the configured `model_load_dir` is `conf_dir`,
yet the parameters are initialised from the random seed and
`InitModelBlobsWithDir` is not invoked. -/
theorem InitModelAndConstBuf_snapshot_missing_random :
    kernelConfiguredDir.SnapshotFS_IsDirectory
      (sampleSnapshot.GetDirFromOpName kernelConfiguredDir.op_conf.name) = false ∧
    kernelConfiguredDir.op_conf.model_load_dir = "conf_dir" ∧
    kernelConfiguredDir.op_conf.model_load_dir ≠ "" ∧
    ∃ s2, kernelConfiguredDir.InitModelAndConstBuf sampleParallelCtx (some sampleSnapshot)
        sampleResolver statePlain = .ok () s2 ∧
      s2.trace = [.InitConstBufBlobs, .InitModelBlobsWithRandomSeed] :=
  ⟨rfl, rfl, by decide, _, rfl, rfl⟩

/-- C9 (as amended): with `need_do_opaque_header` set together with one of
`need_do_dim1_valid_num`, `need_do_dim2_valid_num`,
`need_do_record_id_in_device_piece`, on every resolver on which `Forward` does
not take the empty-input early return it stops at a failed `CHECK` in the
state it was called in; on the early return (with `need_do_dim0_valid_num`
off) it completes without evaluating these assertions. -/
theorem Forward_opaque_header_per_field_rejected (k : Kernel) (r : Resolver) (s : KState)
    (hh : k.kernel_conf.need_do_opaque_header = true)
    (hf : k.kernel_conf.need_do_dim1_valid_num = true ∨
      k.kernel_conf.need_do_dim2_valid_num = true ∨
      k.kernel_conf.need_do_record_id_in_device_piece = true) :
    ((Kernel.hasEmptyShapeBlobIn k.op_attribute.input_bns r s.heap
        && !k.NeedForwardIfBlobEmpty) = false →
      k.Forward r s = .fatal .check s) ∧
    (k.kernel_conf.need_do_dim0_valid_num = false →
      (Kernel.hasEmptyShapeBlobIn k.op_attribute.input_bns r s.heap
        && !k.NeedForwardIfBlobEmpty) = true →
      ∃ s2, k.Forward r s = .ok () s2) := by
  constructor
  · intro hns
    unfold Kernel.Forward
    by_cases hd : k.kernel_conf.need_do_dim0_valid_num = true
    · simp [KM.bind_apply, hh, hd]
    · simp only [Bool.not_eq_true] at hd
      rw [hd, IF_false, KM.bind_apply, KM.pure_apply]
      simp only []
      rw [KM.bind_apply, HasEmptyShapeBlob_apply]
      simp only [hns, Bool.false_eq_true, if_false]
      by_cases h1 : k.kernel_conf.need_do_dim1_valid_num = true
      · simp [KM.bind_apply, hh, h1]
      · simp only [Bool.not_eq_true] at h1
        by_cases h2 : k.kernel_conf.need_do_dim2_valid_num = true
        · simp [KM.bind_apply, hh, h1, h2]
        · simp only [Bool.not_eq_true] at h2
          have h3 : k.kernel_conf.need_do_record_id_in_device_piece = true := by
            rcases hf with h | h | h
            · rw [h1] at h; cases h
            · rw [h2] at h; cases h
            · exact h
          simp [KM.bind_apply, hh, h1, h2, h3]
  · intro hd hsc
    obtain ⟨s2, h2, -⟩ := ClearBlobDim0ValidNumIfNeed_spec r k.op_attribute.output_bns s
    refine ⟨s2, ?_⟩
    unfold Kernel.Forward
    rw [hd, IF_false, KM.bind_apply, KM.pure_apply]
    simp only []
    rw [KM.bind_apply, HasEmptyShapeBlob_apply]
    simp only [hsc, if_true]
    exact h2

/-- Witness for C9: without an empty-shaped input the configuration is
rejected. -/
theorem Forward_opaque_header_per_field_rejected_witness :
    kernelHeaderAndDim1.kernel_conf.need_do_opaque_header = true ∧
    kernelHeaderAndDim1.kernel_conf.need_do_dim1_valid_num = true ∧
    kernelHeaderAndDim1.Forward sampleResolver statePlain = .fatal .check statePlain :=
  ⟨rfl, rfl,
    (Forward_opaque_header_per_field_rejected kernelHeaderAndDim1 sampleResolver statePlain
      rfl (Or.inl rfl)).1 rfl⟩

/-- Counterexample to C9 as stated: the opaque header and dim1 propagation are
both requested, the input buffer has an empty runtime shape, and `Forward`
completes through the early return. -/
theorem Forward_opaque_header_dim1_empty_input_completes :
    kernelHeaderAndDim1.kernel_conf.need_do_opaque_header = true ∧
    kernelHeaderAndDim1.kernel_conf.need_do_dim1_valid_num = true ∧
    kernelHeaderAndDim1.op_attribute.input_bns = ["a"] ∧
    sampleResolver "a" = some 0 ∧
    (stateEmptyInput.heap 0).IsShapeEmpty = true ∧
    ∃ s2, kernelHeaderAndDim1.Forward sampleResolver stateEmptyInput = .ok () s2 :=
  ⟨rfl, rfl, rfl, rfl, rfl, _, rfl⟩

/-- C10: for a kernel with a non-None activation type, the single output
binding `o`, the single output-diff binding `od` and a non-null
`bw_activation` buffer, there is a resolver `r1` mapping `od` to the
`bw_activation` buffer and every other name to what the caller's resolver
gives, such that whatever the outcome of `Backward` the only computation
entries its trace gains are `BackwardActivation` on (output, output-diff,
bw_activation) followed by `BackwardDataContent` with `r1`, in this order
(possibly cut short by a fatal error); and when `Backward` completes on a
batch that is not short-circuited both entries are present. -/
theorem Backward_activation_substitution (k : Kernel) (r : Resolver) (s : KState)
    (o od : String) (bw : Ptr)
    (ha : k.GetActivationType ≠ .kNone) (ho : k.op_attribute.output_bns = [o])
    (hod : k.op_attribute.output_diff_bns = [od]) (hbw : r "bw_activation" = some bw) :
    ∃ (r1 : Resolver) (pre mid post : List Event),
      r1 od = some bw ∧ (∀ bn, bn ≠ od → r1 bn = r bn) ∧
      (k.Backward r s).state.trace = s.trace ++ pre ++ mid ++ post ∧
      (∀ ev ∈ pre ++ post, ev.isCompute = false) ∧
      (mid = [] ∨ mid = [.BackwardActivation (r o) (r od) (some bw)] ∨
        mid = [.BackwardActivation (r o) (r od) (some bw), .BackwardDataContent r1]) ∧
      (∀ s2, k.Backward r s = .ok () s2 →
        (Kernel.hasEmptyShapeBlobIn k.op_attribute.output_diff_bns r s.heap
          && !k.NeedBackwardIfBlobEmpty) = false →
        mid = [.BackwardActivation (r o) (r od) (some bw), .BackwardDataContent r1]) := by
  refine ⟨fun bn => if bn = od then some bw else r bn, ?_⟩
  have hr1 : (fun bn => if bn = od then some bw else r bn) od = some bw := by simp
  have hr2 : ∀ bn, bn ≠ od → (fun bn => if bn = od then some bw else r bn) bn = r bn := by
    intro bn hbn; simp [hbn]
  have hE : ∀ ev : Event, ev.isCompute = false → (fun ev : Event => ev.isCompute = false) ev :=
    fun _ h => h
  have hact : (k.GetActivationType != ActivationType.kNone) = true := by
    simpa [bne_iff_ne] using ha
  unfold Kernel.Backward
  -- the dim0-valid-num steps on model-diffs and input-diffs
  have F1 := preserves_IF (frame_refl blobRel_sameShape.refl)
    (decide (k.op_attribute.model_diff_bns.length > 0))
    (preserves_BackwardModelDiffDim0ValidNum blobRel_sameShape hE k r) s
  cases h1 : IF (decide (k.op_attribute.model_diff_bns.length > 0))
      (k.BackwardModelDiffDim0ValidNum r) s with
  | fatal e s1 =>
    rw [h1] at F1
    obtain ⟨-, evs, ht, hev⟩ := F1
    simp only [Result.state] at ht
    rw [KM.bind_fatal h1]
    exact ⟨evs, [], [], by simp, fun bn hbn => by simp [hbn], by simp [Result.state, ht], by simpa using hev,
      Or.inl rfl, fun s2 h => by cases h⟩
  | ok u s1 =>
    rw [h1] at F1
    simp only [Result.state] at F1
    rw [KM.bind_ok h1]
    have F2 := preserves_IF (frame_refl blobRel_sameShape.refl)
      (k.kernel_conf.need_do_dim0_valid_num
        && decide (k.op_attribute.input_diff_bns.length > 0))
      (preserves_bind (frame_trans blobRel_sameShape.trans)
        (readOnly_preserves (frame_refl blobRel_sameShape.refl)
          (readOnly_CHECK (!k.kernel_conf.need_do_opaque_header)))
        fun _ => preserves_BackwardInDiffDim0ValidNum blobRel_sameShape hE k r) s1
    cases h2 : IF (k.kernel_conf.need_do_dim0_valid_num
        && decide (k.op_attribute.input_diff_bns.length > 0))
        (do CHECK (!k.kernel_conf.need_do_opaque_header)
            k.BackwardInDiffDim0ValidNum r) s1 with
    | fatal e s2 =>
      rw [h2] at F2
      obtain ⟨-, evs, ht, hev⟩ := frame_trans blobRel_sameShape.trans _ _ _ F1 F2
      simp only [Result.state] at ht
      rw [KM.bind_fatal h2]
      exact ⟨evs, [], [], by simp, fun bn hbn => by simp [hbn], by simp [Result.state, ht], by simpa using hev,
        Or.inl rfl, fun s2 h => by cases h⟩
    | ok u2 s2 =>
      rw [h2] at F2
      simp only [Result.state] at F2
      obtain ⟨hshape, evs, ht, hev⟩ := frame_trans blobRel_sameShape.trans _ _ _ F1 F2
      rw [KM.bind_ok h2, KM.bind_apply, HasEmptyShapeBlob_apply]
      simp only []
      rw [hasEmptyShapeBlobIn_congr _ r s.heap s2.heap hshape]
      by_cases hsc : (Kernel.hasEmptyShapeBlobIn k.op_attribute.output_diff_bns r s.heap
          && !k.NeedBackwardIfBlobEmpty) = true
      · -- the early return
        rw [if_pos hsc]
        obtain ⟨s3, h3, ht3, -⟩ :=
          ClearBlobDim0ValidNumIfNeed_spec r k.op_attribute.input_diff_bns s2
        rw [h3]
        refine ⟨evs, [], [], by simp, fun bn hbn => by simp [hbn], by simp [Result.state, ht3, ht], by simpa using hev,
          Or.inl rfl, fun _ _ hn => ?_⟩
        rw [hsc] at hn
        cases hn
      · rw [if_neg hsc, KM.bind_apply, HasEmptyShapeBlob_apply]
        simp only []
        cases hmd : Kernel.hasEmptyShapeBlobIn k.op_attribute.model_diff_bns r s2.heap with
        | true =>
          rw [KM.bind_apply, show (false == true) = false from rfl, CHECK_false]
          exact ⟨evs, [], [], by simp, fun bn hbn => by simp [hbn], by simp [Result.state, ht], by simpa using hev,
            Or.inl rfl, fun s2 h => by cases h⟩
        | false =>
          rw [KM.bind_apply, show (false == false) = true from rfl, CHECK_true]
          simp only [hact, if_true, ho, hod, List.length_singleton, beq_self_eq_true]
          rw [KM.bind_apply]
          simp only [CHECK_true, KM.bind_apply, PbRpf_Get, List.get?_cons_zero,
            KM.pure_apply, hbw, Option.isSome_some]
          have hBAt := BackwardActivation_trace k (r o) (r od) (some bw) s2
          cases hBA : k.BackwardActivation (r o) (r od) (some bw) s2 with
          | fatal e s3 =>
            rw [hBA] at hBAt
            simp only [Result.state] at hBAt
            simp only []
            exact ⟨evs, [.BackwardActivation (r o) (r od) (some bw)], [], trivial,
              fun bn hbn => by simp [hbn], by simp [Result.state, hBAt, ht],
              by simpa using hev, Or.inr (Or.inl rfl), fun s2 h => by cases h⟩
          | ok u3 s3 =>
            rw [hBA] at hBAt
            simp only [Result.state] at hBAt
            simp only []
            have hBDt := BackwardDataContent_trace k
              (fun bn => if bn = od then some bw else r bn) s3
            cases hBD : k.BackwardDataContent (fun bn => if bn = od then some bw else r bn) s3 with
            | fatal e s4 =>
              rw [hBD] at hBDt
              simp only [Result.state] at hBDt
              simp only []
              exact ⟨evs, [.BackwardActivation (r o) (r od) (some bw),
                  .BackwardDataContent (fun bn => if bn = od then some bw else r bn)], [],
                trivial, fun bn hbn => by simp [hbn],
                by simp [Result.state, hBDt, hBAt, ht],
                by simpa using hev, Or.inr (Or.inr rfl), fun s2 h => by cases h⟩
            | ok u4 s4 =>
              rw [hBD] at hBDt
              simp only [Result.state] at hBDt
              simp only []
              have FS := preserves_bind (frame_trans blobRel_true.trans)
                (preserves_IF (frame_refl blobRel_true.refl) k.kernel_conf.need_do_data_id
                  (preserves_BackwardDataId blobRel_true hE k r))
                (fun _ => preserves_bind (frame_trans blobRel_true.trans)
                  (preserves_IF (frame_refl blobRel_true.refl) k.kernel_conf.need_do_col_num
                    (preserves_BackwardColNum blobRel_true hE k r))
                  (fun _ => preserves_IF (frame_refl blobRel_true.refl)
                    (decide (k.op_attribute.model_diff_bns.length > 0))
                    (preserves_SetTotalInstanceNumDiffBlob blobRel_true hE k r))) s4
              simp only [KM.bind_apply] at FS
              obtain ⟨-, evs3, ht3, hev3⟩ := FS
              refine ⟨evs, [.BackwardActivation (r o) (r od) (some bw),
                  .BackwardDataContent (fun bn => if bn = od then some bw else r bn)], evs3,
                trivial, fun bn hbn => by simp [hbn], ?_, ?_, Or.inr (Or.inr rfl),
                fun _ _ _ => rfl⟩
              · rw [ht3, hBDt, hBAt, ht]
                simp
              · intro ev hm
                rcases List.mem_append.1 hm with h | h
                · exact hev ev h
                · exact hev3 ev h

/-- Witness for C10 on the Relu-fused `kernelRelu`: `Backward` completes and
its trace is the activation backward pass followed by `BackwardDataContent`
with the substituted resolver. -/
theorem Backward_activation_substitution_witness :
    kernelRelu.GetActivationType ≠ .kNone ∧
    kernelRelu.op_attribute.output_bns = ["a"] ∧
    kernelRelu.op_attribute.output_diff_bns = ["b"] ∧
    modelResolver "bw_activation" = some 3 ∧
    (∃ s2, kernelRelu.Backward modelResolver statePlain = .ok () s2 ∧
      s2.trace = [.BackwardActivation (some 0) (some 1) (some 3),
        .BackwardDataContent (fun bn => if bn = "b" then some 3 else modelResolver bn)]) ∧
    ∃ (r1 : Resolver) (pre mid post : List Event),
      r1 "b" = some 3 ∧ (∀ bn, bn ≠ "b" → r1 bn = modelResolver bn) ∧
      (kernelRelu.Backward modelResolver statePlain).state.trace
        = statePlain.trace ++ pre ++ mid ++ post ∧
      (∀ ev ∈ pre ++ post, ev.isCompute = false) ∧
      (mid = [] ∨ mid = [.BackwardActivation (modelResolver "a") (modelResolver "b") (some 3)] ∨
        mid = [.BackwardActivation (modelResolver "a") (modelResolver "b") (some 3),
          .BackwardDataContent r1]) ∧
      (∀ s2, kernelRelu.Backward modelResolver statePlain = .ok () s2 →
        (Kernel.hasEmptyShapeBlobIn kernelRelu.op_attribute.output_diff_bns modelResolver
          statePlain.heap && !kernelRelu.NeedBackwardIfBlobEmpty) = false →
        mid = [.BackwardActivation (modelResolver "a") (modelResolver "b") (some 3),
          .BackwardDataContent r1]) :=
  ⟨by decide, rfl, rfl, rfl, ⟨_, rfl, rfl⟩,
    Backward_activation_substitution kernelRelu modelResolver statePlain "a" "b" 3
      (by decide) rfl rfl rfl⟩

/-- C15 (as amended): when neither the source list nor the destination list
has size one, `CopyField` completes, copying nothing, as soon as one of the
two lists is empty, and stops at a failed `CHECK` in the state it was called
in when both are non-empty. -/
theorem CopyField_non_singleton (k : Kernel) (Copy : CopyKind) (r : Resolver)
    (from_bns to_bns : List String) (s : KState) (hf : from_bns.length ≠ 1)
    (ht : to_bns.length ≠ 1) :
    (from_bns = [] ∨ to_bns = [] → k.CopyField r from_bns to_bns Copy s = .ok () s) ∧
    (from_bns ≠ [] → to_bns ≠ [] → k.CopyField r from_bns to_bns Copy s = .fatal .check s) := by
  unfold Kernel.CopyField
  rw [if_neg hf, if_neg ht]
  constructor
  · intro h
    have : (from_bns.length == 0 || to_bns.length == 0) = true := by
      rcases h with h | h <;> simp [h]
    rw [this]; rfl
  · intro h1 h2
    have : (from_bns.length == 0 || to_bns.length == 0) = false := by
      rw [Bool.or_eq_false_iff]
      constructor <;> rw [beq_eq_false_iff_ne] <;> simpa [List.length_eq_zero]
    rw [this]; rfl

/-- Witness for C15: three sources with no destination complete, two sources
with two destinations are rejected. -/
theorem CopyField_non_singleton_witness :
    ["a", "b", "c"].length ≠ 1 ∧ ([] : List String).length ≠ 1 ∧ ["c", "d"].length ≠ 1 ∧
    (Kernel.plain KernelConf.plain).CopyField sampleResolver ["a", "b", "c"] []
      .CopyColNumFrom stateColNum = .ok () stateColNum ∧
    (Kernel.plain KernelConf.plain).CopyField sampleResolver ["a", "b", "c"] ["c", "d"]
      .CopyColNumFrom stateColNum = .fatal .check stateColNum :=
  ⟨by decide, by decide, by decide,
    (CopyField_non_singleton (Kernel.plain KernelConf.plain) .CopyColNumFrom sampleResolver
      ["a", "b", "c"] [] stateColNum (by decide) (by decide)).1 (Or.inr rfl),
    (CopyField_non_singleton (Kernel.plain KernelConf.plain) .CopyColNumFrom sampleResolver
      ["a", "b", "c"] ["c", "d"] stateColNum (by decide) (by decide)).2
      (by decide) (by decide)⟩

/-- Counterexample to C15 as stated: zero sources with three destinations is
not a fatal error, `CopyField` completes and leaves the state as it was. -/
theorem CopyField_zero_sources_three_destinations_completes :
    ([] : List String).length ≠ 1 ∧ ["b", "c", "d"].length ≠ 1 ∧
    ["b", "c", "d"] ≠ [] ∧
    (Kernel.plain KernelConf.plain).CopyField sampleResolver [] ["b", "c", "d"]
      .CopyColNumFrom stateColNum = .ok () stateColNum :=
  ⟨by decide, by decide, by decide, rfl⟩

/-- C16: with at least two source bindings and exactly one destination
binding, the first source and the destination resolving to buffers,
`CopyField` completes and performs exactly one copy, from the first source's
buffer to the destination buffer: afterwards the destination's field equals
that of the first source's buffer, every other buffer is as before, and the
outcome is the same whatever the source bindings after the first are. -/
theorem CopyField_many_to_one (k : Kernel) (Copy : CopyKind) (r : Resolver)
    (from_bn0 from_bn1 : String) (from_rest : List String) (to_bn : String) (s : KState)
    (pf pt : Ptr) (hsrc : r from_bn0 = some pf) (hdst : r to_bn = some pt) :
    k.CopyField r (from_bn0 :: from_bn1 :: from_rest) [to_bn] Copy s = .ok ()
        { heap := s.heap.set pt ((s.heap pt).CopyFrom Copy (s.heap pf)),
          trace := s.trace ++ [.Copy Copy pt pf] } ∧
    ((s.heap.set pt ((s.heap pt).CopyFrom Copy (s.heap pf))) pt).field Copy
      = (s.heap pf).field Copy ∧
    (∀ p, p ≠ pt → (s.heap.set pt ((s.heap pt).CopyFrom Copy (s.heap pf))) p = s.heap p) ∧
    (∀ (other_bn1 : String) (other_rest : List String),
      k.CopyField r (from_bn0 :: other_bn1 :: other_rest) [to_bn] Copy s
        = k.CopyField r (from_bn0 :: from_bn1 :: from_rest) [to_bn] Copy s) := by
  have hrun : ∀ (b1 : String) (rest : List String),
      k.CopyField r (from_bn0 :: b1 :: rest) [to_bn] Copy s = .ok ()
        { heap := s.heap.set pt ((s.heap pt).CopyFrom Copy (s.heap pf)),
          trace := s.trace ++ [.Copy Copy pt pf] } := by
    intro b1 rest
    unfold Kernel.CopyField
    simp [KM.bind_apply, PbRpf_Get, hsrc, hdst, Blob_Copy_some]
  refine ⟨hrun _ _, ?_, ?_, ?_⟩
  · simp [Heap.set, Blob.field_CopyFrom]
  · intro p hp
    simp [Heap.set, hp]
  · intro b1 rest
    rw [hrun b1 rest, hrun from_bn1 from_rest]

/-- Witness for C16: three sources `a`, `b`, `c` and the destination `d`. -/
theorem CopyField_many_to_one_witness :
    sampleResolver "a" = some 0 ∧ sampleResolver "d" = some 3 ∧
    (Kernel.plain KernelConf.plain).CopyField sampleResolver ["a", "b", "c"] ["d"]
        .CopyColNumFrom stateColNum = .ok ()
      { heap := stateColNum.heap.set 3
          ((stateColNum.heap 3).CopyFrom .CopyColNumFrom (stateColNum.heap 0)),
        trace := stateColNum.trace ++ [.Copy .CopyColNumFrom 3 0] } :=
  ⟨rfl, rfl,
    (CopyField_many_to_one (Kernel.plain KernelConf.plain) .CopyColNumFrom sampleResolver
      "a" "b" ["c"] "d" stateColNum 0 3 rfl rfl).1⟩

/-- C18 (evaluation of the code at the failing input): with an empty source
list and exactly one destination binding `CopyField` takes the
single-destination branch and its lookup `from_bns[0]` is out of range; this
is the shape `BackwardColNum` produces for an operator without output-diff
bindings and with one input-diff binding, and `ForwardPackedHeader` for an
operator without input bindings and with one output binding. -/
theorem CopyField_empty_source_single_destination (k : Kernel) (Copy : CopyKind)
    (r : Resolver) (to_bn : String) (s : KState) :
    k.CopyField r [] [to_bn] Copy s = .fatal .range s ∧
    (kernelNoSource.BackwardColNum r s
      = .fatal .range { s with trace := s.trace ++ [.BackwardColNum] }) ∧
    (kernelNoSource.ForwardPackedHeader r s
      = .fatal .range { s with trace := s.trace ++ [.ForwardPackedHeader] }) := by
  refine ⟨?_, ?_, ?_⟩
  · unfold Kernel.CopyField
    simp [KM.bind_apply, PbRpf_Get]
  · rfl
  · rfl

/-- C11: for an operator without empty-input backward support, when some
output-diff binding resolves to a buffer with an empty runtime shape and the
dim0-valid-num steps that open `Backward` do not fail, `Backward` returns
early: it completes, its trace gains neither a `BackwardDataContent` nor a
`BackwardActivation` entry, and on return every present input-diff buffer that
has a dim0-valid-num field holds only zeros in it. -/
theorem Backward_empty_output_diff_short_circuit (k : Kernel) (r : Resolver) (s s2 : KState)
    (hN : k.NeedBackwardIfBlobEmpty = false)
    (hE : ∃ bn ∈ k.op_attribute.output_diff_bns, ∃ p, r bn = some p ∧
      (s.heap p).IsShapeEmpty = true)
    (hD : k.BackwardDim0Steps r s = .ok () s2) :
    ∃ s3, k.Backward r s = .ok () s3 ∧
      (∃ evs, s3.trace = s.trace ++ evs ∧ ∀ ev ∈ evs, ev.isCompute = false) ∧
      ∀ bn ∈ k.op_attribute.input_diff_bns, ∀ p, r bn = some p →
        (s3.heap p).has_dim0_valid_num_field = true →
        ∃ d, (s3.heap p).dim0_valid_num_ptr = some d ∧ ∀ v ∈ d, v = 0 := by
  have F := preserves_BackwardDim0Steps (E := fun ev => ev.isCompute = false)
    blobRel_sameShape (fun _ h => h) k r s
  rw [hD] at F
  obtain ⟨hshape, evs, htr, hev⟩ := F
  have hsc : (Kernel.hasEmptyShapeBlobIn k.op_attribute.output_diff_bns r s2.heap
      && !k.NeedBackwardIfBlobEmpty) = true := by
    rw [hasEmptyShapeBlobIn_congr _ r s.heap s2.heap hshape,
      hasEmptyShapeBlobIn_of_mem _ r s.heap hE, hN]
    rfl
  obtain ⟨s3, h3, ht3, -, hz3⟩ :=
    ClearBlobDim0ValidNumIfNeed_spec r k.op_attribute.input_diff_bns s2
  refine ⟨s3, ?_, ⟨evs, by rw [ht3]; exact htr, hev⟩, ?_⟩
  · rw [Backward_after_dim0_steps k r s s2 hD hsc]
    exact h3
  · intro bn hbn p hp hf
    cases hd : (s3.heap p).dim0_valid_num_ptr with
    | none => simp [Blob.has_dim0_valid_num_field, hd] at hf
    | some d => exact ⟨d, rfl, hz3 bn hbn p hp d hd⟩

/-- Witness for C11 on `kernelBackward`: the input-diff field `[7]` first
receives the output-diff's `[3]` and is then zeroed. -/
theorem Backward_empty_output_diff_short_circuit_witness :
    kernelBackward.NeedBackwardIfBlobEmpty = false ∧
    (∃ s3, kernelBackward.Backward sampleResolver stateEmptyOutDiff = .ok () s3 ∧
      (∃ evs, s3.trace = stateEmptyOutDiff.trace ++ evs ∧ ∀ ev ∈ evs, ev.isCompute = false) ∧
      ∀ bn ∈ kernelBackward.op_attribute.input_diff_bns, ∀ p, sampleResolver bn = some p →
        (s3.heap p).has_dim0_valid_num_field = true →
        ∃ d, (s3.heap p).dim0_valid_num_ptr = some d ∧ ∀ v ∈ d, v = 0) :=
  ⟨rfl, Backward_empty_output_diff_short_circuit kernelBackward sampleResolver
    stateEmptyOutDiff _ rfl ⟨"a", by decide, 0, rfl, rfl⟩ rfl⟩

/-- C12: `BackwardModelDiffDim0ValidNum` recomputes the model-diff
dim0-valid-num.  When it completes, every model-diff binding resolves to a
buffer; a buffer without the field is unchanged, and a buffer with the field
has a single partition (`dim0_inner_shape[0] = 1`) and now holds in entry 0
the value 0 if some output-diff buffer is empty-shaped and its static outer
extent `static_shape[0]` otherwise, nothing else in it having changed.  It
does complete when every model-diff binding resolves to such a buffer, and a
null model-diff binding makes it stop at a fatal error. -/
theorem BackwardModelDiffDim0ValidNum_recomputes (k : Kernel) (r : Resolver) (s : KState) :
    (∀ s2, k.BackwardModelDiffDim0ValidNum r s = .ok () s2 →
      ∀ bn ∈ k.op_attribute.model_diff_bns, ∃ p, r bn = some p ∧
        ((s.heap p).dim0_valid_num_ptr = none → s2.heap p = s.heap p) ∧
        ((s.heap p).dim0_valid_num_ptr ≠ none →
          ∃ (d2 : List Int) (v : Int) (tl : List Int),
            (s.heap p).dim0_inner_shape = some (1 :: tl) ∧
            (s2.heap p).dim0_valid_num_ptr = some d2 ∧ d2.get? 0 = some v ∧
            (s.heap p).spec_model_diff_dim0
              (Kernel.hasEmptyShapeBlobIn k.op_attribute.output_diff_bns r s.heap) = some v ∧
            s2.heap p = { s.heap p with dim0_valid_num_ptr := some d2 })) ∧
    ((∀ bn ∈ k.op_attribute.model_diff_bns, ∃ p, r bn = some p ∧
        (s.heap p).model_diff_well_formed
          (Kernel.hasEmptyShapeBlobIn k.op_attribute.output_diff_bns r s.heap)) →
      ∃ s2, k.BackwardModelDiffDim0ValidNum r s = .ok () s2) ∧
    ((∃ bn ∈ k.op_attribute.model_diff_bns, r bn = none) →
      ∃ err s2, k.BackwardModelDiffDim0ValidNum r s = .fatal err s2) := by
  rw [BackwardModelDiffDim0ValidNum_run]
  refine ⟨?_, ?_, ?_⟩
  · intro s2 h bn hbn
    obtain ⟨hinv, -, -, hall⟩ := modelDiffStep_forM_ok _ r s.heap _ _ s2 h (fun _ => Or.inl rfl)
    obtain ⟨p, hp, hcase⟩ := hall bn hbn
    refine ⟨p, hp, ?_, ?_⟩
    · intro hnone
      rcases hinv p with hq | ⟨d, _, _, hd, _⟩
      · exact hq
      · rw [hnone] at hd; cases hd
    · intro hsome
      rcases hcase with hq | hq
      · exact absurd hq hsome
      · obtain ⟨d, v, tl, hd, hl, hi, hv, hb1⟩ := hq
        obtain ⟨d2, v2, hd2, hg2, hv2, hb2⟩ := model_diff_recomputed_entry _ _ _
          ⟨d, v, tl, hd, hl, hi, hv, hb1⟩
        exact ⟨d2, v2, tl, hi, hd2, hg2, hv2, hb2⟩
  · intro hwf
    exact modelDiffStep_forM_total _ r s.heap _ hwf _ (fun _ => Or.inl rfl)
  · intro hnull
    exact modelDiffStep_forM_null _ r _ hnull _

/-- Witness for C12 on `kernelBackward`: with a non-empty output-diff the
model-diff `c` receives its static extent 2, with an empty-shaped one it
receives 0, and under a resolver that leaves `c` unbound the call is fatal. -/
theorem BackwardModelDiffDim0ValidNum_recomputes_witness :
    (∃ s2, kernelBackward.BackwardModelDiffDim0ValidNum sampleResolver stateFullOutDiff
        = .ok () s2 ∧ (s2.heap 2).dim0_valid_num_ptr = some [2]) ∧
    (∃ s2, kernelBackward.BackwardModelDiffDim0ValidNum sampleResolver stateEmptyOutDiff
        = .ok () s2 ∧ (s2.heap 2).dim0_valid_num_ptr = some [0]) ∧
    (∃ s2, kernelBackward.BackwardModelDiffDim0ValidNum sampleResolver stateFullOutDiff
        = .ok () s2) ∧
    (∃ err s2, kernelBackward.BackwardModelDiffDim0ValidNum modelResolver stateFullOutDiff
        = .fatal err s2) :=
  ⟨⟨_, rfl, rfl⟩, ⟨_, rfl, rfl⟩,
    (BackwardModelDiffDim0ValidNum_recomputes kernelBackward sampleResolver
      stateFullOutDiff).2.1
      (kernelBackward_model_diff_well_formed _ stateFullOutDiff
        (Or.inr ⟨[1], 2, [], rfl, by decide, rfl, rfl⟩)),
    (BackwardModelDiffDim0ValidNum_recomputes kernelBackward modelResolver
      stateFullOutDiff).2.2 ⟨"c", by decide, rfl⟩⟩

/-- C20: a degenerate batch reports no gradient contribution.  For a kernel
with at least one model-diff binding on which `Backward` takes the
empty-output-diff early return (an output-diff buffer is empty-shaped,
`NeedBackwardIfBlobEmpty` is false, and the dim0-valid-num steps before the
test complete), `Backward` completes, and it does so whatever the shapes of
the model-diff buffers, the model-diff-empty assertion lying after the
return.  On return entry 0 of the dim0-valid-num field of every model-diff
buffer is 0, the trace has gained neither a `SetTotalInstanceNumDiffBlob`
entry nor a scalar write, and no data region has changed. -/
theorem Backward_empty_batch_no_gradient (k : Kernel) (r : Resolver) (s s2 : KState)
    (hm : 1 ≤ k.op_attribute.model_diff_bns.length)
    (hN : k.NeedBackwardIfBlobEmpty = false)
    (hE : ∃ bn ∈ k.op_attribute.output_diff_bns, ∃ p, r bn = some p ∧
      (s.heap p).IsShapeEmpty = true)
    (hD : k.BackwardDim0Steps r s = .ok () s2) :
    ∃ s3, k.Backward r s = .ok () s3 ∧ k.Backward r s = k.BackwardEarlyReturn r s2 ∧
      (∀ bn ∈ k.op_attribute.model_diff_bns, ∀ p, r bn = some p →
        ∀ d, (s3.heap p).dim0_valid_num_ptr = some d → ∀ v, d.get? 0 = some v → v = 0) ∧
      (∀ bn ∈ k.op_attribute.model_diff_bns, ∀ p, r bn = some p →
        (∀ b ∈ k.op_attribute.input_diff_bns, r b ≠ some p) →
        (s.heap p).dim0_valid_num_ptr ≠ none →
        ∃ d, (s3.heap p).dim0_valid_num_ptr = some d ∧ d.get? 0 = some 0) ∧
      (∃ evs, s3.trace = s.trace ++ evs ∧ ∀ ev ∈ evs, ev.isTotalInstanceNum = false) ∧
      (∀ p, (s3.heap p).dptr = (s.heap p).dptr) := by
  have hempty := hasEmptyShapeBlobIn_of_mem _ r s.heap hE
  -- the two dim0-valid-num steps
  have hD0 := hD
  unfold Kernel.BackwardDim0Steps at hD0
  obtain ⟨u, s1, h1, h2⟩ := bind_eq_ok hD0
  have h1 := IF_eq_ok_true (by simpa using hm) h1
  obtain ⟨htr1, hinv1, hall1⟩ := BackwardModelDiffDim0ValidNum_ok k r s s1 h1
  rw [hempty] at hinv1 hall1
  have hH : ∀ b : Blob, Blob.sameData b b := fun _ => rfl
  have hT : ∀ a b c : Blob, Blob.sameData a b → Blob.sameData b c → Blob.sameData a c :=
    fun _ _ _ h1 h2 => Eq.trans h2 h1
  have hC : ∀ (c : CopyKind) (d src : Blob), Blob.sameData d (Blob.CopyFrom c d src) :=
    fun c _ _ => by cases c <;> rfl
  have hBID : Preserves (Frame Blob.sameData (fun ev => ev.isTotalInstanceNum = false))
      (k.BackwardInDiffDim0ValidNum r) :=
    preserves_BackwardInDiffDim0ValidNum_of hH hT hC (by rfl) (by intro _ _ _; rfl) k r
  have hCK : Preserves (Frame Blob.sameData (fun ev => ev.isTotalInstanceNum = false))
      (CHECK (!k.kernel_conf.need_do_opaque_header)) :=
    readOnly_preserves (frame_refl hH) (readOnly_CHECK _)
  have F2 := preserves_IF (frame_refl hH)
    (k.kernel_conf.need_do_dim0_valid_num
      && decide (k.op_attribute.input_diff_bns.length > 0))
    (preserves_bind (frame_trans hT) hCK fun _ => hBID) s1
  rw [h2] at F2
  obtain ⟨hdata2, evs2, htr2, hev2⟩ := F2
  have hdata2 : ∀ p, (s2.heap p).dptr = (s1.heap p).dptr := hdata2
  have htr2 : s2.trace = s1.trace ++ evs2 := htr2
  have hout2 : ∀ p, (∀ b ∈ k.op_attribute.input_diff_bns, r b ≠ some p) →
      s2.heap p = s1.heap p := by
    intro p hp
    cases hc : (k.kernel_conf.need_do_dim0_valid_num
        && decide (k.op_attribute.input_diff_bns.length > 0)) with
    | false =>
      rw [hc] at h2
      simp only [IF_false, KM.pure_apply, Result.ok.injEq, true_and] at h2
      rw [h2]
    | true =>
      have h3 := IF_eq_ok_true hc h2
      obtain ⟨u, s0, hck, h3⟩ := bind_eq_ok h3
      obtain ⟨-, hs0⟩ := CHECK_eq_ok hck
      subst hs0
      obtain ⟨-, -, -, -, -, -, -, hout, -⟩ := BackwardInDiffDim0ValidNum_ok k r s1 s2 h3
      exact hout p hp
  -- the early return
  have F := preserves_BackwardDim0Steps (E := fun ev => ev.isCompute = false)
    blobRel_sameShape (fun _ h => h) k r s
  rw [hD] at F
  have hsc : (Kernel.hasEmptyShapeBlobIn k.op_attribute.output_diff_bns r s2.heap
      && !k.NeedBackwardIfBlobEmpty) = true := by
    rw [hasEmptyShapeBlobIn_congr _ r s.heap s2.heap F.1, hempty, hN]
    rfl
  have hB := Backward_after_dim0_steps k r s s2 hD hsc
  obtain ⟨s3, h3, ht3, hfr3, hz3⟩ :=
    ClearBlobDim0ValidNumIfNeed_spec r k.op_attribute.input_diff_bns s2
  have hrec0 : ∀ p, (s.heap p).model_diff_recomputed true (s1.heap p) →
      ∃ d, (s1.heap p).dim0_valid_num_ptr = some d ∧ d.get? 0 = some 0 := by
    intro p hrec
    obtain ⟨d2, v, hd2, hg2, hv2, -⟩ := model_diff_recomputed_entry _ _ _ hrec
    unfold Blob.spec_model_diff_dim0 at hv2
    simp only [if_true, Option.some.injEq] at hv2
    subst hv2
    exact ⟨d2, hd2, hg2⟩
  refine ⟨s3, by rw [hB]; exact h3, hB, ?_, ?_, ?_, ?_⟩
  · intro bn hbn p hp d hd v hv
    by_cases htarget : ∃ b ∈ k.op_attribute.input_diff_bns, r b = some p
    · obtain ⟨b, hb, hbp⟩ := htarget
      exact hz3 b hb p hbp d hd v (List.mem_iff_get?.2 ⟨0, hv⟩)
    · have hnt : ∀ b ∈ k.op_attribute.input_diff_bns, r b ≠ some p :=
        fun b hb hbp => htarget ⟨b, hb, hbp⟩
      have e3 : s3.heap p = s1.heap p := by
        rcases hfr3 p with h | ⟨-, b, hb, hbp, -⟩
        · rw [h, hout2 p hnt]
        · exact absurd hbp (hnt b hb)
      obtain ⟨q, hq, hcase⟩ := hall1 bn hbn
      have hqp : q = p := by rw [hp] at hq; exact (Option.some.inj hq).symm
      subst hqp
      rcases hcase with hnone | hrec
      · exfalso
        have : s1.heap q = s.heap q := by
          rcases hinv1 q with h | ⟨d0, _, _, hd0, _⟩
          · exact h
          · rw [hnone] at hd0; cases hd0
        rw [e3, this, hnone] at hd
        cases hd
      · obtain ⟨d1, hd1, hg1⟩ := hrec0 q hrec
        rw [e3, hd1] at hd
        simp only [Option.some.injEq] at hd
        subst hd
        rw [hg1] at hv
        exact (Option.some.inj hv).symm
  · intro bn hbn p hp hnt hsome
    have e3 : s3.heap p = s1.heap p := by
      rcases hfr3 p with h | ⟨-, b, hb, hbp, -⟩
      · rw [h, hout2 p hnt]
      · exact absurd hbp (hnt b hb)
    obtain ⟨q, hq, hcase⟩ := hall1 bn hbn
    have hqp : q = p := by rw [hp] at hq; exact (Option.some.inj hq).symm
    subst hqp
    rcases hcase with hnone | hrec
    · exact absurd hnone hsome
    · obtain ⟨d1, hd1, hg1⟩ := hrec0 q hrec
      exact ⟨d1, by rw [e3]; exact hd1, hg1⟩
  · refine ⟨[.BackwardModelDiffDim0ValidNum] ++ evs2, ?_, ?_⟩
    · rw [ht3, htr2, htr1, List.append_assoc]
    · intro ev hev
      rcases List.mem_append.1 hev with h | h
      · rw [List.mem_singleton] at h
        rw [h]; rfl
      · exact hev2 ev h
  · intro p
    have e1 : (s1.heap p).dptr = (s.heap p).dptr := by
      rcases hinv1 p with h | ⟨d0, v0, tl0, -, -, -, -, hb⟩
      · rw [h]
      · rw [hb]
    have e3 : (s3.heap p).dptr = (s2.heap p).dptr := by
      rcases hfr3 p with h | ⟨h, -⟩
      · rw [h]
      · rw [h]; rfl
    rw [e3, hdata2 p, e1]

/-- Witness for C20 on `kernelBackward`: the model-diff `c` is itself
empty-shaped, which the assertion after the early return would reject. -/
theorem Backward_empty_batch_no_gradient_witness :
    1 ≤ kernelBackward.op_attribute.model_diff_bns.length ∧
    kernelBackward.NeedBackwardIfBlobEmpty = false ∧
    Kernel.hasEmptyShapeBlobIn kernelBackward.op_attribute.model_diff_bns sampleResolver
      stateEmptyModelDiff.heap = true ∧
    (∃ s3, kernelBackward.Backward sampleResolver stateEmptyModelDiff = .ok () s3 ∧
      (∀ bn ∈ kernelBackward.op_attribute.model_diff_bns, ∀ p, sampleResolver bn = some p →
        ∀ d, (s3.heap p).dim0_valid_num_ptr = some d → ∀ v, d.get? 0 = some v → v = 0) ∧
      (∃ evs, s3.trace = stateEmptyModelDiff.trace ++ evs ∧
        ∀ ev ∈ evs, ev.isTotalInstanceNum = false) ∧
      (∀ p, (s3.heap p).dptr = (stateEmptyModelDiff.heap p).dptr)) := by
  obtain ⟨s3, h, -, hA, -, hC, hD⟩ :=
    Backward_empty_batch_no_gradient kernelBackward sampleResolver stateEmptyModelDiff _
      (by decide) rfl ⟨"a", by decide, 0, rfl, rfl⟩ rfl
  exact ⟨by decide, rfl, rfl, s3, h, hA, hC, hD⟩

/-- C13 (as amended): `BackwardInDiffDim0ValidNum` with
`can_naive_do_dim0_valid_num` set and a first output-diff binding that
resolves.  If every output-diff binding resolves to a buffer whose
dim0-valid-num field is identical to the first one's, the step completes
whatever the input-diff bindings resolve to: null input-diff bindings are
skipped, a buffer no input-diff binding resolves to is unchanged, and every
input-diff buffer afterwards holds the first output-diff's field.  If some
later output-diff buffer's field has the size of the first one's and differs
from it, the step stops at a fatal error with no buffer modified. -/
theorem BackwardInDiffDim0ValidNum_broadcast (k : Kernel) (r : Resolver) (s : KState)
    (bn0 : String) (rest : List String) (p0 : Ptr)
    (hcan : k.kernel_conf.can_naive_do_dim0_valid_num = true)
    (hb : k.op_attribute.output_diff_bns = bn0 :: rest) (h0 : r bn0 = some p0) :
    ((∀ bn ∈ k.op_attribute.output_diff_bns, ∃ p, r bn = some p ∧
        (s.heap p).dim0_valid_num_ptr = (s.heap p0).dim0_valid_num_ptr) →
      ∃ s2, k.BackwardInDiffDim0ValidNum r s = .ok () s2 ∧
        (∀ p, (∀ bn ∈ k.op_attribute.input_diff_bns, r bn ≠ some p) →
          s2.heap p = s.heap p) ∧
        (∀ bn ∈ k.op_attribute.input_diff_bns, ∀ p, r bn = some p →
          (s2.heap p).dim0_valid_num_ptr = (s.heap p0).dim0_valid_num_ptr)) ∧
    (∀ bn ∈ rest, ∀ p d d0, r bn = some p →
      (s.heap p0).dim0_valid_num_ptr = some d0 → (s.heap p).dim0_valid_num_ptr = some d →
      d.length = d0.length → d ≠ d0 →
      ∃ e s2, k.BackwardInDiffDim0ValidNum r s = .fatal e s2 ∧ s2.heap = s.heap) := by
  constructor
  · intro hall
    obtain ⟨s2, h2⟩ := BackwardInDiffDim0ValidNum_total k r s hcan bn0 rest p0 hb h0 hall
    obtain ⟨-, bn1, rest1, p1, hb1, hp1, -, hout, hin⟩ :=
      BackwardInDiffDim0ValidNum_ok k r s s2 h2
    rw [hb] at hb1
    simp only [List.cons.injEq] at hb1
    obtain ⟨hbn, -⟩ := hb1
    subst hbn
    rw [h0] at hp1
    simp only [Option.some.injEq] at hp1
    subst hp1
    exact ⟨s2, h2, hout, hin⟩
  · intro bn hbn p d d0 hp hd0 hd hlen hne
    obtain ⟨e, he⟩ := CheckSameDim0ValidNum_differ k.op_attribute.output_diff_bns r
      { s with trace := s.trace ++ [.BackwardInDiffDim0ValidNum] } bn0 rest p0 d0 hb h0 hd0
      bn hbn p d hp hd hlen hne
    refine ⟨e, { s with trace := s.trace ++ [.BackwardInDiffDim0ValidNum] }, ?_, rfl⟩
    unfold Kernel.BackwardInDiffDim0ValidNum
    rw [KM.bind_ok (KM.log_apply _ _), hcan, KM.bind_ok (CHECK_true _)]
    exact KM.bind_fatal he

/-- Witness for C13 on `kernelTwoOutDiffs`, whose input-diff `missing` is
unresolved: with both output-diffs holding `[4]` the step completes, with
`[4]` and `[5]` it stops. -/
theorem BackwardInDiffDim0ValidNum_broadcast_witness :
    kernelTwoOutDiffs.kernel_conf.can_naive_do_dim0_valid_num = true ∧
    sampleResolver "missing" = none ∧
    (∃ s2, kernelTwoOutDiffs.BackwardInDiffDim0ValidNum sampleResolver stateEqualFields
        = .ok () s2 ∧
      (∀ p, (∀ bn ∈ kernelTwoOutDiffs.op_attribute.input_diff_bns,
          sampleResolver bn ≠ some p) → s2.heap p = stateEqualFields.heap p) ∧
      (∀ bn ∈ kernelTwoOutDiffs.op_attribute.input_diff_bns, ∀ p, sampleResolver bn = some p →
        (s2.heap p).dim0_valid_num_ptr = (stateEqualFields.heap 0).dim0_valid_num_ptr)) ∧
    (∃ e s2, kernelTwoOutDiffs.BackwardInDiffDim0ValidNum sampleResolver stateDifferingFields
        = .fatal e s2 ∧ s2.heap = stateDifferingFields.heap) :=
  ⟨rfl, rfl,
    (BackwardInDiffDim0ValidNum_broadcast kernelTwoOutDiffs sampleResolver stateEqualFields
      "a" ["b"] 0 rfl rfl rfl).1 (by
        intro bn hbn
        rcases List.mem_cons.1 hbn with h | h
        · exact ⟨0, by rw [h]; rfl, rfl⟩
        · rw [List.mem_singleton] at h
          exact ⟨1, by rw [h]; rfl, rfl⟩),
    (BackwardInDiffDim0ValidNum_broadcast kernelTwoOutDiffs sampleResolver
      stateDifferingFields "a" ["b"] 0 rfl rfl rfl).2 "b" (by decide) 1 [5] [4] rfl rfl rfl
      rfl (by decide)⟩

/-- Counterexample to C13 as stated: output-diff `a` holds the one-partition
field `[4]`, output-diff `b` the two-partition field `[4, 5]`; the comparison
covers only the first one's size, so the step completes although the data
differ. -/
theorem BackwardInDiffDim0ValidNum_unequal_output_diffs_pass :
    kernelTwoOutDiffs.op_attribute.output_diff_bns = ["a", "b"] ∧
    sampleResolver "a" = some 0 ∧ sampleResolver "b" = some 1 ∧
    (stateUnequalFields.heap 0).dim0_valid_num_ptr = some [4] ∧
    (stateUnequalFields.heap 1).dim0_valid_num_ptr = some [4, 5] ∧
    (stateUnequalFields.heap 0).dim0_valid_num_ptr
      ≠ (stateUnequalFields.heap 1).dim0_valid_num_ptr ∧
    ∃ s2, kernelTwoOutDiffs.BackwardInDiffDim0ValidNum sampleResolver stateUnequalFields
      = .ok () s2 :=
  ⟨rfl, rfl, rfl, rfl, rfl, by decide, _, rfl⟩

/-- C14: activation requires singleton bindings.  With an activation type
other than `kNone`, on a batch that is not short-circuited as empty `Forward`
stops at a fatal error when the operator does not have exactly one output
binding, and `Backward` stops at a fatal error when it does not have exactly
one output binding and exactly one output-diff binding.  With the activation
type `kNone`, `Forward` and `Backward` behave as the programs without the
activation block, which contain neither check, and whatever their outcome
they add no activation entry to the trace. -/
theorem activation_requires_singleton_bindings (k : Kernel) (r : Resolver) (s : KState) :
    (k.GetActivationType ≠ .kNone →
      ((Kernel.hasEmptyShapeBlobIn k.op_attribute.input_bns r s.heap
          && !k.NeedForwardIfBlobEmpty) = false →
        k.op_attribute.output_bns.length ≠ 1 → (k.Forward r s).isFatal = true) ∧
      ((Kernel.hasEmptyShapeBlobIn k.op_attribute.output_diff_bns r s.heap
          && !k.NeedBackwardIfBlobEmpty) = false →
        k.op_attribute.output_bns.length ≠ 1 ∨ k.op_attribute.output_diff_bns.length ≠ 1 →
        (k.Backward r s).isFatal = true)) ∧
    (k.GetActivationType = .kNone →
      k.Forward r s = k.ForwardWithoutActivation r s ∧
      k.Backward r s = k.BackwardWithoutActivation r s ∧
      (∃ evs, (k.Forward r s).state.trace = s.trace ++ evs ∧
        ∀ ev ∈ evs, ev.isActivation = false) ∧
      (∃ evs, (k.Backward r s).state.trace = s.trace ++ evs ∧
        ∀ ev ∈ evs, ev.isActivation = false)) := by
  refine ⟨fun hA => ⟨Forward_activation_fatal k r s hA, Backward_activation_fatal k r s hA⟩,
    fun hN => ?_⟩
  have hF := Forward_WithoutActivation k r hN
  have hB := Backward_WithoutActivation k r hN
  refine ⟨by rw [hF], by rw [hB], ?_, ?_⟩
  · rw [hF]
    exact (preserves_ForwardWithoutActivation k r s).2
  · rw [hB]
    exact (preserves_BackwardWithoutActivation k r s).2

/-- Witness for C14: the Relu-fused `kernelReluTwoOutputs` stops in both
directions, and `kernelTwoOutputs`, the same operator without activation,
completes in both. -/
theorem activation_requires_singleton_bindings_witness :
    kernelReluTwoOutputs.GetActivationType ≠ .kNone ∧
    kernelReluTwoOutputs.op_attribute.output_bns.length = 2 ∧
    (kernelReluTwoOutputs.Forward sampleResolver statePlain).isFatal = true ∧
    (kernelReluTwoOutputs.Backward sampleResolver statePlain).isFatal = true ∧
    kernelTwoOutputs.GetActivationType = .kNone ∧
    (kernelTwoOutputs.Forward sampleResolver statePlain).isFatal = false ∧
    (kernelTwoOutputs.Backward sampleResolver statePlain).isFatal = false ∧
    (∃ evs, (kernelTwoOutputs.Forward sampleResolver statePlain).state.trace
        = statePlain.trace ++ evs ∧ ∀ ev ∈ evs, ev.isActivation = false) :=
  ⟨by decide, rfl,
    ((activation_requires_singleton_bindings kernelReluTwoOutputs sampleResolver
      statePlain).1 (by decide)).1 rfl (by decide),
    ((activation_requires_singleton_bindings kernelReluTwoOutputs sampleResolver
      statePlain).1 (by decide)).2 rfl (Or.inl (by decide)),
    rfl, rfl, rfl,
    ((activation_requires_singleton_bindings kernelTwoOutputs sampleResolver
      statePlain).2 rfl).2.2.1⟩

/-- C17: the step order of `Forward`.  On a batch that is not short-circuited
as empty and on which `Forward` completes, the steps it has invoked, read off
the trace in order, are exactly the flag-selected subsequence of dim0-,
dim1-, dim2-valid-num propagation, record-id propagation,
`ForwardDataContent`, `ForwardActivation`, then the opaque-header copy if
`need_do_opaque_header` is set and otherwise the data-id and col-num copies:
each metadata step is present iff its own flag is set, `ForwardDataContent`
always, `ForwardActivation` iff the activation type is not `kNone`. -/
theorem Forward_step_order (k : Kernel) (r : Resolver) (s s2 : KState)
    (h : k.Forward r s = .ok () s2)
    (hns : (Kernel.hasEmptyShapeBlobIn k.op_attribute.input_bns r s.heap
      && !k.NeedForwardIfBlobEmpty) = false) :
    ∃ evs, s2.trace = s.trace ++ evs ∧
      evs.filter Event.isStep = k.spec_forward_steps r := by
  unfold Kernel.Forward at h
  obtain ⟨u, s1, h1, h2⟩ := bind_eq_ok h
  have F : Frame Blob.sameShape (fun _ => True) s s1 := by
    have F0 := preserves_IF (frame_refl blobRel_sameShape.refl)
      k.kernel_conf.need_do_dim0_valid_num
      (preserves_bind (frame_trans blobRel_sameShape.trans)
        (readOnly_preserves (frame_refl blobRel_sameShape.refl)
          (readOnly_CHECK (!k.kernel_conf.need_do_opaque_header)))
        fun _ => preserves_ForwardDim0ValidNum (E := fun _ => True) blobRel_sameShape.refl
          blobRel_sameShape.trans blobRel_sameShape.copy (fun _ _ _ => trivial) trivial k r) s
    rw [h1] at F0
    exact F0
  rw [KM.bind_apply, HasEmptyShapeBlob_apply] at h2
  simp only [] at h2
  rw [hasEmptyShapeBlobIn_congr _ r s.heap s1.heap F.1, hns] at h2
  simp only [Bool.false_eq_true, if_false] at h2
  have P0 := stepsOf_IF k.kernel_conf.need_do_dim0_valid_num
    (stepsOf_CHECK_bind (!k.kernel_conf.need_do_opaque_header)
      (stepsOf_logsThenCopies (logsThenCopies_ForwardDim0ValidNum k r) rfl)) s s1 h1
  have P1 := stepsOf_bind
    (stepsOf_IF k.kernel_conf.need_do_dim1_valid_num
      (stepsOf_CHECK_bind (!k.kernel_conf.need_do_opaque_header)
        (stepsOf_logsThenCopies (logsThenCopies_ForwardDim1ValidNum k r) rfl)))
    (fun _ => stepsOf_bind
      (stepsOf_IF k.kernel_conf.need_do_dim2_valid_num
        (stepsOf_CHECK_bind (!k.kernel_conf.need_do_opaque_header)
          (stepsOf_logsThenCopies (logsThenCopies_ForwardDim2ValidNum k r) rfl)))
      (fun _ => stepsOf_bind
        (stepsOf_IF k.kernel_conf.need_do_record_id_in_device_piece
          (stepsOf_CHECK_bind (!k.kernel_conf.need_do_opaque_header)
            (stepsOf_logsThenCopies (logsThenCopies_ForwardRecordIdInDevicePiece k r) rfl)))
        (fun _ => stepsOf_bind
          (stepsOf_logsThenCopies (logsThenCopies_ForwardDataContent k r) rfl)
          (fun _ => stepsOf_bind (stepsOf_ForwardActivation_block k r)
            (fun _ => stepsOf_ite (k.kernel_conf.need_do_opaque_header = true)
              (stepsOf_logsThenCopies (logsThenCopies_ForwardPackedHeader k r) rfl)
              (stepsOf_bind
                (stepsOf_IF k.kernel_conf.need_do_data_id
                  (stepsOf_logsThenCopies (logsThenCopies_ForwardDataId k r) rfl))
                (fun _ => stepsOf_IF k.kernel_conf.need_do_col_num
                  (stepsOf_logsThenCopies (logsThenCopies_ForwardColNum k r) rfl)))))))) s1 s2 h2
  obtain ⟨e0, ht0, hf0⟩ := P0
  obtain ⟨e1, ht1, hf1⟩ := P1
  refine ⟨e0 ++ e1, by rw [ht1, ht0, List.append_assoc], ?_⟩
  rw [List.filter_append, hf0, hf1]
  unfold Kernel.spec_forward_steps
  simp only [List.append_assoc]

/-- Witness for C17: `kernelSteps` invokes dim0, dim2, the data content, the
activation and the col-num copy, and `kernelHeaderAndDataId` the data content
and the opaque-header copy only. -/
theorem Forward_step_order_witness :
    kernelSteps.spec_forward_steps sampleResolver
      = [.ForwardDim0ValidNum, .ForwardDim2ValidNum, .ForwardDataContent sampleResolver,
          .ForwardActivation (some 1), .ForwardColNum] ∧
    (∃ s2, kernelSteps.Forward sampleResolver statePlain = .ok () s2 ∧
      ∃ evs, s2.trace = statePlain.trace ++ evs ∧
        evs.filter Event.isStep = kernelSteps.spec_forward_steps sampleResolver) ∧
    kernelHeaderAndDataId.spec_forward_steps sampleResolver
      = [.ForwardDataContent sampleResolver, .ForwardPackedHeader] ∧
    (∃ s2, kernelHeaderAndDataId.Forward sampleResolver statePlain = .ok () s2 ∧
      ∃ evs, s2.trace = statePlain.trace ++ evs ∧
        evs.filter Event.isStep = kernelHeaderAndDataId.spec_forward_steps sampleResolver) :=
  ⟨rfl,
    ⟨_, rfl, Forward_step_order kernelSteps sampleResolver statePlain _ rfl rfl⟩,
    rfl,
    ⟨_, rfl, Forward_step_order kernelHeaderAndDataId sampleResolver statePlain _ rfl rfl⟩⟩

end oneflow
